import Mathlib

/-!
# Dataflow likelihood graph of bpp-phyl: HMM likelihood nodes and the homogeneous tree builder

Shallow embedding of
* `Bpp/Phyl/NewLikelihood/PhyloLikelihoods/HmmLikelihoodComputation.h`
* `Bpp/NewPhyl/HomogeneousLikelihoodExample.h`

Nodes live in a heap (a list, the index of a node is its identity, standing for the
address held by a `shared_ptr`); the `Context` is the list of cached node identities.
Every operation takes the state and returns the state it leaves behind, also when it
throws.
-/

namespace bpp

/-! ## Data model -/

/-- Identity of a node: its index in the heap. -/
abbrev NodeId := Nat

/-- The `T` of a `Value<T>` node. -/
inductive ValueType
  | string
  | size_t
  | double
  | VectorXd
  | RowVectorXd
  | MatrixXd
  | object
  deriving DecidableEq, Repr

/-- A `Dimension<Eigen::MatrixXd>` (a `MatrixDimension`): rows and columns. -/
structure Dimension where
  rows : Nat
  cols : Nat
  deriving DecidableEq, Repr

/-- Content of a value node. Dense objects carry their two extents and their
coefficients; exact rationals stand for the scalars. -/
inductive Val
  | text (s : String)
  | size (n : Nat)
  | number (x : ℚ)
  | dense (rows cols : Nat) (coeffs : List ℚ)
  | object
  deriving DecidableEq, Repr

/-- Eigen `rows()`. -/
def Val.rows : Val → Nat
  | .dense r _ _ => r
  | _ => 0

/-- Eigen `cols()`. -/
def Val.cols : Val → Nat
  | .dense _ c _ => c
  | _ => 0

/-- Eigen `resize(rows, cols)` of a dynamic matrix: the extents are set, the coefficients
are not specified by Eigen and are taken as zero here. -/
def Val.resize (rows cols : Nat) : Val :=
  .dense rows cols (List.replicate (rows * cols) 0)

/-- Coefficient (row, col) of a dense value, stored column after column as Eigen does by
default. -/
def Val.coeff (v : Val) (row col : Nat) : Option ℚ :=
  match v with
  | .dense rows cols coeffs => if row < rows ∧ col < cols then coeffs[row + col * rows]? else none
  | _ => none

/-- Entry (row, col) of a dense value, 0 outside its extents. -/
def Val.entry (v : Val) (row col : Nat) : ℚ :=
  (v.coeff row col).getD 0

/-- Default-constructed value of each value type. -/
def ValueType.defaultValue : ValueType → Val
  | .string => .text ""
  | .size_t => .size 0
  | .double => .number 0
  | .VectorXd => .dense 0 1 []
  | .RowVectorXd => .dense 1 0 []
  | .MatrixXd => .dense 0 0 []
  | .object => .object

/-- Node classes. The first five are the classes of `HmmLikelihoodComputation.h`; the
others are the classes of the dataflow library used by the two embedded files. -/
inductive NodeKind
  | CondLikelihood
  | ForwardHmmLikelihood_DF
  | ForwardHmmDLikelihood_DF
  | ForwardHmmD2Likelihood_DF
  | BackwardHmmLikelihood_DF
  | NumericConstant
  | NumericMutable
  | ConfiguredModel
  | ConfiguredFrequenciesSet
  | ConfiguredPhyloTree
  | TransitionMatrixFromModel
  | ForwardLikelihoodFromConditional
  | ConditionalLikelihoodFromChildrenForward
  | FrequenciesFromFrequenciesSet
  | EquilibriumFrequenciesFromModel
  | LikelihoodFromRootConditional
  | TotalLogLikelihood
  | CWiseNegate
  | library (tag : Nat)
  deriving DecidableEq, Repr

/-- A `NodeRefVec`: possibly null references to nodes. -/
abbrev NodeRefVec := List (Option NodeId)

/-- A dataflow node. `deps`, `kind` and `valueType` are fixed at construction; `value`
and `valid` are the cached value and the clean/dirty flag. `targetDimension_`,
`condLik_` (also standing for `dCondLik_` and `d2CondLik_`) and `parCondLik_` (also
`dParCondLik_`) are the members the HMM classes add. -/
structure Node where
  kind : NodeKind
  deps : NodeRefVec
  valueType : ValueType
  value : Val
  valid : Bool
  targetDimension_ : Option Dimension
  condLik_ : Option NodeId
  parCondLik_ : Option Val
  deriving DecidableEq, Repr

/-- All nodes allocated so far. -/
abbrev Heap := List Node

/-- Heap and context: `cache` is the node cache of the `Context`. -/
structure State where
  heap : Heap
  cache : List NodeId
  deriving DecidableEq, Repr

/-- Exceptions. `BadSizeException (text, badSize, correctSize)` and `Exception (text)`
are thrown by the embedded sources; the next three are the structural errors of the
dependency checks, the two after them are thrown by the site and tree collaborators.
`RecursionLimit` is not an exception of the program: it marks a traversal cut by the
depth bound of the embedding. -/
inductive Err
  | NullDependencyError
  | DependencyCountError (expected given : Nat)
  | DependencyTypeError (index : Nat)
  | BadSizeException (text : String) (badSize correctSize : Nat)
  | Exception (text : String)
  | UnknownSequenceError (name : String)
  | ParameterNotFoundError (name : String)
  | RecursionLimit
  deriving DecidableEq, Repr

/-- Outcome of an operation on the graph: a result or an exception, with the state left
behind in both cases. -/
inductive Res (α : Type)
  | ok (a : α) (s : State)
  | throw (e : Err) (s : State)
  deriving Repr

/-- State left behind by an operation. -/
def Res.state {α : Type} : Res α → State
  | .ok _ s => s
  | .throw _ s => s

/-- The exception thrown, if any. -/
def Res.error? {α : Type} : Res α → Option Err
  | .ok _ _ => none
  | .throw e _ => some e

/-- The result returned, if any. -/
def Res.value? {α : Type} : Res α → Option α
  | .ok a _ => some a
  | .throw _ _ => none

/-- Whether the operation returned. -/
def Res.isOk {α : Type} : Res α → Bool
  | .ok _ _ => true
  | .throw _ _ => false

/-- The parts of the dataflow library that the embedded files call and whose code is
outside them: `compute` of every node class (a function of the node and of the values of
its dependencies) and the dependency validation done by `create` of the library classes. -/
structure Library where
  compute : Node → List Val → Val
  validate : NodeKind → Heap → NodeRefVec → Option Dimension → Except Err Unit

/-! ## Dataflow library: allocation, cache, checks, evaluation -/

/-- Allocation of a node (`std::make_shared`): the node gets the next identity. -/
def alloc (s : State) (n : Node) : NodeId × State :=
  (s.heap.length, { s with heap := s.heap ++ [n] })

/-- Dispatch of `compareAdditionalArguments (other)` on the class of `self`. For the five
HMM classes this is the source: `dynamic_cast<const Self *> (&other) != nullptr`, which
ignores `targetDimension_`. Modelled from the spec: for the library classes the extra
arguments of the cache key (section 3, Context) are the constant's value for
`NumericConstant` and the target dimension otherwise. -/
def Node.compareAdditionalArguments (self other : Node) : Bool :=
  match self.kind with
  | .CondLikelihood => decide (other.kind = .CondLikelihood)
  | .ForwardHmmLikelihood_DF => decide (other.kind = .ForwardHmmLikelihood_DF)
  | .ForwardHmmDLikelihood_DF => decide (other.kind = .ForwardHmmDLikelihood_DF)
  | .ForwardHmmD2Likelihood_DF => decide (other.kind = .ForwardHmmD2Likelihood_DF)
  | .BackwardHmmLikelihood_DF => decide (other.kind = .BackwardHmmLikelihood_DF)
  | .NumericConstant =>
    decide (other.kind = .NumericConstant ∧ other.valueType = self.valueType
      ∧ other.value = self.value)
  | k => decide (other.kind = k ∧ other.targetDimension_ = self.targetDimension_)

/-- Modelled from the spec: node equality used by the cache (section 3, Context: key =
node type, dependency identities, extra arguments). `entry` is a cached node, `newNode`
the candidate. -/
def sameNode (h : Heap) (newNode entry : NodeId) : Bool :=
  match h[newNode]?, h[entry]? with
  | some n, some e => decide (e.deps = n.deps) && n.compareAdditionalArguments e
  | _, _ => false

/-- Modelled from the spec: `Context::cached` / `cachedAs` (section 4.1): returns the
cached node equal to `newNode` on a hit; on a miss registers `newNode` and returns it. -/
def cachedAs (s : State) (newNode : NodeId) : NodeId × State :=
  match s.cache.find? (sameNode s.heap newNode) with
  | some e => (e, s)
  | none => (newNode, { s with cache := s.cache ++ [newNode] })

/-- Modelled from the spec: `checkDependenciesNotNull` (section 4.1: all dependencies
non-null, else `NullDependencyError`). -/
def checkDependenciesNotNull (deps : NodeRefVec) : Except Err Unit :=
  if deps.all Option.isSome then .ok () else .error .NullDependencyError

/-- Modelled from the spec: `checkDependencyVectorSize` (section 4.1: dependency count
matches the declared signature). -/
def checkDependencyVectorSize (deps : NodeRefVec) (expected : Nat) : Except Err Unit :=
  if deps.length = expected then .ok () else .error (.DependencyCountError expected deps.length)

/-- The node a reference of `deps` points to. -/
def nthDependency (h : Heap) (deps : NodeRefVec) (index : Nat) : Option Node :=
  match deps[index]? with
  | some (some d) => h[d]?
  | _ => none

/-- Modelled from the spec: `checkNthDependencyIsValue<T>` (section 4.1: per-position
type matches the declared signature, else `DependencyTypeError`). -/
def checkNthDependencyIsValue (T : ValueType) (h : Heap) (deps : NodeRefVec) (index : Nat) :
    Except Err Unit :=
  match nthDependency h deps index with
  | some n => if n.valueType = T then .ok () else .error (.DependencyTypeError index)
  | none => .error (.DependencyTypeError index)

/-- Modelled from the spec: `checkNthDependencyIs<C>` (section 4.1: per-position type
matches the declared signature, else `DependencyTypeError`). -/
def checkNthDependencyIs (C : NodeKind) (h : Heap) (deps : NodeRefVec) (index : Nat) :
    Except Err Unit :=
  match nthDependency h deps index with
  | some n => if n.kind = C then .ok () else .error (.DependencyTypeError index)
  | none => .error (.DependencyTypeError index)

/-- Raw access to the value of a node (`accessValueConst`, `accessValueConstCast`): no
recomputation. A dangling reference reads the default value of the type asked for. -/
def accessValueConst (h : Heap) (T : ValueType) (d : Option NodeId) : Val :=
  match d with
  | some i =>
    match h[i]? with
    | some n => n.value
    | none => T.defaultValue
  | none => T.defaultValue

/-- Modelled from the spec: the evaluation contract of section 4.1 (`computeRecursively`):
a clean node is left as it is; a dirty node first forces its dependencies, then gets the
value given by `compute` on the values of its dependencies and is marked clean. The first
argument bounds the depth of the recursion. -/
def computeAux (lib : Library) : Nat → Heap → NodeId → Heap
  | 0, h, _ => h
  | fuel + 1, h, i =>
    match h[i]? with
    | none => h
    | some n =>
      if n.valid then h
      else
        let h1 := n.deps.foldl
          (fun acc d => match d with
            | some j => computeAux lib fuel acc j
            | none => acc) h
        let vals := n.deps.map (fun d => accessValueConst h1 .object d)
        h1.set i { n with value := lib.compute n vals, valid := true }

/-- Evaluation of node `i`; the depth of a graph is at most the number of its nodes. -/
def computeRecursively (lib : Library) (h : Heap) (i : NodeId) : Heap :=
  computeAux lib h.length h i

/-- Modelled from the spec: `Value<T>::getTargetValue` is the `value()` of section 4.1:
the node is evaluated if it is dirty, then its value is read. -/
def getTargetValue (lib : Library) (h : Heap) (T : ValueType) (d : Option NodeId) :
    Val × Heap :=
  match d with
  | some i =>
    let h1 := computeRecursively lib h i
    (accessValueConst h1 T d, h1)
  | none => (T.defaultValue, h)

/-- Modelled from the spec: a constant node holding `value`: no dependency, clean from
construction. -/
def NumericConstant.new (T : ValueType) (value : Val) : Node :=
  { kind := .NumericConstant, deps := [], valueType := T, value := value, valid := true,
    targetDimension_ := none, condLik_ := none, parCondLik_ := none }

/-- Modelled from the spec: `NumericConstant<T>::create (c, value)`: a constant node
holding `value`, shared through the cache. -/
def NumericConstant.create (s : State) (T : ValueType) (value : Val) : NodeId × State :=
  let (i, s1) := alloc s (NumericConstant.new T value)
  cachedAs s1 i

/-- The `k`-th dependency of node `self` (`this->dependency (k)`). -/
def dependency (h : Heap) (self : NodeId) (k : Nat) : Option NodeId :=
  match h[self]? with
  | some n => (n.deps[k]?).join
  | none => none

/-- The member `targetDimension_` of node `self`. -/
def targetDimensionOf (h : Heap) (self : NodeId) : Dimension :=
  match h[self]? with
  | some n => n.targetDimension_.getD ⟨0, 0⟩
  | none => ⟨0, 0⟩

/-- Assignment of the member `condLik_` (`dCondLik_`, `d2CondLik_`) of node `self`. -/
def setCondLik (h : Heap) (self : NodeId) (condLik : NodeId) : Heap :=
  match h[self]? with
  | some n => h.set self { n with condLik_ := some condLik }
  | none => h

/-! ## `HmmLikelihoodComputation.h` -/

/-- The dependency checks of `CondLikelihood::create`. -/
def CondLikelihood.checks (h : Heap) (deps : NodeRefVec) : Except Err Unit := do
  checkDependenciesNotNull deps
  checkDependencyVectorSize deps 2
  checkNthDependencyIsValue .string h deps 1

/-- Constructor `CondLikelihood (deps, dim)`: the value is resized to `dim`. -/
def CondLikelihood.new (deps : NodeRefVec) (dim : Dimension) : Node :=
  { kind := .CondLikelihood, deps := deps, valueType := .MatrixXd,
    value := Val.resize dim.rows dim.cols, valid := false,
    targetDimension_ := some dim, condLik_ := none, parCondLik_ := none }

/-- The function `CondLikelihood::create (c, deps, dim)`. -/
def CondLikelihood.create (s : State) (deps : NodeRefVec) (dim : Dimension) : Res NodeId :=
  match CondLikelihood.checks s.heap deps with
  | .error e => .throw e s
  | .ok _ =>
    let (self, s1) := alloc s (CondLikelihood.new deps dim)
    let (r, s2) := cachedAs s1 self
    .ok r s2

/-- The function `CondLikelihood::derive (c, node)`: throws. -/
def CondLikelihood.derive (s : State) (_self _node : NodeId) : Res NodeId :=
  .throw (.Exception "CondLikelihood::derive is done in dependency class.") s

/-- The function `CondLikelihood::recreate (c, deps)`. -/
def CondLikelihood.recreate (s : State) (self : NodeId) (deps : NodeRefVec) : Res NodeId :=
  CondLikelihood.create s deps (targetDimensionOf s.heap self)

/-- The two statements every `build` method of the forward classes starts with:
`fname = NumericConstant<std::string>::create (c, name)`, then `condLik_ =
CondLikelihood::create (c, {this->shared_from_this (), fname}, targetDimension_)`
(`dCondLik_`, `d2CondLik_` in the derivative classes). -/
def buildCondLik (name : String) (s : State) (self : NodeId) : Res Unit :=
  let targetDimension_ := targetDimensionOf s.heap self
  let (fname, s1) := NumericConstant.create s .string (.text name)
  match CondLikelihood.create s1 [some self, some fname] targetDimension_ with
  | .throw e s2 => .throw e s2
  | .ok condLik s2 => .ok () { s2 with heap := setCondLik s2.heap self condLik }

/-- The dependency checks of `ForwardHmmLikelihood_DF::create`. -/
def ForwardHmmLikelihood_DF.checks (h : Heap) (deps : NodeRefVec) : Except Err Unit := do
  checkDependenciesNotNull deps
  checkDependencyVectorSize deps 3
  checkNthDependencyIsValue .VectorXd h deps 0
  checkNthDependencyIsValue .MatrixXd h deps 1
  checkNthDependencyIsValue .MatrixXd h deps 2

/-- Constructor `ForwardHmmLikelihood_DF (deps, dim)`: `condLik_` is null, `parCondLik_`
is a `dim.rows` x `dim.cols` matrix, the value is resized to `dim.cols`. -/
def ForwardHmmLikelihood_DF.new (deps : NodeRefVec) (dim : Dimension) : Node :=
  { kind := .ForwardHmmLikelihood_DF, deps := deps, valueType := .RowVectorXd,
    value := Val.resize 1 dim.cols, valid := false,
    targetDimension_ := some dim, condLik_ := none,
    parCondLik_ := some (Val.resize dim.rows dim.cols) }

/-- The size checks of `ForwardHmmLikelihood_DF::build (c)`: the three dependencies are
read with `getTargetValue`, one after the other, and their extents are compared with
`targetDimension_`; the first mismatch throws. -/
def ForwardHmmLikelihood_DF.buildChecks (lib : Library) (s : State) (self : NodeId) :
    Res Unit :=
  let targetDimension_ := targetDimensionOf s.heap self
  let (hmmEq, h4) := getTargetValue lib s.heap .VectorXd (dependency s.heap self 0)
  if hmmEq.rows ≠ targetDimension_.rows then
    .throw (.BadSizeException "ForwardHmmLikelihood_DF: bad dimension for starting vector"
      hmmEq.rows targetDimension_.rows) { s with heap := h4 }
  else
    let (hmmTrans, h5) := getTargetValue lib h4 .MatrixXd (dependency h4 self 1)
    if hmmTrans.rows ≠ targetDimension_.rows then
      .throw (.BadSizeException
        "ForwardHmmLikelihood_DF: bad number of rows for transition matrix"
        hmmTrans.rows targetDimension_.rows) { s with heap := h5 }
    else if hmmTrans.cols ≠ targetDimension_.rows then
      .throw (.BadSizeException
        "ForwardHmmLikelihood_DF: bad number of columns for transition matrix"
        hmmTrans.cols targetDimension_.rows) { s with heap := h5 }
    else
      let (hmmEmis, h6) := getTargetValue lib h5 .MatrixXd (dependency h5 self 2)
      if hmmEmis.rows ≠ targetDimension_.rows then
        .throw (.BadSizeException
          "ForwardHmmLikelihood_DF: bad number of states for emission matrix"
          hmmEmis.rows targetDimension_.rows) { s with heap := h6 }
      else if hmmEmis.cols ≠ targetDimension_.cols then
        .throw (.BadSizeException
          "ForwardHmmLikelihood_DF: bad number of sites for emission matrix"
          hmmEmis.cols targetDimension_.cols) { s with heap := h6 }
      else .ok () { s with heap := h6 }

/-- The method `ForwardHmmLikelihood_DF::build (c)`: the name constant and the
`CondLikelihood` companion are created first, the size checks come after. -/
def ForwardHmmLikelihood_DF.build (lib : Library) (s : State) (self : NodeId) : Res Unit :=
  match buildCondLik "forwardCondLik" s self with
  | .throw e s1 => .throw e s1
  | .ok _ s1 => ForwardHmmLikelihood_DF.buildChecks lib s1 self

/-- The function `ForwardHmmLikelihood_DF::create (c, deps, dim)`: checks, allocation,
`build`, then the cache. -/
def ForwardHmmLikelihood_DF.create (lib : Library) (s : State) (deps : NodeRefVec)
    (dim : Dimension) : Res NodeId :=
  match ForwardHmmLikelihood_DF.checks s.heap deps with
  | .error e => .throw e s
  | .ok _ =>
    let (sself, s1) := alloc s (ForwardHmmLikelihood_DF.new deps dim)
    match ForwardHmmLikelihood_DF.build lib s1 sself with
    | .throw e s2 => .throw e s2
    | .ok _ s2 =>
      let (r, s3) := cachedAs s2 sself
      .ok r s3

/-- The function `ForwardHmmLikelihood_DF::recreate (c, deps)`. -/
def ForwardHmmLikelihood_DF.recreate (lib : Library) (s : State) (self : NodeId)
    (deps : NodeRefVec) : Res NodeId :=
  ForwardHmmLikelihood_DF.create lib s deps (targetDimensionOf s.heap self)

/-- The dependency checks of `ForwardHmmDLikelihood_DF::create`. -/
def ForwardHmmDLikelihood_DF.checks (h : Heap) (deps : NodeRefVec) : Except Err Unit := do
  checkDependenciesNotNull deps
  checkDependencyVectorSize deps 7
  checkNthDependencyIsValue .VectorXd h deps 0
  checkNthDependencyIsValue .MatrixXd h deps 1
  checkNthDependencyIsValue .MatrixXd h deps 2
  checkNthDependencyIs .ForwardHmmLikelihood_DF h deps 3
  checkNthDependencyIsValue .VectorXd h deps 4
  checkNthDependencyIsValue .MatrixXd h deps 5
  checkNthDependencyIsValue .MatrixXd h deps 6

/-- Constructor `ForwardHmmDLikelihood_DF (deps, dim)`. -/
def ForwardHmmDLikelihood_DF.new (deps : NodeRefVec) (dim : Dimension) : Node :=
  { kind := .ForwardHmmDLikelihood_DF, deps := deps, valueType := .RowVectorXd,
    value := Val.resize 1 dim.cols, valid := false,
    targetDimension_ := some dim, condLik_ := none,
    parCondLik_ := some (Val.resize dim.rows dim.cols) }

/-- The method `ForwardHmmDLikelihood_DF::build (c)`: name constant and companion only. -/
def ForwardHmmDLikelihood_DF.build (s : State) (self : NodeId) : Res Unit :=
  buildCondLik "forwardDcondLik" s self

/-- The function `ForwardHmmDLikelihood_DF::create (c, deps, dim)`. -/
def ForwardHmmDLikelihood_DF.create (s : State) (deps : NodeRefVec) (dim : Dimension) :
    Res NodeId :=
  match ForwardHmmDLikelihood_DF.checks s.heap deps with
  | .error e => .throw e s
  | .ok _ =>
    let (sself, s1) := alloc s (ForwardHmmDLikelihood_DF.new deps dim)
    match ForwardHmmDLikelihood_DF.build s1 sself with
    | .throw e s2 => .throw e s2
    | .ok _ s2 =>
      let (r, s3) := cachedAs s2 sself
      .ok r s3

/-- The dependency checks of `ForwardHmmD2Likelihood_DF::create`. -/
def ForwardHmmD2Likelihood_DF.checks (h : Heap) (deps : NodeRefVec) : Except Err Unit := do
  checkDependenciesNotNull deps
  checkDependencyVectorSize deps 11
  checkNthDependencyIsValue .VectorXd h deps 0
  checkNthDependencyIsValue .MatrixXd h deps 1
  checkNthDependencyIsValue .MatrixXd h deps 2
  checkNthDependencyIs .ForwardHmmLikelihood_DF h deps 3
  checkNthDependencyIsValue .VectorXd h deps 4
  checkNthDependencyIsValue .MatrixXd h deps 5
  checkNthDependencyIsValue .MatrixXd h deps 6
  checkNthDependencyIs .ForwardHmmDLikelihood_DF h deps 7
  checkNthDependencyIsValue .VectorXd h deps 8
  checkNthDependencyIsValue .MatrixXd h deps 9
  checkNthDependencyIsValue .MatrixXd h deps 10

/-- Constructor `ForwardHmmD2Likelihood_DF (deps, dim)`. -/
def ForwardHmmD2Likelihood_DF.new (deps : NodeRefVec) (dim : Dimension) : Node :=
  { kind := .ForwardHmmD2Likelihood_DF, deps := deps, valueType := .RowVectorXd,
    value := Val.resize 1 dim.cols, valid := false,
    targetDimension_ := some dim, condLik_ := none, parCondLik_ := none }

/-- The method `ForwardHmmD2Likelihood_DF::build (c)`: name constant and companion only. -/
def ForwardHmmD2Likelihood_DF.build (s : State) (self : NodeId) : Res Unit :=
  buildCondLik "forwardD2condLik" s self

/-- The function `ForwardHmmD2Likelihood_DF::create (c, deps, dim)`. -/
def ForwardHmmD2Likelihood_DF.create (s : State) (deps : NodeRefVec) (dim : Dimension) :
    Res NodeId :=
  match ForwardHmmD2Likelihood_DF.checks s.heap deps with
  | .error e => .throw e s
  | .ok _ =>
    let (sself, s1) := alloc s (ForwardHmmD2Likelihood_DF.new deps dim)
    match ForwardHmmD2Likelihood_DF.build s1 sself with
    | .throw e s2 => .throw e s2
    | .ok _ s2 =>
      let (r, s3) := cachedAs s2 sself
      .ok r s3

/-- The function `ForwardHmmD2Likelihood_DF::derive (c, node)`: throws. -/
def ForwardHmmD2Likelihood_DF.derive (s : State) (_self _node : NodeId) : Res NodeId :=
  .throw (.Exception "ForwardHmmD2Likelihood_DF::derive not implemented.") s

/-- The dependency checks of `BackwardHmmLikelihood_DF::create`. -/
def BackwardHmmLikelihood_DF.checks (h : Heap) (deps : NodeRefVec) : Except Err Unit := do
  checkDependenciesNotNull deps
  checkDependencyVectorSize deps 3
  checkNthDependencyIsValue .RowVectorXd h deps 0
  checkNthDependencyIsValue .MatrixXd h deps 1
  checkNthDependencyIsValue .MatrixXd h deps 2

/-- Constructor `BackwardHmmLikelihood_DF (deps, dim)`: the value is resized to `dim`,
then the raw values of the three dependencies are compared with `dim`; a failed
comparison throws and no node is constructed. -/
def BackwardHmmLikelihood_DF.new (h : Heap) (deps : NodeRefVec) (dim : Dimension) :
    Except Err Node :=
  let hmmScale := accessValueConst h .RowVectorXd (deps[0]?).join
  if hmmScale.cols ≠ dim.cols then
    .error (.BadSizeException
      "BackwardHmmLikelihood_DF: bad dimension for forward likelihoods vector"
      hmmScale.rows dim.rows)
  else
    let hmmTrans := accessValueConst h .MatrixXd (deps[1]?).join
    if hmmTrans.rows ≠ dim.rows then
      .error (.BadSizeException
        "BackwardHmmLikelihood_DF: bad number of rows for transition matrix"
        hmmTrans.rows dim.rows)
    else if hmmTrans.cols ≠ dim.rows then
      .error (.BadSizeException
        "BackwardHmmLikelihood_DF: bad number of columns for transition matrix"
        hmmTrans.cols dim.rows)
    else
      let hmmEmis := accessValueConst h .MatrixXd (deps[2]?).join
      if hmmEmis.rows ≠ dim.rows then
        .error (.BadSizeException
          "BackwardHmmLikelihood_DF: bad number of states for emission matrix"
          hmmEmis.rows dim.rows)
      else if hmmEmis.cols ≠ dim.cols then
        .error (.BadSizeException
          "BackwardHmmLikelihood_DF: bad number of sites for emission matrix"
          hmmEmis.cols dim.cols)
      else
        .ok { kind := .BackwardHmmLikelihood_DF, deps := deps, valueType := .MatrixXd,
              value := Val.resize dim.rows dim.cols, valid := false,
              targetDimension_ := some dim, condLik_ := none, parCondLik_ := none }

/-- The function `BackwardHmmLikelihood_DF::create (c, deps, dim)`. -/
def BackwardHmmLikelihood_DF.create (s : State) (deps : NodeRefVec) (dim : Dimension) :
    Res NodeId :=
  match BackwardHmmLikelihood_DF.checks s.heap deps with
  | .error e => .throw e s
  | .ok _ =>
    match BackwardHmmLikelihood_DF.new s.heap deps dim with
    | .error e => .throw e s
    | .ok n =>
      let (self, s1) := alloc s n
      let (r, s2) := cachedAs s1 self
      .ok r s2

/-- The function `BackwardHmmLikelihood_DF::derive (c, node)`: the `throw` is its first
statement, the `return` after it is never reached. -/
def BackwardHmmLikelihood_DF.derive (s : State) (_self _node : NodeId) : Res NodeId :=
  .throw (.Exception "BackwardHmmLikelihood_DF::derive To be finished.") s

/-- Modelled from the spec: the forward recursion of section 4.3, for `n` hidden states.
For site `j` it gives the column `condLik[:, j]` and the normalization constant of the
site. Site 0: the starting vector times the emissions of the site, normalized; site
`j + 1`: `parCondLik[:, j + 1] = transitionMatrix^T * condLik[:, j]`, times the emissions
of the site, normalized. -/
def ForwardHmmLikelihood_DF.forward (n : Nat) (hmmEq : Nat → ℚ) (hmmTrans : Nat → Nat → ℚ)
    (hmmEmis : Nat → Nat → ℚ) : Nat → List ℚ × ℚ
  | 0 =>
    let unnormalized := fun i => hmmEq i * hmmEmis i 0
    let scale := ((List.range n).map unnormalized).sum
    ((List.range n).map (fun i => unnormalized i / scale), scale)
  | j + 1 =>
    let condLik := (ForwardHmmLikelihood_DF.forward n hmmEq hmmTrans hmmEmis j).1
    let parCondLik := (List.range n).map (fun i =>
      ((List.range n).map (fun k => hmmTrans k i * condLik.getD k 0)).sum)
    let unnormalized := fun i => parCondLik.getD i 0 * hmmEmis i (j + 1)
    let scale := ((List.range n).map unnormalized).sum
    ((List.range n).map (fun i => unnormalized i / scale), scale)

/-- Modelled from the spec: `ForwardHmmLikelihood_DF::compute ()` (section 4.3 and the
documentation of the class): the value is the row vector that holds, for each of the
`targetDimension_.cols` sites, the normalization constant of the forward recursion run on
the values of the three dependencies, which is the conditional likelihood of the site;
the scale of the spec is its logarithm. -/
def ForwardHmmLikelihood_DF.compute (targetDimension_ : Dimension)
    (hmmEq hmmTrans hmmEmis : Val) : Val :=
  .dense 1 targetDimension_.cols
    ((List.range targetDimension_.cols).map (fun j =>
      (ForwardHmmLikelihood_DF.forward targetDimension_.rows (fun i => hmmEq.entry i 0)
        (fun k i => hmmTrans.entry k i) (fun i j => hmmEmis.entry i j) j).2))

/-! ## `HomogeneousLikelihoodExample.h` -/

/-- Modelled from the spec: `create` of a class of the dataflow library (section 4.1):
dependencies are validated (non-null, then count, types and shapes against the declared
signature of the class, which is `lib.validate`), then the cache is looked up and the
node is constructed and registered on a miss. Nothing is evaluated. `dim` is `none` for
the scalar descriptor `Dimension<double> ()`. -/
def createNode (lib : Library) (kind : NodeKind) (T : ValueType) (s : State)
    (deps : NodeRefVec) (dim : Option Dimension) : Res NodeId :=
  match checkDependenciesNotNull deps with
  | .error e => .throw e s
  | .ok _ =>
    match lib.validate kind s.heap deps dim with
    | .error e => .throw e s
    | .ok _ =>
      let (self, s1) := alloc s
        { kind := kind, deps := deps, valueType := T, value := T.defaultValue, valid := false,
          targetDimension_ := dim, condLik_ := none, parCondLik_ := none }
      let (r, s2) := cachedAs s1 self
      .ok r s2

/-- Modelled from the spec: rooted-tree traversal primitives of the topology collaborator
(section 6): root identifier, child branch indices of a node, the child node of a branch,
the name of a node. -/
structure PhyloTree where
  isRooted : Bool
  getRootIndex : Nat
  getBranches : Nat → List Nat
  getSon : Nat → Nat
  getName : Nat → String

/-- Modelled from the spec: a `ConfiguredPhyloTree`: a node of the graph whose
dependencies are the parameters of the tree, found by name. -/
structure ConfiguredPhyloTree where
  node : NodeId
  getValue : PhyloTree
  getParameterIndex : String → Option Nat

/-- Modelled from the spec: the site-data collaborator (section 6): number of sites,
name-to-row resolution, and the value for (site, sequence, state). -/
structure AlignedValuesContainer where
  getNumberOfSites : Nat
  getSequencePosition : String → Option Nat
  getStateValueAt : Nat → Nat → Int → ℚ

/-- Modelled from the spec: a `ConfiguredModel`: a node of the graph wrapping a
substitution model, with its number of states and its state map. -/
structure ConfiguredModel where
  node : NodeId
  getNumberOfStates : Nat
  getAlphabetStateAsInt : Nat → Int

/-- Modelled from the spec: a `ConfiguredFrequenciesSet`: a node of the graph. -/
structure ConfiguredFrequenciesSet where
  node : NodeId

/-- Dimension helper `conditionalLikelihoodDimension (nbState, nbSite)`. -/
def conditionalLikelihoodDimension (nbState nbSite : Nat) : Dimension := ⟨nbState, nbSite⟩

/-- Dimension helper `transitionMatrixDimension (nbState)`. -/
def transitionMatrixDimension (nbState : Nat) : Dimension := ⟨nbState, nbState⟩

/-- Dimension helper `rowVectorDimension (n)`. -/
def rowVectorDimension (n : Nat) : Dimension := ⟨1, n⟩

/-- The struct `HomogeneousLikelihoodNodesHelper` (the context `c` is the state passed to
its methods; `totalLogLikelihood` and `rate` are null and never read). -/
structure HomogeneousLikelihoodNodesHelper where
  sites : AlignedValuesContainer
  tree : ConfiguredPhyloTree
  model : ConfiguredModel
  rootFreqs : Option ConfiguredFrequenciesSet
  likelihoodMatrixDim : Dimension
  nbState : Nat
  nbSite : Nat

/-- Coefficient list of the matrix filled by `makeInitialConditionalLikelihood`, column
after column: entry (state, site) is at position `state + site * nbState`. -/
def HomogeneousLikelihoodNodesHelper.initCondLik (e : HomogeneousLikelihoodNodesHelper)
    (sequenceIndex : Nat) : Val :=
  .dense e.nbState e.nbSite
    ((List.range e.nbSite).flatMap (fun site =>
      (List.range e.nbState).map (fun state =>
        e.sites.getStateValueAt site sequenceIndex (e.model.getAlphabetStateAsInt state))))

/-- The method `makeInitialConditionalLikelihood (sequenceName)`. -/
def HomogeneousLikelihoodNodesHelper.makeInitialConditionalLikelihood
    (e : HomogeneousLikelihoodNodesHelper) (s : State) (sequenceName : String) : Res NodeId :=
  match e.sites.getSequencePosition sequenceName with
  | none => .throw (.UnknownSequenceError sequenceName) s
  | some sequenceIndex =>
    let (r, s1) := NumericConstant.create s .MatrixXd (e.initCondLik sequenceIndex)
    .ok r s1

/-- The method `makeForwardLikelihoodNode (index)`, with the call to
`makeConditionalLikelihoodNode` on the child node passed as `child`. -/
def HomogeneousLikelihoodNodesHelper.makeForwardLikelihoodNodeFrom
    (e : HomogeneousLikelihoodNodesHelper) (lib : Library)
    (child : State → Nat → Res NodeId) (s : State) (index : Nat) : Res NodeId :=
  match e.tree.getParameterIndex ("BrLen" ++ toString index) with
  | none => .throw (.ParameterNotFoundError ("BrLen" ++ toString index)) s
  | some k =>
    let brlen := dependency s.heap e.tree.node k
    match child s (e.tree.getValue.getSon index) with
    | .throw err s1 => .throw err s1
    | .ok childConditionalLikelihood s1 =>
      match createNode lib .TransitionMatrixFromModel .MatrixXd s1 [some e.model.node, brlen]
          (some (transitionMatrixDimension e.nbState)) with
      | .throw err s2 => .throw err s2
      | .ok transitionMatrix s2 =>
        createNode lib .ForwardLikelihoodFromConditional .MatrixXd s2
          [some transitionMatrix, some childConditionalLikelihood] (some e.likelihoodMatrixDim)

/-- The loop of `makeConditionalLikelihoodNode`: `deps[i] = makeForwardLikelihoodNode
(childBranchIndexes[i])`, in increasing `i`. -/
def forEachBranch (f : State → Nat → Res NodeId) : State → List Nat → Res NodeRefVec
  | s, [] => .ok [] s
  | s, b :: bs =>
    match f s b with
    | .throw err s1 => .throw err s1
    | .ok d s1 =>
      match forEachBranch f s1 bs with
      | .throw err s2 => .throw err s2
      | .ok ds s2 => .ok (some d :: ds) s2

/-- The method `makeConditionalLikelihoodNode (index)`. The first argument bounds the
depth of the mutual recursion with `makeForwardLikelihoodNode`. -/
def HomogeneousLikelihoodNodesHelper.makeConditionalLikelihoodNode
    (e : HomogeneousLikelihoodNodesHelper) (lib : Library) : Nat → State → Nat → Res NodeId
  | 0, s, _ => .throw .RecursionLimit s
  | fuel + 1, s, index =>
    let childBranchIndexes := e.tree.getValue.getBranches index
    if childBranchIndexes.isEmpty then
      e.makeInitialConditionalLikelihood s (e.tree.getValue.getName index)
    else
      match forEachBranch
          (fun s1 b => e.makeForwardLikelihoodNodeFrom lib
            (fun s2 i => HomogeneousLikelihoodNodesHelper.makeConditionalLikelihoodNode
              e lib fuel s2 i) s1 b)
          s childBranchIndexes with
      | .throw err s1 => .throw err s1
      | .ok deps s1 =>
        createNode lib .ConditionalLikelihoodFromChildrenForward .MatrixXd s1 deps
          (some e.likelihoodMatrixDim)

/-- The method `makeForwardLikelihoodNode (index)`. -/
def HomogeneousLikelihoodNodesHelper.makeForwardLikelihoodNode
    (e : HomogeneousLikelihoodNodesHelper) (lib : Library) (fuel : Nat) (s : State)
    (index : Nat) : Res NodeId :=
  e.makeForwardLikelihoodNodeFrom lib (e.makeConditionalLikelihoodNode lib fuel) s index

/-- The root frequencies node of `makeHomogeneousLikelihoodNodes`: from the frequency set
when one is given, from the model otherwise. -/
def makeRootFrequencies (lib : Library) (s : State) (model : ConfiguredModel)
    (rootFreqs : Option ConfiguredFrequenciesSet) (nbState : Nat) : Res NodeId :=
  match rootFreqs with
  | some rf =>
    createNode lib .FrequenciesFromFrequenciesSet .RowVectorXd s [some rf.node]
      (some (rowVectorDimension nbState))
  | none =>
    createNode lib .EquilibriumFrequenciesFromModel .RowVectorXd s [some model.node]
      (some (rowVectorDimension nbState))

/-- The function `makeHomogeneousLikelihoodNodes (c, sites, tree, model, rootFreqs)`. -/
def makeHomogeneousLikelihoodNodes (lib : Library) (fuel : Nat) (s : State)
    (sites : AlignedValuesContainer) (tree : ConfiguredPhyloTree) (model : ConfiguredModel)
    (rootFreqs : Option ConfiguredFrequenciesSet) : Res NodeId :=
  let nbState := model.getNumberOfStates
  let nbSite := sites.getNumberOfSites
  let likelihoodMatrixDim := conditionalLikelihoodDimension nbState nbSite
  if ¬ tree.getValue.isRooted then
    .throw (.Exception "PhyloTree must be rooted") s
  else
    let helper : HomogeneousLikelihoodNodesHelper :=
      { sites := sites, tree := tree, model := model, rootFreqs := rootFreqs,
        likelihoodMatrixDim := likelihoodMatrixDim, nbState := nbState, nbSite := nbSite }
    match helper.makeConditionalLikelihoodNode lib fuel s tree.getValue.getRootIndex with
    | .throw err s1 => .throw err s1
    | .ok rootConditionalLikelihoods s1 =>
      match makeRootFrequencies lib s1 model rootFreqs nbState with
      | .throw err s2 => .throw err s2
      | .ok rFreqs s2 =>
        match createNode lib .LikelihoodFromRootConditional .RowVectorXd s2
            [some rFreqs, some rootConditionalLikelihoods]
            (some (rowVectorDimension nbSite)) with
        | .throw err s3 => .throw err s3
        | .ok siteLikelihoods s3 =>
          match createNode lib .TotalLogLikelihood .double s3 [some siteLikelihoods]
              (some (rowVectorDimension nbSite)) with
          | .throw err s4 => .throw err s4
          | .ok totalLogLikelihood s4 =>
            createNode lib .CWiseNegate .double s4 [some totalLogLikelihood] none

/-- A call of one of the three methods of `HomogeneousLikelihoodNodesHelper`, with its
argument. -/
inductive Call
  | makeInitialConditionalLikelihood (sequenceName : String)
  | makeForwardLikelihoodNode (index : Nat)
  | makeConditionalLikelihoodNode (index : Nat)
  deriving DecidableEq, Repr

/-- The method `makeInitialConditionalLikelihood (sequenceName)` with the record of the
calls: the same statements, and the call is recorded when it returns. -/
def HomogeneousLikelihoodNodesHelper.makeInitialConditionalLikelihoodTraced
    (e : HomogeneousLikelihoodNodesHelper) (s : State) (sequenceName : String) :
    Res NodeId × List Call :=
  match e.sites.getSequencePosition sequenceName with
  | none => (.throw (.UnknownSequenceError sequenceName) s, [])
  | some sequenceIndex =>
    let (r, s1) := NumericConstant.create s .MatrixXd (e.initCondLik sequenceIndex)
    (.ok r s1, [.makeInitialConditionalLikelihood sequenceName])

/-- The method `makeForwardLikelihoodNode (index)` with the record of the calls: the same
statements as `makeForwardLikelihoodNodeFrom`; the calls made below it are recorded in the
order in which they return, then the call itself when it returns. -/
def HomogeneousLikelihoodNodesHelper.makeForwardLikelihoodNodeFromTraced
    (e : HomogeneousLikelihoodNodesHelper) (lib : Library)
    (child : State → Nat → Res NodeId × List Call) (s : State) (index : Nat) :
    Res NodeId × List Call :=
  match e.tree.getParameterIndex ("BrLen" ++ toString index) with
  | none => (.throw (.ParameterNotFoundError ("BrLen" ++ toString index)) s, [])
  | some k =>
    let brlen := dependency s.heap e.tree.node k
    match child s (e.tree.getValue.getSon index) with
    | (.throw err s1, calls) => (.throw err s1, calls)
    | (.ok childConditionalLikelihood s1, calls) =>
      match createNode lib .TransitionMatrixFromModel .MatrixXd s1 [some e.model.node, brlen]
          (some (transitionMatrixDimension e.nbState)) with
      | .throw err s2 => (.throw err s2, calls)
      | .ok transitionMatrix s2 =>
        match createNode lib .ForwardLikelihoodFromConditional .MatrixXd s2
            [some transitionMatrix, some childConditionalLikelihood]
            (some e.likelihoodMatrixDim) with
        | .throw err s3 => (.throw err s3, calls)
        | .ok r s3 => (.ok r s3, calls ++ [.makeForwardLikelihoodNode index])

/-- The loop of `makeConditionalLikelihoodNode` with the record of the calls. -/
def forEachBranchTraced (f : State → Nat → Res NodeId × List Call) :
    State → List Nat → Res NodeRefVec × List Call
  | s, [] => (.ok [] s, [])
  | s, b :: bs =>
    match f s b with
    | (.throw err s1, calls) => (.throw err s1, calls)
    | (.ok d s1, calls) =>
      match forEachBranchTraced f s1 bs with
      | (.throw err s2, calls2) => (.throw err s2, calls ++ calls2)
      | (.ok ds s2, calls2) => (.ok (some d :: ds) s2, calls ++ calls2)

/-- The method `makeConditionalLikelihoodNode (index)` with the record of the calls: the
same statements as `makeConditionalLikelihoodNode`; the calls made below it are recorded in
the order in which they return, then the call itself when it returns. -/
def HomogeneousLikelihoodNodesHelper.makeConditionalLikelihoodNodeTraced
    (e : HomogeneousLikelihoodNodesHelper) (lib : Library) :
    Nat → State → Nat → Res NodeId × List Call
  | 0, s, _ => (.throw .RecursionLimit s, [])
  | fuel + 1, s, index =>
    let childBranchIndexes := e.tree.getValue.getBranches index
    if childBranchIndexes.isEmpty then
      match e.makeInitialConditionalLikelihoodTraced s (e.tree.getValue.getName index) with
      | (.throw err s1, calls) => (.throw err s1, calls)
      | (.ok r s1, calls) => (.ok r s1, calls ++ [.makeConditionalLikelihoodNode index])
    else
      match forEachBranchTraced
          (fun s1 b => e.makeForwardLikelihoodNodeFromTraced lib
            (fun s2 i => HomogeneousLikelihoodNodesHelper.makeConditionalLikelihoodNodeTraced
              e lib fuel s2 i) s1 b)
          s childBranchIndexes with
      | (.throw err s1, calls) => (.throw err s1, calls)
      | (.ok deps s1, calls) =>
        match createNode lib .ConditionalLikelihoodFromChildrenForward .MatrixXd s1 deps
            (some e.likelihoodMatrixDim) with
        | .throw err s2 => (.throw err s2, calls)
        | .ok r s2 => (.ok r s2, calls ++ [.makeConditionalLikelihoodNode index])

/-! ## `GY94.cpp` -/

/-- A `ParameterList`: parameters as (name, value) pairs, in the order they were added. -/
abbrev ParameterList := List (String × ℚ)

/-- The operations that `GY94.cpp` calls on its collaborators, whose code is outside the
embedded file: the wrapped `CodonAsynonymousFrequenciesReversibleSubstitutionModel`
(values of type `M`), the genetic code (`G`) and the codon frequencies set (`F`). `new` is
the constructor `(gc, codonFreqs, &gacd_)`; `getParameterValue` reads a parameter by its
name without namespace and has no value when the model has no such parameter. -/
structure CodonModelOps (M G F : Type) where
  new : G → F → M
  setNamespace : M → String → M
  matchParametersValues : M → ParameterList → M
  getParameters : M → ParameterList
  getParameterValue : M → String → Option ℚ
  getGeneticCode : M → G
  getFreq : M → F
  setFreq : M → List (Int × ℚ) → M
  clone : F → F
  freqParameters : F → ParameterList

/-- A `GY94` object: the namespace and the parameters held by its base class
`AbstractReversibleSubstitutionModel`, and the member `pmodel_` (`gacd_` holds no data). -/
structure GY94 (M : Type) where
  nameSpace : String
  parameters_ : ParameterList
  pmodel_ : M

/-- Base class method `addParameter_ (parameter)`. -/
def GY94.addParameter_ {M : Type} (self : GY94 M) (p : String × ℚ) : GY94 M :=
  { self with parameters_ := self.parameters_ ++ [p] }

/-- Base class method `addParameters_ (parameters)`. -/
def GY94.addParameters_ {M : Type} (self : GY94 M) (pl : ParameterList) : GY94 M :=
  { self with parameters_ := self.parameters_ ++ pl }

/-- Base class method `getParameterValue (name)`: the value of the parameter whose full
name is the namespace followed by `name`; no value stands for
`ParameterNotFoundException`. -/
def GY94.getParameterValue {M : Type} (self : GY94 M) (name : String) : Option ℚ :=
  self.parameters_.lookup (self.nameSpace ++ name)

/-- The method `GY94::updateMatrices ()`. -/
def GY94.updateMatrices {M G F : Type} (ops : CodonModelOps M G F) (self : GY94 M) :
    Option (GY94 M) := do
  let kappa ← self.getParameterValue "kappa"
  let v ← self.getParameterValue "V"
  let pl : ParameterList := [("GY94.123_K80.kappa", kappa), ("GY94.alpha", v)]
  pure { self with pmodel_ := ops.matchParametersValues self.pmodel_ pl }

/-- Constructor `GY94::GY94 (gc, codonFreqs)`. -/
def GY94.new {M G F : Type} (ops : CodonModelOps M G F) (gc : G) (codonFreqs : F) :
    Option (GY94 M) :=
  let self : GY94 M :=
    { nameSpace := "GY94.", parameters_ := [], pmodel_ := ops.new gc codonFreqs }
  let self := self.addParameter_ ("GY94.kappa", 1)
  let self := self.addParameter_ ("GY94.V", 10000)
  let self := { self with pmodel_ := ops.setNamespace self.pmodel_ "GY94." }
  let self := self.addParameters_ (ops.freqParameters codonFreqs)
  GY94.updateMatrices ops self

/-- Copy constructor `GY94::GY94 (const GY94 & gy94)`: base class and `pmodel_` are
copied. -/
def GY94.copy {M : Type} (gy94 : GY94 M) : GY94 M :=
  { nameSpace := gy94.nameSpace, parameters_ := gy94.parameters_, pmodel_ := gy94.pmodel_ }

/-- The operator `GY94::operator= (const GY94 & gy94)`: the base class is assigned, then
`pmodel_` is a new model built from the genetic code and a clone of the frequencies of
`gy94.pmodel_`. -/
def GY94.assign {M G F : Type} (ops : CodonModelOps M G F) (_self gy94 : GY94 M) : GY94 M :=
  { nameSpace := gy94.nameSpace, parameters_ := gy94.parameters_,
    pmodel_ := ops.new (ops.getGeneticCode gy94.pmodel_)
      (ops.clone (ops.getFreq gy94.pmodel_)) }

/-- Base class method `matchParametersValues (parameters)`: the parameters of `self`
whose name is in the list take the value given there, then `fireParameterChanged` runs
`updateMatrices`. -/
def GY94.matchParametersValues {M G F : Type} (ops : CodonModelOps M G F) (self : GY94 M)
    (pl : ParameterList) : Option (GY94 M) :=
  GY94.updateMatrices ops
    { self with parameters_ := self.parameters_.map (fun p =>
        match pl.lookup p.1 with
        | some v => (p.1, v)
        | none => p) }

/-- The method `GY94::setFreq (m)`. -/
def GY94.setFreq {M G F : Type} (ops : CodonModelOps M G F) (self : GY94 M)
    (m : List (Int × ℚ)) : Option (GY94 M) :=
  let self := { self with pmodel_ := ops.setFreq self.pmodel_ m }
  GY94.matchParametersValues ops self (ops.getParameters self.pmodel_)

/-! ## Notions used to state the properties -/

/-- The three values `ForwardHmmLikelihood_DF::build` reads with `getTargetValue`, in the
order it reads them, in the call `create (c, deps, dim)` started in state `s`. -/
def ForwardHmmLikelihood_DF.targetValues (lib : Library) (s : State) (deps : NodeRefVec)
    (dim : Dimension) : Val × Val × Val :=
  let (sself, s1) := alloc s (ForwardHmmLikelihood_DF.new deps dim)
  let s2 := (buildCondLik "forwardCondLik" s1 sself).state
  let (hmmEq, h4) := getTargetValue lib s2.heap .VectorXd (dependency s2.heap sself 0)
  let (hmmTrans, h5) := getTargetValue lib h4 .MatrixXd (dependency h4 sself 1)
  let (hmmEmis, _) := getTargetValue lib h5 .MatrixXd (dependency h5 sself 2)
  (hmmEq, hmmTrans, hmmEmis)

/-- The value type of the node `d` refers to, if it exists. -/
def valueTypeOf (h : Heap) (d : NodeId) : Option ValueType :=
  (h[d]?).map Node.valueType

/-- Every cached identity is the identity of an allocated node. -/
def State.CacheInHeap (s : State) : Prop :=
  ∀ e : Nat, e ∈ s.cache → e < s.heap.length

/-- Whether node `p` affects node `i`: `p` is `i` or is reached from `i` through
dependencies; the first argument bounds the depth of the search. -/
def affects (h : Heap) : Nat → NodeId → NodeId → Bool
  | 0, _, _ => false
  | fuel + 1, p, i =>
    decide (p = i) ||
      match h[i]? with
      | some n => n.deps.any (fun d => match d with
          | some j => affects h fuel p j
          | none => false)
      | none => false

/-- Same fields except the cached value and the clean/dirty flag. -/
def Node.sameShape (a b : Node) : Prop :=
  a.kind = b.kind ∧ a.deps = b.deps ∧ a.valueType = b.valueType
    ∧ a.targetDimension_ = b.targetDimension_ ∧ a.condLik_ = b.condLik_
    ∧ a.parCondLik_ = b.parCondLik_

/-- Whether the three values read by `build` disagree with the target dimension. -/
def ForwardHmmLikelihood_DF.sizeMismatch (t : Val × Val × Val) (dim : Dimension) : Prop :=
  t.1.rows ≠ dim.rows ∨ (t.2.1.rows ≠ dim.rows ∨ t.2.1.cols ≠ dim.rows)
    ∨ (t.2.2.rows ≠ dim.rows ∨ t.2.2.cols ≠ dim.cols)

instance (t : Val × Val × Val) (dim : Dimension) :
    Decidable (ForwardHmmLikelihood_DF.sizeMismatch t dim) := by
  unfold ForwardHmmLikelihood_DF.sizeMismatch
  exact inferInstance

/-- Growth of the heap that keeps, for every node allocated before, everything but its
cached value and its clean/dirty flag. -/
def Grows (h h1 : Heap) : Prop :=
  ∀ (e : Nat) (en : Node), h[e]? = some en → ∃ em : Node, h1[e]? = some em ∧ em.sameShape en

/-- The five classes of `HmmLikelihoodComputation.h`. -/
def NodeKind.isHmm : NodeKind → Bool
  | .CondLikelihood => true
  | .ForwardHmmLikelihood_DF => true
  | .ForwardHmmDLikelihood_DF => true
  | .ForwardHmmD2Likelihood_DF => true
  | .BackwardHmmLikelihood_DF => true
  | _ => false

instance (s : State) : Decidable s.CacheInHeap := by
  unfold State.CacheInHeap
  exact inferInstance

/-- Heap change made by evaluation only: clean nodes are untouched, the other nodes keep
everything but value and flag. -/
def Evaluated (h h1 : Heap) : Prop :=
  Grows h h1 ∧ ∀ (j : Nat) (n : Node), h[j]? = some n → n.valid = true → h1[j]? = some n

/-- Modelled from the spec: standard meaning of `LikelihoodFromRootConditional` (section
4.2, step 4): the likelihood of a site is the sum over the states of the root frequency
of the state times the root conditional likelihood of the state at that site. -/
def LikelihoodFromRootConditional.value {α : Type} [Zero α] [Add α] [Mul α] (nbState : Nat)
    (freq : Nat → α) (condLik : Nat → Nat → α) (site : Nat) : α :=
  ((List.range nbState).map (fun state => freq state * condLik state site)).sum

/-- Modelled from the spec: standard meaning of `TotalLogLikelihood` (section 4.2, step
4): elementwise logarithm of the per-site likelihoods, summed across the sites. -/
def TotalLogLikelihood.value {α : Type} [Zero α] [Add α] (log : α → α) (nbSite : Nat)
    (lik : Nat → α) : α :=
  ((List.range nbSite).map (fun site => log (lik site))).sum

/-- Modelled from the spec: standard meaning of `CWiseNegate` (section 4.2, step 4). -/
def CWiseNegate.value {α : Type} [Neg α] (x : α) : α := -x

/-- Class and dependencies of a node. -/
def classAndDeps (h : Heap) (i : NodeId) : Option (NodeKind × NodeRefVec) :=
  (h[i]?).map (fun n => (n.kind, n.deps))

/-- The library classes whose cache key carries the target dimension. -/
def NodeKind.isLibrary (k : NodeKind) : Bool :=
  !k.isHmm && !decide (k = .NumericConstant)

/-- The class of the node `d` refers to, if it exists. -/
def kindOf (h : Heap) (d : NodeId) : Option NodeKind :=
  (h[d]?).map Node.kind

/-- State `s1` is reached from `s` by allocating nodes and registering nodes in the cache:
the heap and the cache of `s` are initial segments of those of `s1`. -/
def State.Later (s s1 : State) : Prop :=
  s.heap <+: s1.heap ∧ s.cache <+: s1.cache

/-- The validation of the library does not depend on nodes allocated after the request:
a request accepted in a heap is accepted in every heap that extends it. -/
def Library.ValidateStable (lib : Library) : Prop :=
  ∀ (kind : NodeKind) (h h1 : Heap) (deps : NodeRefVec) (dim : Option Dimension),
    h <+: h1 → lib.validate kind h deps dim = .ok () → lib.validate kind h1 deps dim = .ok ()

/-- An operation on the graph that only allocates nodes and registers nodes in the cache,
and whose requests are all cache hits when it is run again later: run from a state whose
cache refers to allocated nodes, it leaves such a state, and once it has returned `r`, it
returns `r` again from every later state, leaving the cache of that state as it is. -/
def Repeatable {α : Type} (F : State → Res α) : Prop :=
  ∀ s : State, s.Later (F s).state
    ∧ (s.CacheInHeap → (F s).state.CacheInHeap
        ∧ ∀ (r : α) (s1 : State), F s = .ok r s1 → ∀ s2 : State, s1.Later s2 →
            ∃ s3 : State, F s2 = .ok r s3 ∧ s3.cache = s2.cache ∧ s2.heap <+: s3.heap)

/-- The validation of the library accepts every request. -/
def Library.AcceptsAll (lib : Library) : Prop :=
  ∀ (kind : NodeKind) (h : Heap) (deps : NodeRefVec) (dim : Option Dimension),
    lib.validate kind h deps dim = .ok ()

/-- Whether the subtree below node `index` can be built in heap `h` within traversal depth
`fuel`: every leaf name read resolves to a sequence of the site container, and every
branch followed has a length parameter "BrLen<branch>" that is a non-null dependency of
the tree node. -/
def HomogeneousLikelihoodNodesHelper.buildable (e : HomogeneousLikelihoodNodesHelper)
    (h : Heap) : Nat → Nat → Bool
  | 0, _ => false
  | fuel + 1, index =>
    if (e.tree.getValue.getBranches index).isEmpty then
      (e.sites.getSequencePosition (e.tree.getValue.getName index)).isSome
    else
      (e.tree.getValue.getBranches index).all (fun b =>
        (match e.tree.getParameterIndex ("BrLen" ++ toString b) with
          | some k => (dependency h e.tree.node k).isSome
          | none => false)
        && HomogeneousLikelihoodNodesHelper.buildable e h fuel (e.tree.getValue.getSon b))

/-- Whether some leaf reached from node `index` through at most `depth` nodes has a name
that the site container does not resolve to a sequence. -/
def HomogeneousLikelihoodNodesHelper.hasUnresolvedLeaf (e : HomogeneousLikelihoodNodesHelper) :
    Nat → Nat → Bool
  | 0, _ => false
  | depth + 1, index =>
    if (e.tree.getValue.getBranches index).isEmpty then
      (e.sites.getSequencePosition (e.tree.getValue.getName index)).isNone
    else
      (e.tree.getValue.getBranches index).any (fun b =>
        HomogeneousLikelihoodNodesHelper.hasUnresolvedLeaf e depth (e.tree.getValue.getSon b))

/-- Whether every path of branches from node `index` down to a leaf goes through fewer
than `fuel` nodes below it: a traversal bounded by `fuel` reaches every leaf. -/
def HomogeneousLikelihoodNodesHelper.depthWithin (e : HomogeneousLikelihoodNodesHelper) :
    Nat → Nat → Bool
  | 0, _ => false
  | fuel + 1, index =>
    (e.tree.getValue.getBranches index).all (fun b =>
      HomogeneousLikelihoodNodesHelper.depthWithin e fuel (e.tree.getValue.getSon b))

/-- The validation of the library throws exceptions of the program only, never the mark
of a cut traversal. -/
def Library.ThrowsProgramErrors (lib : Library) : Prop :=
  ∀ (kind : NodeKind) (h : Heap) (deps : NodeRefVec) (dim : Option Dimension),
    lib.validate kind h deps dim ≠ .error .RecursionLimit

/-- The cached `CondLikelihood` node with the dependencies `deps`, if there is one: the
node that the lookup of `CondLikelihood::create` finds. -/
def CondLikelihood.cached (s : State) (deps : NodeRefVec) : Option NodeId :=
  s.cache.find? (fun e =>
    match s.heap[e]? with
    | some n => decide (n.deps = deps) && decide (n.kind = .CondLikelihood)
    | none => false)

/-- The wrapped model is in step with the `GY94` object: its "123_K80.kappa" is the
"kappa" of the object and its "alpha" is the "V" of the object, both being defined. -/
def GY94.inSync {M G F : Type} (ops : CodonModelOps M G F) (g : GY94 M) : Prop :=
  (g.getParameterValue "kappa").isSome = true
  ∧ (g.getParameterValue "V").isSome = true
  ∧ ops.getParameterValue g.pmodel_ "123_K80.kappa" = g.getParameterValue "kappa"
  ∧ ops.getParameterValue g.pmodel_ "alpha" = g.getParameterValue "V"

instance {M G F : Type} (ops : CodonModelOps M G F) (g : GY94 M) :
    Decidable (g.inSync ops) := by
  unfold GY94.inSync
  infer_instance

/-- The branches below node `index`, children first: the branches below the child of a
branch come before the branch; the first argument bounds the depth. -/
def HomogeneousLikelihoodNodesHelper.branchesBelow (e : HomogeneousLikelihoodNodesHelper) :
    Nat → Nat → List Nat
  | 0, _ => []
  | depth + 1, index =>
    (e.tree.getValue.getBranches index).flatMap (fun b =>
      HomogeneousLikelihoodNodesHelper.branchesBelow e depth (e.tree.getValue.getSon b) ++ [b])

/-- The leaves at or below node `index`, from left to right; the first argument bounds
the depth. -/
def HomogeneousLikelihoodNodesHelper.leavesBelow (e : HomogeneousLikelihoodNodesHelper) :
    Nat → Nat → List Nat
  | 0, _ => []
  | depth + 1, index =>
    if (e.tree.getValue.getBranches index).isEmpty then [index]
    else (e.tree.getValue.getBranches index).flatMap (fun b =>
      HomogeneousLikelihoodNodesHelper.leavesBelow e depth (e.tree.getValue.getSon b))

/-- The nodes at or below node `index`; the first argument bounds the depth. -/
def HomogeneousLikelihoodNodesHelper.nodesBelow (e : HomogeneousLikelihoodNodesHelper) :
    Nat → Nat → List Nat
  | 0, _ => []
  | depth + 1, index =>
    index :: (e.tree.getValue.getBranches index).flatMap (fun b =>
      HomogeneousLikelihoodNodesHelper.nodesBelow e depth (e.tree.getValue.getSon b))

/-- The branch of a recorded call of `makeForwardLikelihoodNode`. -/
def Call.branch? : Call → Option Nat
  | .makeForwardLikelihoodNode index => some index
  | _ => none

/-- The name of a recorded call of `makeInitialConditionalLikelihood`. -/
def Call.sequenceName? : Call → Option String
  | .makeInitialConditionalLikelihood sequenceName => some sequenceName
  | _ => none

/-- The record of a complete traversal below node `index`: for a leaf, the initial
matrix then the node; otherwise, for each branch in turn, the record of its child then
the branch, and the node last. -/
def HomogeneousLikelihoodNodesHelper.postOrder (e : HomogeneousLikelihoodNodesHelper) :
    Nat → Nat → List Call
  | 0, _ => []
  | depth + 1, index =>
    if (e.tree.getValue.getBranches index).isEmpty then
      [.makeInitialConditionalLikelihood (e.tree.getValue.getName index),
        .makeConditionalLikelihoodNode index]
    else
      (e.tree.getValue.getBranches index).flatMap (fun b =>
        HomogeneousLikelihoodNodesHelper.postOrder e depth (e.tree.getValue.getSon b)
          ++ [.makeForwardLikelihoodNode b])
      ++ [.makeConditionalLikelihoodNode index]

/-- All paths of `m` hidden states among `n`. -/
def hiddenPaths (n : Nat) : Nat → List (List Nat)
  | 0 => [[]]
  | m + 1 => (List.range n).flatMap (fun i => (hiddenPaths n m).map (fun p => i :: p))

/-- Product of the transitions and emissions along a path that continues after state
`previous`, its first state being the one of site `site`. -/
def pathLikelihoodFrom (trans : Nat → Nat → ℚ) (emis : Nat → Nat → ℚ) :
    Nat → Nat → List Nat → ℚ
  | _, _, [] => 1
  | previous, site, y :: ys =>
    trans previous y * emis y site * pathLikelihoodFrom trans emis y (site + 1) ys

/-- Joint likelihood of a path of hidden states and of the observations of its sites:
start * emission of site 0, then transition * emission for each following site. -/
def pathLikelihood (start : Nat → ℚ) (trans : Nat → Nat → ℚ) (emis : Nat → Nat → ℚ) :
    List Nat → ℚ
  | [] => 1
  | y :: ys => start y * emis y 0 * pathLikelihoodFrom trans emis y 1 ys

/-- Likelihood of the first `m` sites by brute force: the sum over all `n ^ m` paths of
hidden states of the joint likelihood of the path. -/
def bruteForceLikelihood (n m : Nat) (start : Nat → ℚ) (trans : Nat → Nat → ℚ)
    (emis : Nat → Nat → ℚ) : ℚ :=
  ((hiddenPaths n m).map (pathLikelihood start trans emis)).sum

/-- Joint likelihood of the observations of the sites `0, ..., j` and of hidden state `i`
at site `j`: the forward variable without normalization. -/
def forwardJoint (n : Nat) (start : Nat → ℚ) (trans : Nat → Nat → ℚ)
    (emis : Nat → Nat → ℚ) : Nat → Nat → ℚ
  | 0, i => start i * emis i 0
  | j + 1, i => (∑ k in Finset.range n, forwardJoint n start trans emis j k * trans k i)
      * emis i (j + 1)

/-! ## Example states -/

/-- A codon model reduced to what `GY94.cpp` uses: its namespace, its parameters (names
without namespace), its genetic code and its frequencies. -/
structure ExampleCodonModel where
  nameSpace : String
  parameters : ParameterList
  geneticCode : Nat
  freq : List ℚ
  deriving DecidableEq, Repr

/-- A library with the simplest behaviour: recomputation keeps the stored value and every
dependency vector is accepted. -/
def exampleLibrary : Library :=
  { compute := fun n _ => n.value, validate := fun _ _ _ _ => .ok () }

/-- A context holding a starting vector of length 2, a 2 x 2 transition matrix and a
2 x 3 emission matrix, as constants 0, 1 and 2. -/
def exampleHmmState : State :=
  { heap := [NumericConstant.new .VectorXd (.dense 2 1 [1/2, 1/2]),
             NumericConstant.new .MatrixXd (.dense 2 2 [9/10, 1/10, 1/10, 9/10]),
             NumericConstant.new .MatrixXd (.dense 2 3 [1, 0, 1/2, 1/2, 0, 1])],
    cache := [0, 1, 2] }

/-- A context holding a starting vector of length 3, a 5 x 5 transition matrix and a
2 x 2 emission matrix, as constants 0, 1 and 2. -/
def exampleBadStartState : State :=
  { heap := [NumericConstant.new .VectorXd (.dense 3 1 [1/3, 1/3, 1/3]),
             NumericConstant.new .MatrixXd (Val.resize 5 5),
             NumericConstant.new .MatrixXd (.dense 2 2 [1, 0, 0, 1])],
    cache := [0, 1, 2] }

/-- A parameter node: a mutable number. -/
def exampleParameter : Node :=
  { kind := .NumericMutable, deps := [], valueType := .double, value := .number 1, valid := true,
    targetDimension_ := none, condLik_ := none, parCondLik_ := none }

/-- The three constants of `exampleHmmState` and a parameter (node 3) that none of them
depends on. -/
def exampleParameterState : State :=
  { heap := exampleHmmState.heap ++ [exampleParameter], cache := [0, 1, 2, 3] }

/-- The state after a forward node was created in `exampleParameterState`: node 4 is the
forward node, node 5 the name constant, node 6 the `CondLikelihood` companion. -/
def exampleForwardState : State :=
  (ForwardHmmLikelihood_DF.create exampleLibrary exampleParameterState
    [some 0, some 1, some 2] ⟨2, 3⟩).state

/-- A matrix node computed from nothing, not evaluated yet (dirty). -/
def exampleDirtyMatrix : Node :=
  { kind := .library 0, deps := [], valueType := .MatrixXd,
    value := .dense 2 2 [9/10, 1/10, 1/10, 9/10], valid := false,
    targetDimension_ := some ⟨2, 2⟩, condLik_ := none, parCondLik_ := none }

/-- A context whose transition matrix (node 1) is dirty. -/
def exampleDirtyState : State :=
  { heap := [NumericConstant.new .VectorXd (.dense 2 1 [1/2, 1/2]),
             exampleDirtyMatrix,
             NumericConstant.new .MatrixXd (.dense 2 3 [1, 0, 1/2, 1/2, 0, 1])],
    cache := [0, 1, 2] }

/-- The state after `ForwardHmmLikelihood_DF::create` in `exampleHmmState`: node 3 is the
forward node, node 4 the name constant, node 5 the `CondLikelihood` companion. -/
def exampleAfterForward : State :=
  (ForwardHmmLikelihood_DF.create exampleLibrary exampleHmmState
    [some 0, some 1, some 2] ⟨2, 3⟩).state

/-- The state after a first-derivative node (node 6) was created in `exampleAfterForward`,
the constants 0, 1, 2 standing for the derivatives of the inputs as well. -/
def exampleAfterForwardD : State :=
  (ForwardHmmDLikelihood_DF.create exampleAfterForward
    [some 0, some 1, some 2, some 3, some 0, some 1, some 2] ⟨2, 3⟩).state

/-- An unrooted tree: three leaves around node 0. -/
def exampleUnrootedTree : PhyloTree :=
  { isRooted := false, getRootIndex := 0,
    getBranches := fun i => if i = 0 then [1, 2, 3] else [],
    getSon := fun b => b,
    getName := fun i => if i = 1 then "A" else if i = 2 then "B" else "C" }

/-- A rooted tree: root 0 with the leaves 1 ("A") and 2 ("B") below the branches 1 and 2. -/
def exampleRootedTree : PhyloTree :=
  { isRooted := true, getRootIndex := 0,
    getBranches := fun i => if i = 0 then [1, 2] else [],
    getSon := fun b => b,
    getName := fun i => if i = 1 then "A" else "B" }

/-- A context holding the model (node 0), the branch lengths "BrLen1" and "BrLen2" (nodes
1 and 2) and the tree (node 3) that depends on them. -/
def exampleTreeState : State :=
  { heap := [{ kind := .ConfiguredModel, deps := [], valueType := .object, value := .object,
               valid := true, targetDimension_ := none, condLik_ := none, parCondLik_ := none },
             { kind := .NumericMutable, deps := [], valueType := .double, value := .number 1,
               valid := true, targetDimension_ := none, condLik_ := none, parCondLik_ := none },
             { kind := .NumericMutable, deps := [], valueType := .double, value := .number 2,
               valid := true, targetDimension_ := none, condLik_ := none, parCondLik_ := none },
             { kind := .ConfiguredPhyloTree, deps := [some 1, some 2], valueType := .object,
               value := .object, valid := true, targetDimension_ := none, condLik_ := none,
               parCondLik_ := none }],
    cache := [0, 1, 2, 3] }

/-- The configured tree of `exampleTreeState` over a given topology. -/
def exampleConfiguredTree (t : PhyloTree) : ConfiguredPhyloTree :=
  { node := 3, getValue := t,
    getParameterIndex := fun name =>
      if name = "BrLen1" then some 0 else if name = "BrLen2" then some 1 else none }

/-- Two sites for the sequences "A" and "B": "A" shows state 0 at both sites, "B" shows
state 0 at site 0 and state 1 at site 1. -/
def exampleSites : AlignedValuesContainer :=
  { getNumberOfSites := 2,
    getSequencePosition := fun name =>
      if name = "A" then some 0 else if name = "B" then some 1 else none,
    getStateValueAt := fun site sequence state =>
      if sequence = 0 then (if state = 0 then 1 else 0)
      else if site = 0 then (if state = 0 then 1 else 0)
      else (if state = 1 then 1 else 0) }

/-- A two-state model, node 0 of `exampleTreeState`. -/
def exampleModel : ConfiguredModel :=
  { node := 0, getNumberOfStates := 2, getAlphabetStateAsInt := fun state => state }

/-- A context holding a forward-likelihood row vector with 4 columns (node 0), a 2 x 2
transition matrix (node 1) and a 2 x 3 emission matrix (node 2), as constants. -/
def exampleBackwardState : State :=
  { heap := [NumericConstant.new .RowVectorXd (.dense 1 4 [1, 1, 1, 1]),
             NumericConstant.new .MatrixXd (.dense 2 2 [1, 0, 0, 1]),
             NumericConstant.new .MatrixXd (.dense 2 3 [1, 0, 1, 0, 1, 0])],
    cache := [0, 1, 2] }

/-- The helper of `makeHomogeneousLikelihoodNodes` for the example sites, rooted tree
and model. -/
def exampleHelper : HomogeneousLikelihoodNodesHelper :=
  { sites := exampleSites, tree := exampleConfiguredTree exampleRootedTree,
    model := exampleModel, rootFreqs := none,
    likelihoodMatrixDim := conditionalLikelihoodDimension 2 2, nbState := 2, nbSite := 2 }

/-- Sites that hold the sequence "A" only. -/
def exampleSitesWithoutB : AlignedValuesContainer :=
  { getNumberOfSites := 2,
    getSequencePosition := fun name => if name = "A" then some 0 else none,
    getStateValueAt := fun _ _ state => if state = 0 then 1 else 0 }

/-- A context holding a forward-likelihood row vector with 3 columns (node 0), a 2 x 2
transition matrix (node 1), a 2 x 3 emission matrix (node 2) and a level of derivation
(node 3), as constants. -/
def exampleBackwardFourState : State :=
  { heap := [NumericConstant.new .RowVectorXd (.dense 1 3 [1, 1, 1]),
             NumericConstant.new .MatrixXd (.dense 2 2 [1, 0, 0, 1]),
             NumericConstant.new .MatrixXd (.dense 2 3 [1, 0, 1, 0, 1, 0]),
             NumericConstant.new .size_t (.size 0)],
    cache := [0, 1, 2, 3] }

/-- A context holding a vector (node 0) and a name (node 1), as constants. -/
def exampleNameState : State :=
  { heap := [NumericConstant.new .VectorXd (.dense 2 1 [1, 1]),
             NumericConstant.new .string (.text "name")],
    cache := [0, 1] }

/-- Operations of `ExampleCodonModel`: a new model has the namespace
"CodonAsynFreq." and the parameters "123_K80.kappa" = 1 and "alpha" = 10000;
`matchParametersValues` sets the parameters whose full name is in the list. -/
def exampleCodonOps : CodonModelOps ExampleCodonModel Nat (List ℚ) :=
  { new := fun gc f =>
      { nameSpace := "CodonAsynFreq.",
        parameters := [("123_K80.kappa", 1), ("alpha", 10000)], geneticCode := gc, freq := f },
    setNamespace := fun m ns => { m with nameSpace := ns },
    matchParametersValues := fun m pl =>
      { m with parameters := m.parameters.map (fun p =>
          match pl.lookup (m.nameSpace ++ p.1) with
          | some v => (p.1, v)
          | none => p) },
    getParameters := fun m => m.parameters.map (fun p => (m.nameSpace ++ p.1, p.2)),
    getParameterValue := fun m name => m.parameters.lookup name,
    getGeneticCode := fun m => m.geneticCode,
    getFreq := fun m => m.freq,
    setFreq := fun m fs => { m with freq := fs.map Prod.snd },
    clone := fun f => f,
    freqParameters := fun _ => [] }

/-- A `GY94` object after construction and a change of its "kappa" to 2 through
`matchParametersValues`. -/
def exampleGY94 : Option (GY94 ExampleCodonModel) :=
  (GY94.new exampleCodonOps 0 [1]).bind
    (fun g => GY94.matchParametersValues exampleCodonOps g [("GY94.kappa", 2)])

/-- A starting vector for 2 hidden states, with positive entries. -/
def examplePositiveStart : Val := .dense 2 1 [1, 1]

/-- A 2 x 2 transition matrix with positive entries. -/
def examplePositiveTransitions : Val := .dense 2 2 [9, 1, 1, 9]

/-- An emission matrix for 2 hidden states and 3 sites, with positive entries. -/
def examplePositiveEmissions : Val := .dense 2 3 [1, 2, 3, 1, 2, 1]

/-- A context holding a forward-likelihood row vector with 3 columns (node 0), a dirty
2 x 2 transition matrix (node 1) and a 2 x 3 emission matrix (node 2). -/
def exampleDirtyBackwardState : State :=
  { heap := [NumericConstant.new .RowVectorXd (.dense 1 3 [1, 1, 1]),
             exampleDirtyMatrix,
             NumericConstant.new .MatrixXd (.dense 2 3 [1, 0, 1/2, 1/2, 0, 1])],
    cache := [0, 1, 2] }

/-! ## Properties -/

theorem getElem?_of_append {h h1 : Heap} (hp : h <+: h1) {i : Nat} {n : Node}
    (hi : h[i]? = some n) : h1[i]? = some n := by
  obtain ⟨t, rfl⟩ := hp
  have hlt : i < h.length := by
    by_contra hge
    rw [List.getElem?_eq_none (by omega)] at hi
    cases hi
  rw [List.getElem?_append_left hlt]
  exact hi

theorem alloc_heap (s : State) (n : Node) : (alloc s n).2.heap = s.heap ++ [n] := rfl

theorem alloc_cache (s : State) (n : Node) : (alloc s n).2.cache = s.cache := rfl

theorem alloc_id (s : State) (n : Node) : (alloc s n).1 = s.heap.length := rfl

theorem cachedAs_heap (s : State) (x : NodeId) : (cachedAs s x).2.heap = s.heap := by
  unfold cachedAs
  split <;> rfl

theorem cachedAs_cache (s : State) (x : NodeId) :
    (cachedAs s x).2.cache = s.cache ∨ (cachedAs s x).2.cache = s.cache ++ [x] := by
  unfold cachedAs
  split
  · exact Or.inl rfl
  · exact Or.inr rfl

theorem cachedAs_cache_grows (s : State) (x : NodeId) :
    s.cache <+: (cachedAs s x).2.cache := by
  rcases cachedAs_cache s x with h | h
  · rw [h]
  · rw [h]
    exact List.prefix_append _ _

/-- The node returned by the cache is the candidate or a cached node equal to it. -/
theorem cachedAs_result (s : State) (x : NodeId) :
    (cachedAs s x).1 = x ∨ ((cachedAs s x).1 ∈ s.cache ∧ sameNode s.heap x (cachedAs s x).1 = true) := by
  unfold cachedAs
  split
  · rename_i e he
    right
    exact ⟨List.mem_of_find?_eq_some he, by simpa using List.find?_some he⟩
  · left; rfl

theorem sameNode_true {h : Heap} {x e : NodeId} (hs : sameNode h x e = true) :
    ∃ n en, h[x]? = some n ∧ h[e]? = some en ∧ en.deps = n.deps
      ∧ n.compareAdditionalArguments en = true := by
  unfold sameNode at hs
  split at hs
  · rename_i n en hn hen
    simp only [Bool.and_eq_true, decide_eq_true_eq] at hs
    exact ⟨n, en, hn, hen, hs.1, hs.2⟩
  · cases hs

theorem lookup_append_new (h : Heap) (n : Node) : (h ++ [n])[h.length]? = some n := by
  simp

/-- The constant returned by `NumericConstant.create` has the value type asked for. -/
theorem NumericConstant_create_spec (s : State) (T : ValueType) (v : Val) :
    (NumericConstant.create s T v).2.heap = s.heap ++ [NumericConstant.new T v]
    ∧ (∃ n, (NumericConstant.create s T v).2.heap[(NumericConstant.create s T v).1]? = some n
        ∧ n.valueType = T ∧ n.value = v ∧ n.kind = .NumericConstant)
    ∧ ((NumericConstant.create s T v).2.cache = s.cache
        ∨ (NumericConstant.create s T v).2.cache = s.cache ++ [s.heap.length]) := by
  unfold NumericConstant.create
  simp only []
  refine ⟨?_, ?_, ?_⟩
  · rw [cachedAs_heap]; rfl
  · rw [cachedAs_heap]
    rcases cachedAs_result (alloc s (NumericConstant.new T v)).2 (alloc s (NumericConstant.new T v)).1 with h | ⟨_, h⟩
    · refine ⟨NumericConstant.new T v, ?_, rfl, rfl, rfl⟩
      show (alloc s (NumericConstant.new T v)).2.heap[(cachedAs (alloc s (NumericConstant.new T v)).2 (alloc s (NumericConstant.new T v)).1).1]? = _
      rw [h]
      simp [alloc]
    · obtain ⟨n, en, hn, hen, _, hc⟩ := sameNode_true h
      have hn2 : n = NumericConstant.new T v := by
        simp [alloc] at hn
        exact hn.symm
      subst hn2
      simp [Node.compareAdditionalArguments, NumericConstant.new] at hc
      exact ⟨en, hen, hc.2.1, hc.2.2, hc.1⟩
  · exact cachedAs_cache _ _

theorem getElem?_append_cons_length (l : Heap) (a : Node) (t : Heap) :
    (l ++ a :: t)[l.length]? = some a := by
  rw [List.getElem?_append_right (le_refl _)]
  simp

theorem compareAdditionalArguments_self (n : Node) : n.compareAdditionalArguments n = true := by
  unfold Node.compareAdditionalArguments
  split <;> simp_all

/-- Allocation followed by the cache lookup: the heap gets the new node, the cache at most
the new identity, and the node returned has the dependencies of the candidate and is
equal to it for `compareAdditionalArguments`. -/
theorem allocCached_spec (s : State) (node : Node) :
    (cachedAs (alloc s node).2 (alloc s node).1).2.heap = s.heap ++ [node]
    ∧ ((cachedAs (alloc s node).2 (alloc s node).1).2.cache = s.cache
        ∨ (cachedAs (alloc s node).2 (alloc s node).1).2.cache = s.cache ++ [s.heap.length])
    ∧ ∃ n, (s.heap ++ [node])[(cachedAs (alloc s node).2 (alloc s node).1).1]? = some n
        ∧ n.deps = node.deps ∧ node.compareAdditionalArguments n = true := by
  refine ⟨by rw [cachedAs_heap]; rfl, cachedAs_cache _ _, ?_⟩
  rcases cachedAs_result (alloc s node).2 (alloc s node).1 with h | ⟨_, h⟩
  · rw [h]
    exact ⟨node, by simp [alloc], rfl, compareAdditionalArguments_self node⟩
  · obtain ⟨n, en, hn, hen, hd, hc⟩ := sameNode_true h
    have hn2 : n = node := by
      simp [alloc] at hn
      exact hn.symm
    subst hn2
    exact ⟨en, hen, hd, hc⟩

theorem CondLikelihood_checks_ok {h : Heap} (self : NodeId) {fname : NodeId} {n : Node}
    (hf : h[fname]? = some n) (ht : n.valueType = .string) :
    CondLikelihood.checks h [some self, some fname] = .ok () := by
  simp [CondLikelihood.checks, checkDependenciesNotNull, checkDependencyVectorSize,
    checkNthDependencyIsValue, nthDependency, hf, ht, bind, Except.bind]

/-- The two first statements of `build`, run on a node just allocated: they return, the
heap gets the name constant and the companion, the new node gets its `condLik_`, nodes
allocated before are untouched, the cache only grows by identities of new nodes. -/
theorem buildCondLik_alloc (name : String) (s : State) (node : Node) :
    ∃ fname c cache1,
      buildCondLik name (alloc s node).2 (alloc s node).1
        = .ok () ⟨s.heap ++ [{ node with condLik_ := some c }, NumericConstant.new .string (.text name),
            CondLikelihood.new [some s.heap.length, some fname] (node.targetDimension_.getD ⟨0, 0⟩)],
          cache1⟩
      ∧ (∃ extra, cache1 = s.cache ++ extra ∧ ∀ e ∈ extra, s.heap.length < e ∧ e < s.heap.length + 3) := by
  unfold buildCondLik
  have hdim : targetDimensionOf (alloc s node).2.heap (alloc s node).1
      = node.targetDimension_.getD ⟨0, 0⟩ := by
    simp [targetDimensionOf, alloc]
  rw [hdim]
  obtain ⟨hh, ⟨cn, hcn, hct, _, _⟩, hcc⟩ :=
    NumericConstant_create_spec (alloc s node).2 .string (.text name)
  generalize hnc : NumericConstant.create (alloc s node).2 .string (.text name) = nc at *
  obtain ⟨fname, s1⟩ := nc
  simp only at hh hcn hcc ⊢
  have hck := CondLikelihood_checks_ok (alloc s node).1 hcn hct
  unfold CondLikelihood.create
  rw [hck]
  simp only []
  obtain ⟨gh, gc, -⟩ := allocCached_spec s1
    (CondLikelihood.new [some (alloc s node).1, some fname] (node.targetDimension_.getD ⟨0, 0⟩))
  generalize hcr : cachedAs (alloc s1 (CondLikelihood.new [some (alloc s node).1, some fname]
    (node.targetDimension_.getD ⟨0, 0⟩))).2 (alloc s1 (CondLikelihood.new [some (alloc s node).1, some fname]
    (node.targetDimension_.getD ⟨0, 0⟩))).1 = cr at *
  obtain ⟨c, s2⟩ := cr
  simp only at gh gc ⊢
  refine ⟨fname, c, s2.cache, ?_, ?_⟩
  · congr 1
    rw [gh, hh]
    have hlook : ((alloc s node).2.heap ++ [NumericConstant.new .string (.text name)] ++
        [CondLikelihood.new [some (alloc s node).1, some fname]
          (node.targetDimension_.getD ⟨0, 0⟩)])[(alloc s node).1]? = some node := by
      have e : (alloc s node).2.heap ++ [NumericConstant.new .string (.text name)] ++
          [CondLikelihood.new [some (alloc s node).1, some fname]
            (node.targetDimension_.getD ⟨0, 0⟩)]
          = s.heap ++ node :: [NumericConstant.new .string (.text name),
              CondLikelihood.new [some (alloc s node).1, some fname]
                (node.targetDimension_.getD ⟨0, 0⟩)] := by
        simp [alloc]
      rw [e]
      exact getElem?_append_cons_length _ _ _
    unfold setCondLik
    simp only [hlook]
    simp [alloc, List.set_append]
  · have h1 : (alloc s node).2.cache = s.cache := rfl
    have h2 : (alloc s node).2.heap.length = s.heap.length + 1 := by simp [alloc]
    have h3 : s1.heap.length = s.heap.length + 2 := by rw [hh]; simp [alloc]
    rw [h1, h2] at hcc
    rw [h3] at gc
    rcases hcc with hcc | hcc <;> rcases gc with gc | gc <;> rw [gc, hcc]
    · exact ⟨[], by simp, by simp⟩
    · exact ⟨[s.heap.length + 2], by simp, by simp⟩
    · exact ⟨[s.heap.length + 1], by simp, by simp⟩
    · exact ⟨[s.heap.length + 1, s.heap.length + 2], by simp, by simp⟩

theorem lt_length_of_getElem? {h : Heap} {i : Nat} {n : Node} (hi : h[i]? = some n) :
    i < h.length := by
  by_contra hge
  rw [List.getElem?_eq_none (by omega)] at hi
  cases hi

theorem getElem?_set_self {l h : Heap} {i : Nat} (hl : l.length = h.length)
    (hlt : i < h.length) (x : Node) : (l.set i x)[i]? = some x := by
  rw [List.getElem?_set_self]
  simp [hl, hlt]

theorem foldl_computeAux_inv (lib : Library) (fuel : Nat) (P : Heap → Prop)
    (hstep : ∀ acc j, P acc → P (computeAux lib fuel acc j)) :
    ∀ (deps : NodeRefVec) (acc : Heap), P acc →
      P (deps.foldl (fun acc d => match d with
            | some j => computeAux lib fuel acc j
            | none => acc) acc) := by
  intro deps
  induction deps with
  | nil => intro acc h; exact h
  | cons d ds ih =>
    intro acc h
    simp only [List.foldl_cons]
    apply ih
    cases d with
    | none => exact h
    | some j => exact hstep acc j h

theorem computeAux_length (lib : Library) (fuel : Nat) :
    ∀ (h : Heap) (i : NodeId), (computeAux lib fuel h i).length = h.length := by
  induction fuel with
  | zero => intro h i; rfl
  | succ fuel ih =>
    intro h i
    unfold computeAux
    split
    · rfl
    · split
      · rfl
      · simp only [List.length_set]
        exact foldl_computeAux_inv lib fuel (fun acc => acc.length = h.length)
          (fun acc j hacc => by
            show (computeAux lib fuel acc j).length = h.length
            rw [ih]
            exact hacc) _ h rfl

/-- Evaluation leaves every clean node as it is. -/
theorem computeAux_valid (lib : Library) (fuel : Nat) :
    ∀ (h : Heap) (i j : NodeId) (n : Node), h[j]? = some n → n.valid = true →
      (computeAux lib fuel h i)[j]? = some n := by
  induction fuel with
  | zero => intro h i j n hj _; exact hj
  | succ fuel ih =>
    intro h i j n hj hv
    unfold computeAux
    split
    · exact hj
    · rename_i ni hi
      split
      · exact hj
      · rename_i hnv
        have hne : i ≠ j := by
          intro e
          subst e
          rw [hi] at hj
          cases hj
          exact hnv hv
        rw [List.getElem?_set_ne hne]
        exact foldl_computeAux_inv lib fuel (fun acc => acc[j]? = some n)
          (fun acc k hacc => ih acc k j n hacc hv) _ h hj

/-- Evaluation changes nothing but cached values and clean/dirty flags. -/
theorem computeAux_shape (lib : Library) (fuel : Nat) :
    ∀ (h : Heap) (i j : NodeId) (n : Node), h[j]? = some n →
      ∃ m, (computeAux lib fuel h i)[j]? = some m ∧ m.sameShape n := by
  induction fuel with
  | zero => intro h i j n hj; exact ⟨n, hj, rfl, rfl, rfl, rfl, rfl, rfl⟩
  | succ fuel ih =>
    intro h i j n hj
    unfold computeAux
    split
    · exact ⟨n, hj, rfl, rfl, rfl, rfl, rfl, rfl⟩
    · rename_i ni hi
      split
      · exact ⟨n, hj, rfl, rfl, rfl, rfl, rfl, rfl⟩
      · have hfold := foldl_computeAux_inv lib fuel
          (fun acc => acc.length = h.length ∧ ∃ m, acc[j]? = some m ∧ m.sameShape n)
          (fun acc k hacc => by
            obtain ⟨hl, m, hm, hs⟩ := hacc
            obtain ⟨m2, hm2, hs2⟩ := ih acc k j m hm
            refine ⟨by rw [computeAux_length]; exact hl, m2, hm2, ?_⟩
            obtain ⟨a1, a2, a3, a4, a5, a6⟩ := hs
            obtain ⟨b1, b2, b3, b4, b5, b6⟩ := hs2
            exact ⟨b1.trans a1, b2.trans a2, b3.trans a3, b4.trans a4, b5.trans a5,
              b6.trans a6⟩)
          ni.deps h ⟨rfl, n, hj, rfl, rfl, rfl, rfl, rfl, rfl⟩
        obtain ⟨hl, m, hm, hs⟩ := hfold
        by_cases hij : i = j
        · subst hij
          rw [hi] at hj
          cases hj
          have hlt : i < h.length := lt_length_of_getElem? hi
          exact ⟨_, getElem?_set_self hl hlt _, rfl, rfl, rfl, rfl, rfl, rfl⟩
        · rw [List.getElem?_set_ne hij]
          exact ⟨m, hm, hs⟩

/-- Evaluation of a clean node changes nothing. -/
theorem computeRecursively_of_valid (lib : Library) (h : Heap) (i : NodeId) (n : Node)
    (hi : h[i]? = some n) (hv : n.valid = true) : computeRecursively lib h i = h := by
  unfold computeRecursively
  cases hl : h.length with
  | zero => rfl
  | succ k =>
    unfold computeAux
    simp [hi, hv]

/-- After its evaluation a node is clean. -/
theorem computeRecursively_valid (lib : Library) (h : Heap) (i : NodeId) (n : Node)
    (hi : h[i]? = some n) :
    ∃ m, (computeRecursively lib h i)[i]? = some m ∧ m.valid = true := by
  have hlt : i < h.length := lt_length_of_getElem? hi
  unfold computeRecursively
  cases hl : h.length with
  | zero => rw [hl] at hlt; exact absurd hlt (Nat.not_lt_zero _)
  | succ k =>
    unfold computeAux
    simp only [hi]
    split
    · rename_i hv
      exact ⟨n, hi, hv⟩
    · have hlen : (List.foldl (fun acc d => match d with
            | some j => computeAux lib k acc j
            | none => acc) h n.deps).length = h.length :=
          foldl_computeAux_inv lib k (fun acc => acc.length = h.length)
            (fun acc j hacc => by
              show (computeAux lib k acc j).length = h.length
              rw [computeAux_length]
              exact hacc) _ h rfl
      exact ⟨_, getElem?_set_self hlen hlt _, rfl⟩

theorem dependency_computeRecursively (lib : Library) (h : Heap) (i self k : Nat) :
    dependency (computeRecursively lib h i) self k = dependency h self k := by
  unfold dependency computeRecursively
  cases hs : h[self]? with
  | none =>
    have hge : h.length ≤ self := by
      by_contra hlt
      rw [List.getElem?_eq_getElem (by omega)] at hs
      cases hs
    rw [List.getElem?_eq_none (by rw [computeAux_length]; exact hge)]
  | some n =>
    obtain ⟨m, hm, hsh⟩ := computeAux_shape lib h.length h i self n hs
    rw [hm]
    simp only [hsh.2.1]

theorem targetDimensionOf_computeRecursively (lib : Library) (h : Heap) (i self : Nat) :
    targetDimensionOf (computeRecursively lib h i) self = targetDimensionOf h self := by
  unfold targetDimensionOf computeRecursively
  cases hs : h[self]? with
  | none =>
    have hge : h.length ≤ self := by
      by_contra hlt
      rw [List.getElem?_eq_getElem (by omega)] at hs
      cases hs
    rw [List.getElem?_eq_none (by rw [computeAux_length]; exact hge)]
  | some n =>
    obtain ⟨m, hm, hsh⟩ := computeAux_shape lib h.length h i self n hs
    rw [hm]
    simp only [hsh.2.2.2.1]

theorem ForwardHmmLikelihood_DF_checks_ok {h : Heap} {d0 d1 d2 : Nat}
    (h0 : valueTypeOf h d0 = some .VectorXd) (h1 : valueTypeOf h d1 = some .MatrixXd)
    (h2 : valueTypeOf h d2 = some .MatrixXd) :
    ForwardHmmLikelihood_DF.checks h [some d0, some d1, some d2] = .ok () := by
  unfold valueTypeOf at h0 h1 h2
  simp only [Option.map_eq_some'] at h0 h1 h2
  obtain ⟨n0, e0, t0⟩ := h0
  obtain ⟨n1, e1, t1⟩ := h1
  obtain ⟨n2, e2, t2⟩ := h2
  simp [ForwardHmmLikelihood_DF.checks, checkDependenciesNotNull, checkDependencyVectorSize,
    checkNthDependencyIsValue, nthDependency, e0, e1, e2, t0, t1, t2, bind, Except.bind]

theorem getTargetValue_of_valid (lib : Library) (h : Heap) (T : ValueType) (d : Nat) (n : Node)
    (hd : h[d]? = some n) (hv : n.valid = true) :
    getTargetValue lib h T (some d) = (n.value, h) := by
  unfold getTargetValue
  simp only [computeRecursively_of_valid lib h d n hd hv, accessValueConst, hd]

/-- Outcome of `ForwardHmmLikelihood_DF::create` on correctly typed dependencies: size
error exactly on a mismatch, a node otherwise, and the values read are the cached ones
when the dependencies are clean. -/
theorem ForwardHmmLikelihood_DF_create_outcome (lib : Library) (s : State)
    (d0 d1 d2 : Nat) (dim : Dimension)
    (h0 : valueTypeOf s.heap d0 = some .VectorXd)
    (h1 : valueTypeOf s.heap d1 = some .MatrixXd)
    (h2 : valueTypeOf s.heap d2 = some .MatrixXd) :
    ((∃ text bad correct,
        (ForwardHmmLikelihood_DF.create lib s [some d0, some d1, some d2] dim).error?
          = some (.BadSizeException text bad correct))
      ↔ ForwardHmmLikelihood_DF.sizeMismatch
          (ForwardHmmLikelihood_DF.targetValues lib s [some d0, some d1, some d2] dim) dim)
    ∧ (¬ ForwardHmmLikelihood_DF.sizeMismatch
          (ForwardHmmLikelihood_DF.targetValues lib s [some d0, some d1, some d2] dim) dim
        → (ForwardHmmLikelihood_DF.create lib s [some d0, some d1, some d2] dim).isOk = true)
    ∧ (∀ n0 n1 n2, s.heap[d0]? = some n0 → s.heap[d1]? = some n1 → s.heap[d2]? = some n2 →
        n0.valid = true → n1.valid = true → n2.valid = true →
        ForwardHmmLikelihood_DF.targetValues lib s [some d0, some d1, some d2] dim
          = (n0.value, n1.value, n2.value)) := by
  unfold ForwardHmmLikelihood_DF.create ForwardHmmLikelihood_DF.targetValues
  rw [ForwardHmmLikelihood_DF_checks_ok h0 h1 h2]
  simp only []
  unfold ForwardHmmLikelihood_DF.build
  obtain ⟨fname, c, cache1, hb, -⟩ := buildCondLik_alloc "forwardCondLik" s
    (ForwardHmmLikelihood_DF.new [some d0, some d1, some d2] dim)
  rw [hb]
  simp only [Res.state]
  have hself : (alloc s (ForwardHmmLikelihood_DF.new [some d0, some d1, some d2] dim)).1
      = s.heap.length := rfl
  rw [hself]
  generalize hH : (s.heap ++ [{ ForwardHmmLikelihood_DF.new [some d0, some d1, some d2] dim with
      condLik_ := some c }, NumericConstant.new .string (.text "forwardCondLik"),
      CondLikelihood.new [some s.heap.length, some fname]
        ((ForwardHmmLikelihood_DF.new [some d0, some d1, some d2] dim).targetDimension_.getD ⟨0, 0⟩)]) = H
  have hl : H[s.heap.length]? = some { ForwardHmmLikelihood_DF.new [some d0, some d1, some d2] dim with
      condLik_ := some c } := by
    rw [← hH]; exact getElem?_append_cons_length _ _ _
  have hd0 : dependency H s.heap.length 0 = some d0 := by
    simp [dependency, hl, ForwardHmmLikelihood_DF.new]
  have hd1 : dependency H s.heap.length 1 = some d1 := by
    simp [dependency, hl, ForwardHmmLikelihood_DF.new]
  have hd2 : dependency H s.heap.length 2 = some d2 := by
    simp [dependency, hl, ForwardHmmLikelihood_DF.new]
  have hdim : targetDimensionOf H s.heap.length = dim := by
    simp [targetDimensionOf, hl, ForwardHmmLikelihood_DF.new]
  refine ⟨?_, ?_, ?_⟩
  · simp only [ForwardHmmLikelihood_DF.buildChecks, getTargetValue, dependency_computeRecursively,
      hd0, hd1, hd2, hdim, ForwardHmmLikelihood_DF.sizeMismatch]
    split_ifs <;> simp_all [Res.error?, Res.isOk]
  · simp only [ForwardHmmLikelihood_DF.buildChecks, getTargetValue, dependency_computeRecursively,
      hd0, hd1, hd2, hdim, ForwardHmmLikelihood_DF.sizeMismatch]
    split_ifs <;> simp_all [Res.error?, Res.isOk]
  · intro n0 n1 n2 e0 e1 e2 v0 v1 v2
    have hp : s.heap <+: H := by rw [← hH]; exact List.prefix_append _ _
    have f0 := getElem?_of_append hp e0
    have f1 := getElem?_of_append hp e1
    have f2 := getElem?_of_append hp e2
    rw [hd0, getTargetValue_of_valid lib H _ d0 n0 f0 v0]
    simp only []
    rw [hd1, getTargetValue_of_valid lib H _ d1 n1 f1 v1]
    simp only []
    rw [hd2, getTargetValue_of_valid lib H _ d2 n2 f2 v2]

/-- Claim C3. For every target dimension and every triple of correctly typed dependencies,
`ForwardHmmLikelihood_DF::create` fails with a `BadSizeException` if and only if the
starting vector has not `dim.rows` rows, or the transition matrix is not `dim.rows` x
`dim.rows`, or the emission matrix is not `dim.rows` x `dim.cols`; otherwise it returns a
node. The extents are those of the values `build` reads with `getTargetValue`; for clean
dependencies these are the cached values. -/
theorem ForwardHmmLikelihood_DF_create_size_error_iff (lib : Library) (s : State)
    (d0 d1 d2 : Nat) (dim : Dimension)
    (h0 : valueTypeOf s.heap d0 = some .VectorXd)
    (h1 : valueTypeOf s.heap d1 = some .MatrixXd)
    (h2 : valueTypeOf s.heap d2 = some .MatrixXd) :
    ((∃ text bad correct,
        (ForwardHmmLikelihood_DF.create lib s [some d0, some d1, some d2] dim).error?
          = some (.BadSizeException text bad correct))
      ↔ ForwardHmmLikelihood_DF.sizeMismatch
          (ForwardHmmLikelihood_DF.targetValues lib s [some d0, some d1, some d2] dim) dim)
    ∧ (¬ ForwardHmmLikelihood_DF.sizeMismatch
          (ForwardHmmLikelihood_DF.targetValues lib s [some d0, some d1, some d2] dim) dim
        → (ForwardHmmLikelihood_DF.create lib s [some d0, some d1, some d2] dim).isOk = true)
    ∧ (∀ n0 n1 n2, s.heap[d0]? = some n0 → s.heap[d1]? = some n1 → s.heap[d2]? = some n2 →
        n0.valid = true → n1.valid = true → n2.valid = true →
        ForwardHmmLikelihood_DF.targetValues lib s [some d0, some d1, some d2] dim
          = (n0.value, n1.value, n2.value)) :=
  ForwardHmmLikelihood_DF_create_outcome lib s d0 d1 d2 dim h0 h1 h2

theorem ForwardHmmLikelihood_DF_create_size_error_iff_witness :
    ((∃ text bad correct,
        (ForwardHmmLikelihood_DF.create exampleLibrary exampleHmmState [some 0, some 1, some 2]
          ⟨3, 3⟩).error? = some (.BadSizeException text bad correct))
      ↔ ForwardHmmLikelihood_DF.sizeMismatch
          (ForwardHmmLikelihood_DF.targetValues exampleLibrary exampleHmmState
            [some 0, some 1, some 2] ⟨3, 3⟩) ⟨3, 3⟩)
    ∧ (ForwardHmmLikelihood_DF.create exampleLibrary exampleHmmState [some 0, some 1, some 2]
          ⟨3, 3⟩).error?
        = some (.BadSizeException "ForwardHmmLikelihood_DF: bad dimension for starting vector" 2 3)
    ∧ (ForwardHmmLikelihood_DF.create exampleLibrary exampleHmmState [some 0, some 1, some 2]
          ⟨2, 3⟩).isOk = true :=
  ⟨(ForwardHmmLikelihood_DF_create_size_error_iff exampleLibrary exampleHmmState 0 1 2 ⟨3, 3⟩
      (by decide) (by decide) (by decide)).1,
   by decide,
   (ForwardHmmLikelihood_DF_create_size_error_iff exampleLibrary exampleHmmState 0 1 2 ⟨2, 3⟩
      (by decide) (by decide) (by decide)).2.1 (by decide)⟩

/-- Claim C4, counterexample to the claim as stated. The transition matrix is 5 x 5 while 2 hidden states
are expected, yet the two numbers reported are 3 and 2: the length of the starting
vector and the expected extent, not an extent of the transition matrix. -/
theorem ForwardHmmLikelihood_DF_create_reports_starting_vector_first :
    (ForwardHmmLikelihood_DF.targetValues exampleLibrary exampleBadStartState
        [some 0, some 1, some 2] ⟨2, 2⟩).2.1.rows = 5
    ∧ (ForwardHmmLikelihood_DF.targetValues exampleLibrary exampleBadStartState
        [some 0, some 1, some 2] ⟨2, 2⟩).2.1.cols = 5
    ∧ (ForwardHmmLikelihood_DF.create exampleLibrary exampleBadStartState
        [some 0, some 1, some 2] ⟨2, 2⟩).error?
      = some (.BadSizeException "ForwardHmmLikelihood_DF: bad dimension for starting vector" 3 2) := by
  decide

/-- Outcome of `ForwardHmmLikelihood_DF::create` on correctly typed dependencies, in terms
of the values read by `build`. -/
theorem ForwardHmmLikelihood_DF_create_error (lib : Library) (s : State)
    (d0 d1 d2 : Nat) (dim : Dimension)
    (h0 : valueTypeOf s.heap d0 = some .VectorXd)
    (h1 : valueTypeOf s.heap d1 = some .MatrixXd)
    (h2 : valueTypeOf s.heap d2 = some .MatrixXd) :
    (ForwardHmmLikelihood_DF.create lib s [some d0, some d1, some d2] dim).error?
      = (if (ForwardHmmLikelihood_DF.targetValues lib s [some d0, some d1, some d2] dim).1.rows
            ≠ dim.rows then
          some (.BadSizeException "ForwardHmmLikelihood_DF: bad dimension for starting vector"
            (ForwardHmmLikelihood_DF.targetValues lib s [some d0, some d1, some d2] dim).1.rows
            dim.rows)
        else if (ForwardHmmLikelihood_DF.targetValues lib s [some d0, some d1, some d2]
            dim).2.1.rows ≠ dim.rows then
          some (.BadSizeException
            "ForwardHmmLikelihood_DF: bad number of rows for transition matrix"
            (ForwardHmmLikelihood_DF.targetValues lib s [some d0, some d1, some d2] dim).2.1.rows
            dim.rows)
        else if (ForwardHmmLikelihood_DF.targetValues lib s [some d0, some d1, some d2]
            dim).2.1.cols ≠ dim.rows then
          some (.BadSizeException
            "ForwardHmmLikelihood_DF: bad number of columns for transition matrix"
            (ForwardHmmLikelihood_DF.targetValues lib s [some d0, some d1, some d2] dim).2.1.cols
            dim.rows)
        else if (ForwardHmmLikelihood_DF.targetValues lib s [some d0, some d1, some d2]
            dim).2.2.rows ≠ dim.rows then
          some (.BadSizeException
            "ForwardHmmLikelihood_DF: bad number of states for emission matrix"
            (ForwardHmmLikelihood_DF.targetValues lib s [some d0, some d1, some d2] dim).2.2.rows
            dim.rows)
        else if (ForwardHmmLikelihood_DF.targetValues lib s [some d0, some d1, some d2]
            dim).2.2.cols ≠ dim.cols then
          some (.BadSizeException
            "ForwardHmmLikelihood_DF: bad number of sites for emission matrix"
            (ForwardHmmLikelihood_DF.targetValues lib s [some d0, some d1, some d2] dim).2.2.cols
            dim.cols)
        else none) := by
  unfold ForwardHmmLikelihood_DF.create ForwardHmmLikelihood_DF.targetValues
  rw [ForwardHmmLikelihood_DF_checks_ok h0 h1 h2]
  simp only []
  unfold ForwardHmmLikelihood_DF.build
  obtain ⟨fname, c, cache1, hb, -⟩ := buildCondLik_alloc "forwardCondLik" s
    (ForwardHmmLikelihood_DF.new [some d0, some d1, some d2] dim)
  rw [hb]
  simp only [Res.state]
  have hself : (alloc s (ForwardHmmLikelihood_DF.new [some d0, some d1, some d2] dim)).1
      = s.heap.length := rfl
  rw [hself]
  generalize hH : (s.heap ++ [{ ForwardHmmLikelihood_DF.new [some d0, some d1, some d2] dim with
      condLik_ := some c }, NumericConstant.new .string (.text "forwardCondLik"),
      CondLikelihood.new [some s.heap.length, some fname]
        ((ForwardHmmLikelihood_DF.new [some d0, some d1, some d2] dim).targetDimension_.getD ⟨0, 0⟩)]) = H
  have hl : H[s.heap.length]? = some { ForwardHmmLikelihood_DF.new [some d0, some d1, some d2] dim with
      condLik_ := some c } := by
    rw [← hH]; exact getElem?_append_cons_length _ _ _
  have hd0 : dependency H s.heap.length 0 = some d0 := by
    simp [dependency, hl, ForwardHmmLikelihood_DF.new]
  have hd1 : dependency H s.heap.length 1 = some d1 := by
    simp [dependency, hl, ForwardHmmLikelihood_DF.new]
  have hd2 : dependency H s.heap.length 2 = some d2 := by
    simp [dependency, hl, ForwardHmmLikelihood_DF.new]
  have hdim : targetDimensionOf H s.heap.length = dim := by
    simp [targetDimensionOf, hl, ForwardHmmLikelihood_DF.new]
  simp only [ForwardHmmLikelihood_DF.buildChecks, getTargetValue, dependency_computeRecursively,
    hd0, hd1, hd2, hdim]
  split_ifs <;> simp_all [Res.error?]

/-- Claim C4, amended. When the dependencies are correctly typed and the starting vector has
`dim.rows` rows, a transition matrix that is not `dim.rows` x `dim.rows` makes
`ForwardHmmLikelihood_DF::create` fail with a `BadSizeException` reporting the row count
of the transition matrix when it differs from `dim.rows`, its column count otherwise,
and the expected extent `dim.rows`. -/
theorem ForwardHmmLikelihood_DF_create_transition_error (lib : Library) (s : State)
    (d0 d1 d2 : Nat) (dim : Dimension)
    (h0 : valueTypeOf s.heap d0 = some .VectorXd)
    (h1 : valueTypeOf s.heap d1 = some .MatrixXd)
    (h2 : valueTypeOf s.heap d2 = some .MatrixXd)
    (hEq : (ForwardHmmLikelihood_DF.targetValues lib s [some d0, some d1, some d2] dim).1.rows
      = dim.rows)
    (hTrans :
      (ForwardHmmLikelihood_DF.targetValues lib s [some d0, some d1, some d2] dim).2.1.rows
        ≠ dim.rows
      ∨ (ForwardHmmLikelihood_DF.targetValues lib s [some d0, some d1, some d2] dim).2.1.cols
        ≠ dim.rows) :
    (ForwardHmmLikelihood_DF.create lib s [some d0, some d1, some d2] dim).error?
      = some (if (ForwardHmmLikelihood_DF.targetValues lib s [some d0, some d1, some d2]
            dim).2.1.rows ≠ dim.rows then
          .BadSizeException "ForwardHmmLikelihood_DF: bad number of rows for transition matrix"
            (ForwardHmmLikelihood_DF.targetValues lib s [some d0, some d1, some d2] dim).2.1.rows
            dim.rows
        else
          .BadSizeException
            "ForwardHmmLikelihood_DF: bad number of columns for transition matrix"
            (ForwardHmmLikelihood_DF.targetValues lib s [some d0, some d1, some d2] dim).2.1.cols
            dim.rows) := by
  rw [ForwardHmmLikelihood_DF_create_error lib s d0 d1 d2 dim h0 h1 h2]
  rw [if_neg (by simpa using hEq)]
  by_cases hr : (ForwardHmmLikelihood_DF.targetValues lib s [some d0, some d1, some d2]
      dim).2.1.rows ≠ dim.rows
  · rw [if_pos hr, if_pos hr]
  · rw [if_neg hr, if_neg hr]
    rcases hTrans with h | h
    · exact absurd h hr
    · rw [if_pos h]

theorem ForwardHmmLikelihood_DF_create_transition_error_witness :
    (ForwardHmmLikelihood_DF.create exampleLibrary exampleBadStartState
        [some 0, some 1, some 2] ⟨3, 2⟩).error?
      = some (.BadSizeException
          "ForwardHmmLikelihood_DF: bad number of rows for transition matrix" 5 3) :=
  ForwardHmmLikelihood_DF_create_transition_error exampleLibrary exampleBadStartState 0 1 2
    ⟨3, 2⟩ (by decide) (by decide) (by decide) (by decide) (by decide)

/-- Claim C9. For every `BackwardHmmLikelihood_DF` node and every parameter node, `derive`
throws: no node is returned, and heap and cache are left as they were. -/
theorem BackwardHmmLikelihood_DF_derive_throws (s : State) (self node : NodeId) :
    BackwardHmmLikelihood_DF.derive s self node
        = .throw (.Exception "BackwardHmmLikelihood_DF::derive To be finished.") s
    ∧ (BackwardHmmLikelihood_DF.derive s self node).value? = none
    ∧ (BackwardHmmLikelihood_DF.derive s self node).state = s :=
  ⟨rfl, rfl, rfl⟩

/-- Claim C10, counterexample to the claim as stated. In `exampleForwardState` node 6 is a
`CondLikelihood`, the parameter node 3 does not affect it, and `derive` returns no node
at all: it throws. -/
theorem CondLikelihood_derive_unaffected_throws :
    (exampleForwardState.heap[6]?).map Node.kind = some .CondLikelihood
    ∧ (exampleForwardState.heap[3]?).map Node.kind = some .NumericMutable
    ∧ affects exampleForwardState.heap exampleForwardState.heap.length 3 6 = false
    ∧ (CondLikelihood.derive exampleForwardState 6 3).value? = none := by
  decide

/-- Claim C10, amended. For every `CondLikelihood`, `ForwardHmmD2Likelihood_DF` and
`BackwardHmmLikelihood_DF` node and every parameter node, whether it affects the node or
not, `derive` throws and leaves heap and cache as they were. -/
theorem hmm_derive_throws (s : State) (self node : NodeId) :
    CondLikelihood.derive s self node
        = .throw (.Exception "CondLikelihood::derive is done in dependency class.") s
    ∧ ForwardHmmD2Likelihood_DF.derive s self node
        = .throw (.Exception "ForwardHmmD2Likelihood_DF::derive not implemented.") s
    ∧ BackwardHmmLikelihood_DF.derive s self node
        = .throw (.Exception "BackwardHmmLikelihood_DF::derive To be finished.") s :=
  ⟨rfl, rfl, rfl⟩

/-- Claim C6, the code at the failing input. Two identical requests in `exampleHmmState` both
return node 3, but the cache has 6 entries after the first and 7 after the second: the
second request registers node 8, a `CondLikelihood` whose first dependency is node 6, the
forward node allocated by the second request and dropped in favour of node 3. -/
theorem ForwardHmmLikelihood_DF_create_twice_grows_cache :
    (ForwardHmmLikelihood_DF.create exampleLibrary exampleHmmState
        [some 0, some 1, some 2] ⟨2, 3⟩).value? = some 3
    ∧ (ForwardHmmLikelihood_DF.create exampleLibrary
        (ForwardHmmLikelihood_DF.create exampleLibrary exampleHmmState
          [some 0, some 1, some 2] ⟨2, 3⟩).state [some 0, some 1, some 2] ⟨2, 3⟩).value? = some 3
    ∧ (ForwardHmmLikelihood_DF.create exampleLibrary exampleHmmState
        [some 0, some 1, some 2] ⟨2, 3⟩).state.cache = [0, 1, 2, 4, 5, 3]
    ∧ (ForwardHmmLikelihood_DF.create exampleLibrary
        (ForwardHmmLikelihood_DF.create exampleLibrary exampleHmmState
          [some 0, some 1, some 2] ⟨2, 3⟩).state [some 0, some 1, some 2] ⟨2, 3⟩).state.cache
        = [0, 1, 2, 4, 5, 3, 8]
    ∧ ((ForwardHmmLikelihood_DF.create exampleLibrary
        (ForwardHmmLikelihood_DF.create exampleLibrary exampleHmmState
          [some 0, some 1, some 2] ⟨2, 3⟩).state [some 0, some 1, some 2] ⟨2, 3⟩).state.heap[8]?).map
          (fun n => (n.kind, n.deps)) = some (.CondLikelihood, [some 6, some 4]) := by
  decide

/-- Claim C7, the code at the failing input. In `exampleHmmState` a request for 3 hidden
states fails on the starting vector of length 2, and the cache, `[0, 1, 2]` before the
call, holds two more nodes after it: the name constant 4 and the `CondLikelihood`
companion 5. -/
theorem ForwardHmmLikelihood_DF_create_failure_grows_cache :
    exampleHmmState.cache = [0, 1, 2]
    ∧ (ForwardHmmLikelihood_DF.create exampleLibrary exampleHmmState
        [some 0, some 1, some 2] ⟨3, 3⟩).error?
      = some (.BadSizeException "ForwardHmmLikelihood_DF: bad dimension for starting vector" 2 3)
    ∧ (ForwardHmmLikelihood_DF.create exampleLibrary exampleHmmState
        [some 0, some 1, some 2] ⟨3, 3⟩).state.cache = [0, 1, 2, 4, 5]
    ∧ ((ForwardHmmLikelihood_DF.create exampleLibrary exampleHmmState
        [some 0, some 1, some 2] ⟨3, 3⟩).state.heap[4]?).map Node.value
      = some (.text "forwardCondLik")
    ∧ ((ForwardHmmLikelihood_DF.create exampleLibrary exampleHmmState
        [some 0, some 1, some 2] ⟨3, 3⟩).state.heap[5]?).map Node.kind = some .CondLikelihood := by
  decide

/-- Claim C8, the code at the failing input. In `exampleDirtyState` the transition matrix
(node 1) is dirty; `ForwardHmmLikelihood_DF::create` succeeds and leaves it clean: creating
the node evaluated its dependency. `BackwardHmmLikelihood_DF::create`, which makes the
same five size comparisons on raw values, succeeds in `exampleDirtyBackwardState` and
leaves the dirty transition matrix (node 1) dirty. -/
theorem ForwardHmmLikelihood_DF_create_evaluates_dependency :
    (exampleDirtyState.heap[1]?).map Node.valid = some false
    ∧ (ForwardHmmLikelihood_DF.create exampleLibrary exampleDirtyState
        [some 0, some 1, some 2] ⟨2, 3⟩).isOk = true
    ∧ ((ForwardHmmLikelihood_DF.create exampleLibrary exampleDirtyState
        [some 0, some 1, some 2] ⟨2, 3⟩).state.heap[1]?).map Node.valid = some true
    ∧ (exampleDirtyBackwardState.heap[1]?).map Node.valid = some false
    ∧ (BackwardHmmLikelihood_DF.create exampleDirtyBackwardState
        [some 0, some 1, some 2] ⟨2, 3⟩).isOk = true
    ∧ ((BackwardHmmLikelihood_DF.create exampleDirtyBackwardState
        [some 0, some 1, some 2] ⟨2, 3⟩).state.heap[1]?).map Node.valid = some false := by
  decide

theorem sameShape_refl (n : Node) : n.sameShape n := ⟨rfl, rfl, rfl, rfl, rfl, rfl⟩

theorem sameShape_trans {a b c : Node} (h1 : a.sameShape b) (h2 : b.sameShape c) :
    a.sameShape c :=
  ⟨h1.1.trans h2.1, h1.2.1.trans h2.2.1, h1.2.2.1.trans h2.2.2.1,
    h1.2.2.2.1.trans h2.2.2.2.1, h1.2.2.2.2.1.trans h2.2.2.2.2.1,
    h1.2.2.2.2.2.trans h2.2.2.2.2.2⟩

theorem Grows_refl (h : Heap) : Grows h h := fun _ en he => ⟨en, he, sameShape_refl en⟩

theorem Grows_trans {a b c : Heap} (h1 : Grows a b) (h2 : Grows b c) : Grows a c := by
  intro e en he
  obtain ⟨em, hem, hs⟩ := h1 e en he
  obtain ⟨ek, hek, hs2⟩ := h2 e em hem
  exact ⟨ek, hek, sameShape_trans hs2 hs⟩

theorem Grows_of_append {a b : Heap} (hp : a <+: b) : Grows a b :=
  fun _ en he => ⟨en, getElem?_of_append hp he, sameShape_refl en⟩

theorem Grows_computeRecursively (lib : Library) (h : Heap) (i : Nat) :
    Grows h (computeRecursively lib h i) :=
  fun e en he => computeAux_shape lib h.length h i e en he

theorem Grows_length {a b : Heap} (hg : Grows a b) : a.length ≤ b.length := by
  by_contra hlt
  have hpos : b.length < a.length := by omega
  have hlook : a[b.length]? = some (a[b.length]) := List.getElem?_eq_getElem hpos
  obtain ⟨em, hem, _⟩ := hg _ _ hlook
  have := lt_length_of_getElem? hem
  omega

theorem Except_bind_unit_ok (a : Except Err Unit) (b : Unit → Except Err Unit) :
    (a >>= b) = .ok () ↔ a = .ok () ∧ b () = .ok () := by
  cases a with
  | error e => simp [bind, Except.bind]
  | ok u => cases u; simp [bind, Except.bind]

theorem nthDependency_grows {h h1 : Heap} (hg : Grows h h1) {deps : NodeRefVec} {i : Nat}
    {n : Node} (hn : nthDependency h deps i = some n) :
    ∃ m, nthDependency h1 deps i = some m ∧ m.sameShape n := by
  unfold nthDependency at hn ⊢
  split at hn
  · exact hg _ n hn
  · cases hn

theorem checkNthDependencyIsValue_grows {h h1 : Heap} (hg : Grows h h1) {T : ValueType}
    {deps : NodeRefVec} {i : Nat} (hc : checkNthDependencyIsValue T h deps i = .ok ()) :
    checkNthDependencyIsValue T h1 deps i = .ok () := by
  unfold checkNthDependencyIsValue at hc ⊢
  split at hc
  · rename_i n hn
    obtain ⟨m, hm, hs⟩ := nthDependency_grows hg hn
    rw [hm]
    simp only [hs.2.2.1]
    exact hc
  · cases hc

theorem checkNthDependencyIs_grows {h h1 : Heap} (hg : Grows h h1) {C : NodeKind}
    {deps : NodeRefVec} {i : Nat} (hc : checkNthDependencyIs C h deps i = .ok ()) :
    checkNthDependencyIs C h1 deps i = .ok () := by
  unfold checkNthDependencyIs at hc ⊢
  split at hc
  · rename_i n hn
    obtain ⟨m, hm, hs⟩ := nthDependency_grows hg hn
    rw [hm]
    simp only [hs.1]
    exact hc
  · cases hc

theorem CondLikelihood_checks_grows {h h1 : Heap} (hg : Grows h h1) {deps : NodeRefVec}
    (hc : CondLikelihood.checks h deps = .ok ()) : CondLikelihood.checks h1 deps = .ok () := by
  simp only [CondLikelihood.checks, Except_bind_unit_ok] at hc ⊢
  exact ⟨hc.1, hc.2.1, checkNthDependencyIsValue_grows hg hc.2.2⟩

theorem ForwardHmmLikelihood_DF_checks_grows {h h1 : Heap} (hg : Grows h h1)
    {deps : NodeRefVec} (hc : ForwardHmmLikelihood_DF.checks h deps = .ok ()) :
    ForwardHmmLikelihood_DF.checks h1 deps = .ok () := by
  simp only [ForwardHmmLikelihood_DF.checks, Except_bind_unit_ok] at hc ⊢
  exact ⟨hc.1, hc.2.1, checkNthDependencyIsValue_grows hg hc.2.2.1,
    checkNthDependencyIsValue_grows hg hc.2.2.2.1, checkNthDependencyIsValue_grows hg hc.2.2.2.2⟩

theorem BackwardHmmLikelihood_DF_checks_grows {h h1 : Heap} (hg : Grows h h1)
    {deps : NodeRefVec} (hc : BackwardHmmLikelihood_DF.checks h deps = .ok ()) :
    BackwardHmmLikelihood_DF.checks h1 deps = .ok () := by
  simp only [BackwardHmmLikelihood_DF.checks, Except_bind_unit_ok] at hc ⊢
  exact ⟨hc.1, hc.2.1, checkNthDependencyIsValue_grows hg hc.2.2.1,
    checkNthDependencyIsValue_grows hg hc.2.2.2.1, checkNthDependencyIsValue_grows hg hc.2.2.2.2⟩

theorem ForwardHmmDLikelihood_DF_checks_grows {h h1 : Heap} (hg : Grows h h1)
    {deps : NodeRefVec} (hc : ForwardHmmDLikelihood_DF.checks h deps = .ok ()) :
    ForwardHmmDLikelihood_DF.checks h1 deps = .ok () := by
  simp only [ForwardHmmDLikelihood_DF.checks, Except_bind_unit_ok] at hc ⊢
  obtain ⟨c1, c2, c3, c4, c5, c6, c7, c8, c9⟩ := hc
  exact ⟨c1, c2, checkNthDependencyIsValue_grows hg c3, checkNthDependencyIsValue_grows hg c4,
    checkNthDependencyIsValue_grows hg c5, checkNthDependencyIs_grows hg c6,
    checkNthDependencyIsValue_grows hg c7, checkNthDependencyIsValue_grows hg c8,
    checkNthDependencyIsValue_grows hg c9⟩

theorem ForwardHmmD2Likelihood_DF_checks_grows {h h1 : Heap} (hg : Grows h h1)
    {deps : NodeRefVec} (hc : ForwardHmmD2Likelihood_DF.checks h deps = .ok ()) :
    ForwardHmmD2Likelihood_DF.checks h1 deps = .ok () := by
  simp only [ForwardHmmD2Likelihood_DF.checks, Except_bind_unit_ok] at hc ⊢
  obtain ⟨c1, c2, c3, c4, c5, c6, c7, c8, c9, c10, c11, c12, c13⟩ := hc
  exact ⟨c1, c2, checkNthDependencyIsValue_grows hg c3, checkNthDependencyIsValue_grows hg c4,
    checkNthDependencyIsValue_grows hg c5, checkNthDependencyIs_grows hg c6,
    checkNthDependencyIsValue_grows hg c7, checkNthDependencyIsValue_grows hg c8,
    checkNthDependencyIsValue_grows hg c9, checkNthDependencyIs_grows hg c10,
    checkNthDependencyIsValue_grows hg c11, checkNthDependencyIsValue_grows hg c12,
    checkNthDependencyIsValue_grows hg c13⟩

theorem find?_congr_mem {p q : Nat → Bool} :
    ∀ (l : List Nat), (∀ e ∈ l, p e = q e) → l.find? p = l.find? q := by
  intro l
  induction l with
  | nil => intro _; rfl
  | cons a t ih =>
    intro h
    have ha : p a = q a := h a (List.mem_cons_self _ _)
    have ht : t.find? p = t.find? q := ih (fun e he => h e (List.mem_cons_of_mem _ he))
    simp only [List.find?_cons, ha, ht]

/-- A node of one of the five HMM classes is equal, for the cache, to the nodes of its
class that have its dependencies. -/
theorem sameNode_hmm {h : Heap} {x e : Nat} {n : Node} (hx : h[x]? = some n)
    (hk : n.kind.isHmm = true) :
    sameNode h x e = match h[e]? with
      | some en => decide (en.deps = n.deps) && decide (en.kind = n.kind)
      | none => false := by
  unfold sameNode
  rw [hx]
  cases he : h[e]? with
  | none => rfl
  | some en =>
    simp only
    congr 1
    unfold Node.compareAdditionalArguments
    cases hkind : n.kind <;> simp_all [NodeKind.isHmm]

/-- Second lookup of an equal candidate: after `cachedAs A x` returned `r`, a candidate `y`
of the same HMM class with the same dependencies, looked up in a heap grown from the one
of `A` and in a cache that got more entries at its end, is found to be `r` again and
is not registered. -/
theorem cachedAs_again (A : State) (x : Nat) (hB : Heap) (extra : List Nat) (y : Nat)
    (n m : Node) (hx : A.heap[x]? = some n) (hy : hB[y]? = some m)
    (hk : n.kind.isHmm = true) (hkind : m.kind = n.kind) (hdeps : m.deps = n.deps)
    (hg : Grows A.heap hB) (hc : ∀ e : Nat, e ∈ A.cache → e < A.heap.length) :
    cachedAs ⟨hB, (cachedAs A x).2.cache ++ extra⟩ y
      = ((cachedAs A x).1, ⟨hB, (cachedAs A x).2.cache ++ extra⟩) := by
  have hkm : m.kind.isHmm = true := by rw [hkind]; exact hk
  have hpt : ∀ e, e < A.heap.length → sameNode hB y e = sameNode A.heap x e := by
    intro e he
    rw [sameNode_hmm hy hkm, sameNode_hmm hx hk]
    have hlook : A.heap[e]? = some (A.heap[e]) := List.getElem?_eq_getElem he
    obtain ⟨em, hem, hs⟩ := hg e _ hlook
    rw [hem, hlook]
    simp only [hs.1, hs.2.1, hkind, hdeps]
  have hxlt : x < A.heap.length := lt_length_of_getElem? hx
  have hxx : sameNode hB y x = true := by
    rw [hpt x hxlt, sameNode_hmm hx hk, hx]
    simp
  have hfind : A.cache.find? (sameNode hB y) = A.cache.find? (sameNode A.heap x) :=
    find?_congr_mem A.cache (fun e he => hpt e (hc e he))
  unfold cachedAs
  cases hf : A.cache.find? (sameNode A.heap x) with
  | some r =>
    simp only
    rw [List.find?_append, hfind, hf]
    rfl
  | none =>
    simp only
    rw [List.find?_append, List.find?_append, hfind, hf]
    simp [hxx]

theorem accessValueConst_of_lookup {h : Heap} {d : Nat} {n : Node} (T : ValueType)
    (hd : h[d]? = some n) : accessValueConst h T (some d) = n.value := by
  simp [accessValueConst, hd]

/-- Three evaluations in a row: afterwards the three nodes are clean and hold the values
that were read. -/
theorem three_evaluations (lib : Library) (H : Heap) (d0 d1 d2 : Nat) (T0 T1 T2 : ValueType)
    (n0 n1 n2 : Node) (e0 : H[d0]? = some n0) (e1 : H[d1]? = some n1) (e2 : H[d2]? = some n2) :
    ∃ m0 m1 m2,
      (computeRecursively lib (computeRecursively lib (computeRecursively lib H d0) d1) d2)[d0]?
        = some m0 ∧ m0.valid = true
      ∧ m0.value = accessValueConst (computeRecursively lib H d0) T0 (some d0)
      ∧ (computeRecursively lib (computeRecursively lib (computeRecursively lib H d0) d1) d2)[d1]?
        = some m1 ∧ m1.valid = true
      ∧ m1.value = accessValueConst (computeRecursively lib (computeRecursively lib H d0) d1) T1
          (some d1)
      ∧ (computeRecursively lib (computeRecursively lib (computeRecursively lib H d0) d1) d2)[d2]?
        = some m2 ∧ m2.valid = true
      ∧ m2.value = accessValueConst
          (computeRecursively lib (computeRecursively lib (computeRecursively lib H d0) d1) d2) T2
          (some d2) := by
  obtain ⟨m0, hm0, v0⟩ := computeRecursively_valid lib H d0 n0 e0
  obtain ⟨k1, hk1, _⟩ := Grows_computeRecursively lib H d0 d1 n1 e1
  obtain ⟨m1, hm1, v1⟩ := computeRecursively_valid lib _ d1 k1 hk1
  obtain ⟨k2, hk2, _⟩ := Grows_computeRecursively lib H d0 d2 n2 e2
  obtain ⟨k3, hk3, _⟩ := Grows_computeRecursively lib _ d1 d2 k2 hk2
  obtain ⟨m2, hm2, v2⟩ := computeRecursively_valid lib _ d2 k3 hk3
  have a0 : (computeRecursively lib (computeRecursively lib H d0) d1)[d0]? = some m0 :=
    computeAux_valid lib _ _ d1 d0 m0 hm0 v0
  have b0 : (computeRecursively lib (computeRecursively lib (computeRecursively lib H d0) d1)
      d2)[d0]? = some m0 := computeAux_valid lib _ _ d2 d0 m0 a0 v0
  have b1 : (computeRecursively lib (computeRecursively lib (computeRecursively lib H d0) d1)
      d2)[d1]? = some m1 := computeAux_valid lib _ _ d2 d1 m1 hm1 v1
  refine ⟨m0, m1, m2, b0, v0, ?_, b1, v1, ?_, hm2, v2, ?_⟩
  · rw [accessValueConst_of_lookup T0 hm0]
  · rw [accessValueConst_of_lookup T1 hm1]
  · rw [accessValueConst_of_lookup T2 hm2]

/-- What `ForwardHmmLikelihood_DF::create` does on correctly typed dependencies, up to the
final cache lookup. -/
theorem ForwardHmmLikelihood_DF_create_unfold (lib : Library) (s : State)
    (d0 d1 d2 : Nat) (dim : Dimension)
    (h0 : valueTypeOf s.heap d0 = some .VectorXd)
    (h1 : valueTypeOf s.heap d1 = some .MatrixXd)
    (h2 : valueTypeOf s.heap d2 = some .MatrixXd) :
    ∃ (extra : List Nat) (h6 : Heap) (m m0 m1 m2 : Node),
      (∀ e ∈ extra, s.heap.length < e ∧ e < s.heap.length + 3)
      ∧ Grows s.heap h6
      ∧ h6.length = s.heap.length + 3
      ∧ h6[s.heap.length]? = some m
      ∧ m.kind = .ForwardHmmLikelihood_DF ∧ m.deps = [some d0, some d1, some d2]
      ∧ h6[d0]? = some m0 ∧ m0.valid = true
      ∧ h6[d1]? = some m1 ∧ m1.valid = true
      ∧ h6[d2]? = some m2 ∧ m2.valid = true
      ∧ ForwardHmmLikelihood_DF.targetValues lib s [some d0, some d1, some d2] dim
          = (m0.value, m1.value, m2.value)
      ∧ (¬ ForwardHmmLikelihood_DF.sizeMismatch
            (ForwardHmmLikelihood_DF.targetValues lib s [some d0, some d1, some d2] dim) dim →
          ForwardHmmLikelihood_DF.create lib s [some d0, some d1, some d2] dim
            = .ok (cachedAs ⟨h6, s.cache ++ extra⟩ s.heap.length).1
                (cachedAs ⟨h6, s.cache ++ extra⟩ s.heap.length).2) := by
  unfold ForwardHmmLikelihood_DF.create ForwardHmmLikelihood_DF.targetValues
  rw [ForwardHmmLikelihood_DF_checks_ok h0 h1 h2]
  simp only []
  unfold ForwardHmmLikelihood_DF.build
  obtain ⟨fname, c, cache1, hb, extra, hcache, hextra⟩ := buildCondLik_alloc "forwardCondLik" s
    (ForwardHmmLikelihood_DF.new [some d0, some d1, some d2] dim)
  rw [hb]
  simp only [Res.state]
  have hself : (alloc s (ForwardHmmLikelihood_DF.new [some d0, some d1, some d2] dim)).1
      = s.heap.length := rfl
  rw [hself]
  subst hcache
  generalize hH : (s.heap ++ [{ ForwardHmmLikelihood_DF.new [some d0, some d1, some d2] dim with
      condLik_ := some c }, NumericConstant.new .string (.text "forwardCondLik"),
      CondLikelihood.new [some s.heap.length, some fname]
        ((ForwardHmmLikelihood_DF.new [some d0, some d1, some d2] dim).targetDimension_.getD ⟨0, 0⟩)]) = H
  have hl : H[s.heap.length]? = some { ForwardHmmLikelihood_DF.new [some d0, some d1, some d2] dim with
      condLik_ := some c } := by
    rw [← hH]; exact getElem?_append_cons_length _ _ _
  have hlen : H.length = s.heap.length + 3 := by rw [← hH]; simp
  have hp : s.heap <+: H := by rw [← hH]; exact List.prefix_append _ _
  have hd0 : dependency H s.heap.length 0 = some d0 := by
    simp [dependency, hl, ForwardHmmLikelihood_DF.new]
  have hd1 : dependency H s.heap.length 1 = some d1 := by
    simp [dependency, hl, ForwardHmmLikelihood_DF.new]
  have hd2 : dependency H s.heap.length 2 = some d2 := by
    simp [dependency, hl, ForwardHmmLikelihood_DF.new]
  have hdim : targetDimensionOf H s.heap.length = dim := by
    simp [targetDimensionOf, hl, ForwardHmmLikelihood_DF.new]
  unfold valueTypeOf at h0 h1 h2
  simp only [Option.map_eq_some'] at h0 h1 h2
  obtain ⟨n0, e0, -⟩ := h0
  obtain ⟨n1, e1, -⟩ := h1
  obtain ⟨n2, e2, -⟩ := h2
  obtain ⟨m0, m1, m2, b0, v0, w0, b1, v1, w1, b2, v2, w2⟩ :=
    three_evaluations lib H d0 d1 d2 .VectorXd .MatrixXd .MatrixXd n0 n1 n2
      (getElem?_of_append hp e0) (getElem?_of_append hp e1) (getElem?_of_append hp e2)
  have hgrow : Grows H (computeRecursively lib (computeRecursively lib
      (computeRecursively lib H d0) d1) d2) :=
    Grows_trans (Grows_trans (Grows_computeRecursively lib H d0)
      (Grows_computeRecursively lib _ d1)) (Grows_computeRecursively lib _ d2)
  obtain ⟨m, hm, hs⟩ := hgrow _ _ hl
  refine ⟨extra, computeRecursively lib (computeRecursively lib (computeRecursively lib H d0) d1)
    d2, m, m0, m1, m2, hextra, Grows_trans (Grows_of_append hp) hgrow, ?_, hm, hs.1, hs.2.1,
    b0, v0, b1, v1, b2, v2, ?_, ?_⟩
  · simp only [computeRecursively, computeAux_length]
    exact hlen
  · simp only [getTargetValue, dependency_computeRecursively, hd0, hd1, hd2, w0, w1, w2]
  · simp only [ForwardHmmLikelihood_DF.buildChecks, getTargetValue, dependency_computeRecursively,
      hd0, hd1, hd2, hdim, ForwardHmmLikelihood_DF.sizeMismatch]
    intro hno
    split_ifs <;> simp_all

theorem allocCached_twice (s : State) (node : Node) (hk : node.kind.isHmm = true)
    (hc : s.CacheInHeap) :
    cachedAs (alloc (cachedAs (alloc s node).2 (alloc s node).1).2 node).2
        (alloc (cachedAs (alloc s node).2 (alloc s node).1).2 node).1
      = ((cachedAs (alloc s node).2 (alloc s node).1).1,
          (alloc (cachedAs (alloc s node).2 (alloc s node).1).2 node).2) := by
  have hx : (alloc s node).2.heap[s.heap.length]? = some node := by simp [alloc]
  have hy : ((alloc s node).2.heap ++ [node])[s.heap.length + 1]? = some node := by
    have : s.heap.length + 1 = (alloc s node).2.heap.length := by simp [alloc]
    rw [this]
    exact lookup_append_new _ _
  have hbound : ∀ e : Nat, e ∈ (alloc s node).2.cache → e < (alloc s node).2.heap.length := by
    intro e he
    have := hc e he
    simp only [alloc, List.length_append, List.length_singleton]
    omega
  have key := cachedAs_again (alloc s node).2 s.heap.length ((alloc s node).2.heap ++ [node]) []
    (s.heap.length + 1) node node hx hy hk rfl rfl (Grows_of_append (List.prefix_append _ _))
    hbound
  have e1 : (alloc (cachedAs (alloc s node).2 (alloc s node).1).2 node).2
      = ⟨(alloc s node).2.heap ++ [node],
          (cachedAs (alloc s node).2 s.heap.length).2.cache ++ []⟩ := by
    simp only [alloc, List.append_nil]
    rw [cachedAs_heap]
  have e2 : (alloc (cachedAs (alloc s node).2 (alloc s node).1).2 node).1
      = s.heap.length + 1 := by
    simp only [alloc]
    rw [cachedAs_heap]
    simp
  rw [e2, e1]
  exact key

theorem CacheInHeap_allocCached (s : State) (node : Node) (hc : s.CacheInHeap) :
    (cachedAs (alloc s node).2 (alloc s node).1).2.CacheInHeap := by
  intro e he
  rw [cachedAs_heap]
  simp only [alloc, List.length_append, List.length_singleton]
  rcases cachedAs_cache (alloc s node).2 (alloc s node).1 with h | h
  · rw [h] at he
    have := hc e he
    omega
  · rw [h] at he
    simp only [alloc, List.mem_append, List.mem_singleton] at he
    rcases he with he | he
    · have := hc e he
      omega
    · omega

theorem value?_ok_inv {α : Type} {x : Res α} {r : α} (h : x.value? = some r) :
    x = .ok r x.state := by
  cases x with
  | ok a s => simp only [Res.value?, Option.some.injEq] at h; subst h; rfl
  | throw e s => cases h

/-- Two identical `CondLikelihood::create` requests return the same node. -/
theorem CondLikelihood_create_twice (s : State) (deps : NodeRefVec) (dim : Dimension)
    (r : NodeId) (hc : s.CacheInHeap)
    (hr : (CondLikelihood.create s deps dim).value? = some r) :
    (CondLikelihood.create (CondLikelihood.create s deps dim).state deps dim).value? = some r := by
  unfold CondLikelihood.create at hr ⊢
  cases hck : CondLikelihood.checks s.heap deps with
  | error e => rw [hck] at hr; cases hr
  | ok u =>
    rw [hck] at hr
    simp only [hck, Res.state, Res.value?, Option.some.injEq] at hr ⊢
    have hg : Grows s.heap (cachedAs (alloc s (CondLikelihood.new deps dim)).2
        (alloc s (CondLikelihood.new deps dim)).1).2.heap := by
      rw [cachedAs_heap]
      exact Grows_of_append (List.prefix_append _ _)
    rw [CondLikelihood_checks_grows hg hck]
    simp only [Res.value?, Option.some.injEq]
    rw [allocCached_twice s (CondLikelihood.new deps dim) rfl hc]
    exact hr

theorem checkNthDependencyIsValue_inv {T : ValueType} {h : Heap} {deps : NodeRefVec} {i : Nat}
    (hc : checkNthDependencyIsValue T h deps i = .ok ()) :
    ∃ (d : Nat) (n : Node), deps[i]? = some (some d) ∧ h[d]? = some n ∧ n.valueType = T := by
  unfold checkNthDependencyIsValue nthDependency at hc
  split at hc
  · rename_i n hn
    split at hn
    · rename_i d hd
      split at hc
      · rename_i ht
        exact ⟨d, n, hd, hn, ht⟩
      · cases hc
    · cases hn
  · cases hc

theorem BackwardHmmLikelihood_DF_new_of_append {h h1 : Heap} (hp : h <+: h1)
    {deps : NodeRefVec} (dim : Dimension)
    (hc : BackwardHmmLikelihood_DF.checks h deps = .ok ()) :
    BackwardHmmLikelihood_DF.new h1 deps dim = BackwardHmmLikelihood_DF.new h deps dim := by
  simp only [BackwardHmmLikelihood_DF.checks, Except_bind_unit_ok] at hc
  obtain ⟨-, -, c0, c1, c2⟩ := hc
  obtain ⟨d0, n0, e0, l0, -⟩ := checkNthDependencyIsValue_inv c0
  obtain ⟨d1, n1, e1, l1, -⟩ := checkNthDependencyIsValue_inv c1
  obtain ⟨d2, n2, e2, l2, -⟩ := checkNthDependencyIsValue_inv c2
  have j0 : (deps[0]?).join = some d0 := by rw [e0]; rfl
  have j1 : (deps[1]?).join = some d1 := by rw [e1]; rfl
  have j2 : (deps[2]?).join = some d2 := by rw [e2]; rfl
  unfold BackwardHmmLikelihood_DF.new
  simp only [j0, j1, j2, accessValueConst_of_lookup _ l0,
    accessValueConst_of_lookup _ l1, accessValueConst_of_lookup _ l2,
    accessValueConst_of_lookup _ (getElem?_of_append hp l0),
    accessValueConst_of_lookup _ (getElem?_of_append hp l1),
    accessValueConst_of_lookup _ (getElem?_of_append hp l2)]

theorem BackwardHmmLikelihood_DF_new_kind {h : Heap} {deps : NodeRefVec} {dim : Dimension}
    {n : Node} (hn : BackwardHmmLikelihood_DF.new h deps dim = .ok n) :
    n.kind = .BackwardHmmLikelihood_DF := by
  unfold BackwardHmmLikelihood_DF.new at hn
  simp only at hn
  split_ifs at hn
  simp only [Except.ok.injEq] at hn
  rw [← hn]

/-- Two identical `BackwardHmmLikelihood_DF::create` requests return the same node. -/
theorem BackwardHmmLikelihood_DF_create_twice (s : State) (deps : NodeRefVec)
    (dim : Dimension) (r : NodeId) (hc : s.CacheInHeap)
    (hr : (BackwardHmmLikelihood_DF.create s deps dim).value? = some r) :
    (BackwardHmmLikelihood_DF.create (BackwardHmmLikelihood_DF.create s deps dim).state
      deps dim).value? = some r := by
  unfold BackwardHmmLikelihood_DF.create at hr ⊢
  cases hck : BackwardHmmLikelihood_DF.checks s.heap deps with
  | error e => rw [hck] at hr; cases hr
  | ok u =>
    cases hnew : BackwardHmmLikelihood_DF.new s.heap deps dim with
    | error e => rw [hck] at hr; simp only [hnew] at hr; cases hr
    | ok n =>
      simp only [hck, hnew, Res.state, Res.value?, Option.some.injEq] at hr ⊢
      have hp : s.heap <+: (cachedAs (alloc s n).2 (alloc s n).1).2.heap := by
        rw [cachedAs_heap]
        exact List.prefix_append _ _
      rw [BackwardHmmLikelihood_DF_checks_grows (Grows_of_append hp) hck]
      simp only []
      rw [BackwardHmmLikelihood_DF_new_of_append hp dim hck, hnew]
      simp only [Res.value?, Option.some.injEq]
      rw [allocCached_twice s n (by rw [BackwardHmmLikelihood_DF_new_kind hnew]; rfl) hc]
      exact hr

/-- The companion construction followed by the cache lookup, run twice for the same new
node: the second lookup returns the node the first one returned. -/
theorem buildCondLik_twice (name : String) (s : State) (node : Node)
    (hk : node.kind.isHmm = true) (hc : s.CacheInHeap) :
    ∃ A B : State,
      buildCondLik name (alloc s node).2 (alloc s node).1 = .ok () A
      ∧ buildCondLik name (alloc (cachedAs A s.heap.length).2 node).2
          (alloc (cachedAs A s.heap.length).2 node).1 = .ok () B
      ∧ cachedAs B (cachedAs A s.heap.length).2.heap.length
          = ((cachedAs A s.heap.length).1, B) := by
  obtain ⟨fname, c, cache1, hb, extra, hcache, hextra⟩ := buildCondLik_alloc name s node
  subst hcache
  refine ⟨_, ?_, hb, ?_⟩
  · exact (buildCondLik name (alloc (cachedAs ⟨s.heap ++ [{ node with condLik_ := some c },
      NumericConstant.new .string (.text name),
      CondLikelihood.new [some s.heap.length, some fname] (node.targetDimension_.getD ⟨0, 0⟩)],
      s.cache ++ extra⟩ s.heap.length).2 node).2 (alloc (cachedAs ⟨s.heap ++ [{ node with
      condLik_ := some c }, NumericConstant.new .string (.text name),
      CondLikelihood.new [some s.heap.length, some fname] (node.targetDimension_.getD ⟨0, 0⟩)],
      s.cache ++ extra⟩ s.heap.length).2 node).1).state
  generalize hA : (⟨s.heap ++ [{ node with condLik_ := some c },
      NumericConstant.new .string (.text name),
      CondLikelihood.new [some s.heap.length, some fname] (node.targetDimension_.getD ⟨0, 0⟩)],
      s.cache ++ extra⟩ : State) = A
  have hAheap : A.heap = s.heap ++ [{ node with condLik_ := some c },
      NumericConstant.new .string (.text name),
      CondLikelihood.new [some s.heap.length, some fname]
        (node.targetDimension_.getD ⟨0, 0⟩)] := by rw [← hA]
  have hAcache : A.cache = s.cache ++ extra := by rw [← hA]
  obtain ⟨fname2, c2, cache2, hb2, extra2, hcache2, -⟩ :=
    buildCondLik_alloc name (cachedAs A s.heap.length).2 node
  rw [hb2]
  refine ⟨rfl, ?_⟩
  simp only [Res.state]
  subst hcache2
  have hx : A.heap[s.heap.length]? = some { node with condLik_ := some c } := by
    rw [hAheap]; exact getElem?_append_cons_length _ _ _
  have hlenA : A.heap.length = s.heap.length + 3 := by rw [hAheap]; simp
  have hbound : ∀ e : Nat, e ∈ A.cache → e < A.heap.length := by
    intro e he
    rw [hAcache, List.mem_append] at he
    rw [hlenA]
    rcases he with he | he
    · have := hc e he
      omega
    · exact (hextra e he).2
  have key := cachedAs_again A s.heap.length
    ((cachedAs A s.heap.length).2.heap ++ [{ node with condLik_ := some c2 },
      NumericConstant.new .string (.text name),
      CondLikelihood.new [some (cachedAs A s.heap.length).2.heap.length, some fname2]
        (node.targetDimension_.getD ⟨0, 0⟩)]) extra2 (cachedAs A s.heap.length).2.heap.length
    { node with condLik_ := some c } { node with condLik_ := some c2 } hx
    (getElem?_append_cons_length _ _ _) hk rfl rfl
    (by rw [cachedAs_heap]; exact Grows_of_append (List.prefix_append _ _)) hbound
  exact key

/-- Two identical `ForwardHmmDLikelihood_DF::create` requests return the same node. -/
theorem ForwardHmmDLikelihood_DF_create_twice (s : State) (deps : NodeRefVec)
    (dim : Dimension) (r : NodeId) (hc : s.CacheInHeap)
    (hr : (ForwardHmmDLikelihood_DF.create s deps dim).value? = some r) :
    (ForwardHmmDLikelihood_DF.create (ForwardHmmDLikelihood_DF.create s deps dim).state
      deps dim).value? = some r := by
  unfold ForwardHmmDLikelihood_DF.create ForwardHmmDLikelihood_DF.build at hr ⊢
  cases hck : ForwardHmmDLikelihood_DF.checks s.heap deps with
  | error e => rw [hck] at hr; cases hr
  | ok u =>
    obtain ⟨A, B, hA, hB, hAB⟩ := buildCondLik_twice "forwardDcondLik" s
      (ForwardHmmDLikelihood_DF.new deps dim) rfl hc
    have hid : (alloc s (ForwardHmmDLikelihood_DF.new deps dim)).1 = s.heap.length := rfl
    have hA1 : buildCondLik "forwardDcondLik" (alloc s (ForwardHmmDLikelihood_DF.new deps dim)).2 s.heap.length
        = .ok () A := hA
    have hB1 : buildCondLik "forwardDcondLik"
        (alloc (cachedAs A s.heap.length).2 (ForwardHmmDLikelihood_DF.new deps dim)).2
        (cachedAs A s.heap.length).2.heap.length = .ok () B := hB
    simp only [hck, hid, hA1, Res.state, Res.value?, Option.some.injEq] at hr ⊢
    have hg : Grows s.heap (cachedAs A s.heap.length).2.heap := by
      rw [cachedAs_heap]
      have hb := buildCondLik_alloc "forwardDcondLik" s (ForwardHmmDLikelihood_DF.new deps dim)
      obtain ⟨fname, c, cache1, hb, -⟩ := hb
      rw [hA] at hb
      simp only [Res.ok.injEq, true_and] at hb
      rw [hb]
      exact Grows_of_append (List.prefix_append _ _)
    rw [ForwardHmmDLikelihood_DF_checks_grows hg hck]
    have hid2 : (alloc (cachedAs A s.heap.length).2 (ForwardHmmDLikelihood_DF.new deps dim)).1
        = (cachedAs A s.heap.length).2.heap.length := rfl
    simp only [hid2, hB1, hAB]
    exact congrArg some hr

/-- Two identical `ForwardHmmD2Likelihood_DF::create` requests return the same node. -/
theorem ForwardHmmD2Likelihood_DF_create_twice (s : State) (deps : NodeRefVec)
    (dim : Dimension) (r : NodeId) (hc : s.CacheInHeap)
    (hr : (ForwardHmmD2Likelihood_DF.create s deps dim).value? = some r) :
    (ForwardHmmD2Likelihood_DF.create (ForwardHmmD2Likelihood_DF.create s deps dim).state
      deps dim).value? = some r := by
  unfold ForwardHmmD2Likelihood_DF.create ForwardHmmD2Likelihood_DF.build at hr ⊢
  cases hck : ForwardHmmD2Likelihood_DF.checks s.heap deps with
  | error e => rw [hck] at hr; cases hr
  | ok u =>
    obtain ⟨A, B, hA, hB, hAB⟩ := buildCondLik_twice "forwardD2condLik" s
      (ForwardHmmD2Likelihood_DF.new deps dim) rfl hc
    have hid : (alloc s (ForwardHmmD2Likelihood_DF.new deps dim)).1 = s.heap.length := rfl
    have hA1 : buildCondLik "forwardD2condLik" (alloc s (ForwardHmmD2Likelihood_DF.new deps dim)).2 s.heap.length
        = .ok () A := hA
    have hB1 : buildCondLik "forwardD2condLik"
        (alloc (cachedAs A s.heap.length).2 (ForwardHmmD2Likelihood_DF.new deps dim)).2
        (cachedAs A s.heap.length).2.heap.length = .ok () B := hB
    simp only [hck, hid, hA1, Res.state, Res.value?, Option.some.injEq] at hr ⊢
    have hg : Grows s.heap (cachedAs A s.heap.length).2.heap := by
      rw [cachedAs_heap]
      have hb := buildCondLik_alloc "forwardD2condLik" s (ForwardHmmD2Likelihood_DF.new deps dim)
      obtain ⟨fname, c, cache1, hb, -⟩ := hb
      rw [hA] at hb
      simp only [Res.ok.injEq, true_and] at hb
      rw [hb]
      exact Grows_of_append (List.prefix_append _ _)
    rw [ForwardHmmD2Likelihood_DF_checks_grows hg hck]
    have hid2 : (alloc (cachedAs A s.heap.length).2 (ForwardHmmD2Likelihood_DF.new deps dim)).1
        = (cachedAs A s.heap.length).2.heap.length := rfl
    simp only [hid2, hB1, hAB]
    exact congrArg some hr

theorem ForwardHmmLikelihood_DF_checks_inv {h : Heap} {deps : NodeRefVec}
    (hc : ForwardHmmLikelihood_DF.checks h deps = .ok ()) :
    ∃ d0 d1 d2 : Nat, deps = [some d0, some d1, some d2]
      ∧ valueTypeOf h d0 = some .VectorXd ∧ valueTypeOf h d1 = some .MatrixXd
      ∧ valueTypeOf h d2 = some .MatrixXd := by
  simp only [ForwardHmmLikelihood_DF.checks, Except_bind_unit_ok] at hc
  obtain ⟨-, c, c0, c1, c2⟩ := hc
  obtain ⟨d0, n0, e0, l0, t0⟩ := checkNthDependencyIsValue_inv c0
  obtain ⟨d1, n1, e1, l1, t1⟩ := checkNthDependencyIsValue_inv c1
  obtain ⟨d2, n2, e2, l2, t2⟩ := checkNthDependencyIsValue_inv c2
  refine ⟨d0, d1, d2, ?_, by simp [valueTypeOf, l0, t0], by simp [valueTypeOf, l1, t1],
    by simp [valueTypeOf, l2, t2]⟩
  unfold checkDependencyVectorSize at c
  split_ifs at c with hlen
  match deps, hlen, e0, e1, e2 with
  | [a, b, c], _, e0, e1, e2 =>
    simp only [List.getElem?_cons_zero, List.getElem?_cons_succ, Option.some.injEq]
      at e0 e1 e2
    rw [e0, e1, e2]

theorem valueTypeOf_grows {h h1 : Heap} (hg : Grows h h1) {d : Nat} {T : ValueType}
    (ht : valueTypeOf h d = some T) : valueTypeOf h1 d = some T := by
  unfold valueTypeOf at ht ⊢
  simp only [Option.map_eq_some'] at ht ⊢
  obtain ⟨n, hn, hT⟩ := ht
  obtain ⟨m, hm, hs⟩ := hg d n hn
  exact ⟨m, hm, hs.2.2.1.trans hT⟩

/-- Two identical `ForwardHmmLikelihood_DF::create` requests return the same node. -/
theorem ForwardHmmLikelihood_DF_create_twice (lib : Library) (s : State) (deps : NodeRefVec)
    (dim : Dimension) (r : NodeId) (hc : s.CacheInHeap)
    (hr : (ForwardHmmLikelihood_DF.create lib s deps dim).value? = some r) :
    (ForwardHmmLikelihood_DF.create lib (ForwardHmmLikelihood_DF.create lib s deps dim).state
      deps dim).value? = some r := by
  have hck : ForwardHmmLikelihood_DF.checks s.heap deps = .ok () := by
    unfold ForwardHmmLikelihood_DF.create at hr
    cases hck : ForwardHmmLikelihood_DF.checks s.heap deps with
    | error e => rw [hck] at hr; cases hr
    | ok u => rfl
  obtain ⟨d0, d1, d2, rfl, t0, t1, t2⟩ := ForwardHmmLikelihood_DF_checks_inv hck
  obtain ⟨extra, h6, m, m0, m1, m2, hextra, hg, hlen, hm, hmk, hmd, b0, v0, b1, v1, b2, v2,
    htv, hok⟩ := ForwardHmmLikelihood_DF_create_unfold lib s d0 d1 d2 dim t0 t1 t2
  have hno : ¬ ForwardHmmLikelihood_DF.sizeMismatch
      (ForwardHmmLikelihood_DF.targetValues lib s [some d0, some d1, some d2] dim) dim := by
    intro hmis
    obtain ⟨text, bad, correct, he⟩ :=
      (ForwardHmmLikelihood_DF_create_outcome lib s d0 d1 d2 dim t0 t1 t2).1.2 hmis
    have := value?_ok_inv hr
    rw [this] at he
    cases he
  have hfirst := hok hno
  rw [hfirst] at hr ⊢
  simp only [Res.value?, Res.state, Option.some.injEq] at hr ⊢
  -- the state after the first request
  have hs1heap : (cachedAs ⟨h6, s.cache ++ extra⟩ s.heap.length).2.heap = h6 := cachedAs_heap _ _
  have t0' : valueTypeOf (cachedAs ⟨h6, s.cache ++ extra⟩ s.heap.length).2.heap d0
      = some .VectorXd := by rw [hs1heap]; exact valueTypeOf_grows hg t0
  have t1' : valueTypeOf (cachedAs ⟨h6, s.cache ++ extra⟩ s.heap.length).2.heap d1
      = some .MatrixXd := by rw [hs1heap]; exact valueTypeOf_grows hg t1
  have t2' : valueTypeOf (cachedAs ⟨h6, s.cache ++ extra⟩ s.heap.length).2.heap d2
      = some .MatrixXd := by rw [hs1heap]; exact valueTypeOf_grows hg t2
  obtain ⟨extra2, h7, k, k0, k1, k2, -, hg2, -, hk, hkk, hkd, -, -, -, -, -, -, -, hok2⟩ :=
    ForwardHmmLikelihood_DF_create_unfold lib
      (cachedAs ⟨h6, s.cache ++ extra⟩ s.heap.length).2 d0 d1 d2 dim t0' t1' t2'
  have htv2 := (ForwardHmmLikelihood_DF_create_outcome lib
      (cachedAs ⟨h6, s.cache ++ extra⟩ s.heap.length).2 d0 d1 d2 dim t0' t1' t2').2.2
      m0 m1 m2 (by rw [hs1heap]; exact b0) (by rw [hs1heap]; exact b1)
      (by rw [hs1heap]; exact b2) v0 v1 v2
  have hno2 : ¬ ForwardHmmLikelihood_DF.sizeMismatch
      (ForwardHmmLikelihood_DF.targetValues lib
        (cachedAs ⟨h6, s.cache ++ extra⟩ s.heap.length).2 [some d0, some d1, some d2] dim)
      dim := by
    rw [htv2, ← htv]
    exact hno
  rw [hok2 hno2]
  simp only [Res.value?, Option.some.injEq]
  have hbound : ∀ e : Nat, e ∈ (⟨h6, s.cache ++ extra⟩ : State).cache →
      e < (⟨h6, s.cache ++ extra⟩ : State).heap.length := by
    intro e he
    simp only [List.mem_append] at he
    simp only [hlen]
    rcases he with he | he
    · have := hc e he
      omega
    · exact (hextra e he).2
  have key := cachedAs_again ⟨h6, s.cache ++ extra⟩ s.heap.length h7 extra2
    (cachedAs ⟨h6, s.cache ++ extra⟩ s.heap.length).2.heap.length m k hm hk
    (by rw [hmk]; rfl) (hkk.trans hmk.symm) (hkd.trans hmd.symm)
    (by rw [hs1heap] at hg2; exact hg2) hbound
  rw [key]
  exact hr

theorem Evaluated_refl (h : Heap) : Evaluated h h := ⟨Grows_refl h, fun _ _ hj _ => hj⟩

theorem Evaluated_trans {a b c : Heap} (h1 : Evaluated a b) (h2 : Evaluated b c) :
    Evaluated a c :=
  ⟨Grows_trans h1.1 h2.1, fun j n hj hv => h2.2 j n (h1.2 j n hj hv) hv⟩

theorem Evaluated_of_append {a b : Heap} (hp : a <+: b) : Evaluated a b :=
  ⟨Grows_of_append hp, fun _ _ hj _ => getElem?_of_append hp hj⟩

theorem Evaluated_getTargetValue (lib : Library) (h : Heap) (T : ValueType) (d : Option NodeId) :
    Evaluated h (getTargetValue lib h T d).2 := by
  unfold getTargetValue
  cases d with
  | none => exact Evaluated_refl h
  | some i =>
    exact ⟨Grows_computeRecursively lib h i,
      fun j n hj hv => computeAux_valid lib h.length h i j n hj hv⟩

/-- The size checks of `build` touch the heap by evaluation only and leave the cache. -/
theorem ForwardHmmLikelihood_DF_buildChecks_frame (lib : Library) (s : State) (self : NodeId) :
    Evaluated s.heap (ForwardHmmLikelihood_DF.buildChecks lib s self).state.heap
    ∧ (ForwardHmmLikelihood_DF.buildChecks lib s self).state.cache = s.cache := by
  unfold ForwardHmmLikelihood_DF.buildChecks
  have e1 := Evaluated_getTargetValue lib s.heap .VectorXd (dependency s.heap self 0)
  have e2 := Evaluated_getTargetValue lib
    (getTargetValue lib s.heap .VectorXd (dependency s.heap self 0)).2 .MatrixXd
    (dependency (getTargetValue lib s.heap .VectorXd (dependency s.heap self 0)).2 self 1)
  have e3 := Evaluated_getTargetValue lib
    (getTargetValue lib (getTargetValue lib s.heap .VectorXd (dependency s.heap self 0)).2
      .MatrixXd
      (dependency (getTargetValue lib s.heap .VectorXd (dependency s.heap self 0)).2 self 1)).2
    .MatrixXd
    (dependency (getTargetValue lib
      (getTargetValue lib s.heap .VectorXd (dependency s.heap self 0)).2 .MatrixXd
      (dependency (getTargetValue lib s.heap .VectorXd (dependency s.heap self 0)).2 self 1)).2
      self 2)
  have e12 := Evaluated_trans e1 e2
  have e123 := Evaluated_trans e12 e3
  simp only []
  split_ifs <;> first
    | exact ⟨e1, rfl⟩
    | exact ⟨e12, rfl⟩
    | exact ⟨e123, rfl⟩

/-- Over the whole of `ForwardHmmLikelihood_DF::create`: nodes allocated before are
touched by evaluation only, and the cache only gets entries at its end. -/
theorem ForwardHmmLikelihood_DF_create_frame (lib : Library) (s : State) (deps : NodeRefVec)
    (dim : Dimension) :
    Evaluated s.heap (ForwardHmmLikelihood_DF.create lib s deps dim).state.heap
    ∧ s.cache <+: (ForwardHmmLikelihood_DF.create lib s deps dim).state.cache := by
  unfold ForwardHmmLikelihood_DF.create
  cases hck : ForwardHmmLikelihood_DF.checks s.heap deps with
  | error e => exact ⟨Evaluated_refl _, List.prefix_refl _⟩
  | ok u =>
    simp only []
    unfold ForwardHmmLikelihood_DF.build
    obtain ⟨fname, c, cache1, hb, extra, hcache, -⟩ := buildCondLik_alloc "forwardCondLik" s
      (ForwardHmmLikelihood_DF.new deps dim)
    rw [hb]
    simp only []
    generalize hA : (⟨s.heap ++ [{ ForwardHmmLikelihood_DF.new deps dim with condLik_ := some c },
      NumericConstant.new .string (.text "forwardCondLik"),
      CondLikelihood.new [some s.heap.length, some fname]
        ((ForwardHmmLikelihood_DF.new deps dim).targetDimension_.getD ⟨0, 0⟩)], cache1⟩ : State)
      = A
    have hAheap : s.heap <+: A.heap := by rw [← hA]; exact List.prefix_append _ _
    have hAcache : s.cache <+: A.cache := by rw [← hA, hcache]; exact List.prefix_append _ _
    obtain ⟨f1, f2⟩ := ForwardHmmLikelihood_DF_buildChecks_frame lib A
      (alloc s (ForwardHmmLikelihood_DF.new deps dim)).1
    cases hbc : ForwardHmmLikelihood_DF.buildChecks lib A
        (alloc s (ForwardHmmLikelihood_DF.new deps dim)).1 with
    | throw e s2 =>
      rw [hbc] at f1 f2
      simp only [Res.state] at f1 f2 ⊢
      exact ⟨Evaluated_trans (Evaluated_of_append hAheap) f1, by rw [f2]; exact hAcache⟩
    | ok a s2 =>
      rw [hbc] at f1 f2
      simp only [Res.state] at f1 f2 ⊢
      refine ⟨by rw [cachedAs_heap]; exact Evaluated_trans (Evaluated_of_append hAheap) f1, ?_⟩
      exact List.IsPrefix.trans (by rw [f2]; exact hAcache) (cachedAs_cache_grows _ _)

/-- Over the whole of `BackwardHmmLikelihood_DF::create`: heap and cache only get entries
at their end. -/
theorem BackwardHmmLikelihood_DF_create_frame (s : State) (deps : NodeRefVec) (dim : Dimension) :
    s.heap <+: (BackwardHmmLikelihood_DF.create s deps dim).state.heap
    ∧ s.cache <+: (BackwardHmmLikelihood_DF.create s deps dim).state.cache := by
  unfold BackwardHmmLikelihood_DF.create
  cases hck : BackwardHmmLikelihood_DF.checks s.heap deps with
  | error e => exact ⟨List.prefix_refl _, List.prefix_refl _⟩
  | ok u =>
    cases hnew : BackwardHmmLikelihood_DF.new s.heap deps dim with
    | error e => exact ⟨List.prefix_refl _, List.prefix_refl _⟩
    | ok n =>
      simp only [Res.state]
      refine ⟨by rw [cachedAs_heap]; exact List.prefix_append _ _, ?_⟩
      exact cachedAs_cache_grows (alloc s n).2 (alloc s n).1

/-- Frame of the two `create` functions. `BackwardHmmLikelihood_DF::create` evaluates
nothing: every node that existed before the call, hence every dependency, is left exactly
as it was. `ForwardHmmLikelihood_DF::create` reads its dependencies with `getTargetValue`:
every node that was clean before the call is left exactly as it was, and a node that was
dirty keeps everything but its cached value and its flag. In both cases the cache only
gets new entries at its end. -/
theorem hmm_create_leaves_clean_nodes (lib : Library) (s : State) (deps : NodeRefVec)
    (dim : Dimension) (i : Nat) (n : Node) (hi : s.heap[i]? = some n) :
    (BackwardHmmLikelihood_DF.create s deps dim).state.heap[i]? = some n
    ∧ (n.valid = true →
        (ForwardHmmLikelihood_DF.create lib s deps dim).state.heap[i]? = some n)
    ∧ (∃ m, (ForwardHmmLikelihood_DF.create lib s deps dim).state.heap[i]? = some m
        ∧ m.sameShape n)
    ∧ s.cache <+: (BackwardHmmLikelihood_DF.create s deps dim).state.cache
    ∧ s.cache <+: (ForwardHmmLikelihood_DF.create lib s deps dim).state.cache :=
  ⟨getElem?_of_append (BackwardHmmLikelihood_DF_create_frame s deps dim).1 hi,
   fun hv => (ForwardHmmLikelihood_DF_create_frame lib s deps dim).1.2 i n hi hv,
   (ForwardHmmLikelihood_DF_create_frame lib s deps dim).1.1 i n hi,
   (BackwardHmmLikelihood_DF_create_frame s deps dim).2,
   (ForwardHmmLikelihood_DF_create_frame lib s deps dim).2⟩

theorem hmm_create_leaves_clean_nodes_witness :
    (BackwardHmmLikelihood_DF.create exampleAfterForward [some 3, some 1, some 2]
        ⟨2, 3⟩).state.heap[1]? = some (NumericConstant.new .MatrixXd
          (.dense 2 2 [9/10, 1/10, 1/10, 9/10]))
    ∧ (ForwardHmmLikelihood_DF.create exampleLibrary exampleAfterForward
        [some 0, some 1, some 2] ⟨2, 3⟩).state.heap[1]? = some (NumericConstant.new .MatrixXd
          (.dense 2 2 [9/10, 1/10, 1/10, 9/10])) :=
  ⟨(hmm_create_leaves_clean_nodes exampleLibrary exampleAfterForward [some 3, some 1, some 2]
      ⟨2, 3⟩ 1 _ rfl).1,
   (hmm_create_leaves_clean_nodes exampleLibrary exampleAfterForward [some 0, some 1, some 2]
      ⟨2, 3⟩ 1 _ rfl).2.1 rfl⟩

/-- Claim C1. For every tree whose `isRooted ()` is false, `makeHomogeneousLikelihoodNodes`
throws `Exception ("PhyloTree must be rooted")` and leaves heap and cache as they were:
no node is created. -/
theorem makeHomogeneousLikelihoodNodes_unrooted (lib : Library) (fuel : Nat) (s : State)
    (sites : AlignedValuesContainer) (tree : ConfiguredPhyloTree) (model : ConfiguredModel)
    (rootFreqs : Option ConfiguredFrequenciesSet) (h : tree.getValue.isRooted = false) :
    makeHomogeneousLikelihoodNodes lib fuel s sites tree model rootFreqs
      = .throw (.Exception "PhyloTree must be rooted") s := by
  unfold makeHomogeneousLikelihoodNodes
  simp [h]

theorem makeHomogeneousLikelihoodNodes_unrooted_witness :
    makeHomogeneousLikelihoodNodes exampleLibrary 5 exampleTreeState exampleSites
        (exampleConfiguredTree exampleUnrootedTree) exampleModel none
      = .throw (.Exception "PhyloTree must be rooted") exampleTreeState :=
  makeHomogeneousLikelihoodNodes_unrooted exampleLibrary 5 exampleTreeState exampleSites
    (exampleConfiguredTree exampleUnrootedTree) exampleModel none rfl

theorem compareAdditionalArguments_library {n m : Node} (hk : n.kind.isLibrary = true)
    (hc : n.compareAdditionalArguments m = true) :
    m.kind = n.kind ∧ m.targetDimension_ = n.targetDimension_ := by
  unfold Node.compareAdditionalArguments at hc
  cases hkind : n.kind <;> simp_all [NodeKind.isLibrary, NodeKind.isHmm]

/-- A node returned by `create` of a library class has the class, the dependencies and
the target dimension asked for; the heap got one node at its end. -/
theorem createNode_spec {lib : Library} {kind : NodeKind} {T : ValueType} {s s1 : State}
    {deps : NodeRefVec} {dim : Option Dimension} {r : NodeId} (hk : kind.isLibrary = true)
    (hc : createNode lib kind T s deps dim = .ok r s1) :
    s.heap <+: s1.heap
    ∧ ∃ n, s1.heap[r]? = some n ∧ n.kind = kind ∧ n.deps = deps ∧ n.targetDimension_ = dim := by
  unfold createNode at hc
  split at hc
  · cases hc
  · split at hc
    · cases hc
    · simp only [Res.ok.injEq] at hc
      obtain ⟨hr, hs⟩ := hc
      obtain ⟨gh, -, n, hn, hd, hcmp⟩ := allocCached_spec s
        { kind := kind, deps := deps, valueType := T, value := T.defaultValue, valid := false,
          targetDimension_ := dim, condLik_ := none, parCondLik_ := none }
      rw [hs] at gh
      rw [hr] at hn
      obtain ⟨k1, k2⟩ := compareAdditionalArguments_library hk hcmp
      refine ⟨by rw [gh]; exact List.prefix_append _ _, n, by rw [gh]; exact hn, k1, hd, k2⟩

theorem classAndDeps_of_append {h h1 : Heap} (hp : h <+: h1) {i : Nat} {n : Node}
    (hi : h[i]? = some n) : classAndDeps h1 i = some (n.kind, n.deps) := by
  simp [classAndDeps, getElem?_of_append hp hi]

/-- Claim C11, the code at the failing input. In `exampleAfterForward` the starting vector
has length 2, the transition matrix is 2 x 2 and the emission matrix 2 x 3 (nodes 0, 1, 2,
also given as the derivatives); `ForwardHmmDLikelihood_DF::create` with target dimension
(5, 7) returns a node all the same, and so does `ForwardHmmD2Likelihood_DF::create` in
`exampleAfterForwardD`: none of the extents is compared with the target dimension, while
`ForwardHmmLikelihood_DF::create` rejects the same three inputs for this dimension. -/
theorem forward_derivative_create_accepts_any_shape :
    (ForwardHmmLikelihood_DF.targetValues exampleLibrary exampleHmmState
        [some 0, some 1, some 2] ⟨2, 3⟩).1.rows = 2
    ∧ (ForwardHmmDLikelihood_DF.create exampleAfterForward
        [some 0, some 1, some 2, some 3, some 0, some 1, some 2] ⟨5, 7⟩).value? = some 6
    ∧ (ForwardHmmD2Likelihood_DF.create exampleAfterForwardD
        [some 0, some 1, some 2, some 3, some 0, some 1, some 2, some 6, some 0, some 1, some 2]
        ⟨5, 7⟩).value? = some 9
    ∧ (ForwardHmmLikelihood_DF.create exampleLibrary exampleHmmState
        [some 0, some 1, some 2] ⟨5, 7⟩).error?
      = some (.BadSizeException "ForwardHmmLikelihood_DF: bad dimension for starting vector" 2 5) := by
  decide

/-- Claim C12, the code at the failing input. In `exampleBackwardState` the forward
likelihoods row vector has k = 4 columns while m = 3 sites are expected (target dimension
(2, 3)): construction fails, but the two numbers reported are 1 and 2, the row count of
the row vector and the expected number of states, not k = 4 and m = 3. -/
theorem BackwardHmmLikelihood_DF_create_reports_rows :
    (accessValueConst exampleBackwardState.heap .RowVectorXd (some 0)).cols = 4
    ∧ (BackwardHmmLikelihood_DF.create exampleBackwardState [some 0, some 1, some 2]
        ⟨2, 3⟩).error?
      = some (.BadSizeException
          "BackwardHmmLikelihood_DF: bad dimension for forward likelihoods vector" 1 2) := by
  decide

theorem cachedAs_hmm_result (A : State) (x : Nat) (n : Node) (hx : A.heap[x]? = some n)
    (hk : n.kind.isHmm = true) :
    ∃ m, A.heap[(cachedAs A x).1]? = some m ∧ m.kind = n.kind ∧ m.deps = n.deps := by
  rcases cachedAs_result A x with h | ⟨_, h⟩
  · rw [h]
    exact ⟨n, hx, rfl, rfl⟩
  · rw [sameNode_hmm hx hk] at h
    split at h
    · rename_i en hen
      simp only [Bool.and_eq_true, decide_eq_true_eq] at h
      exact ⟨en, hen, h.2, h.1⟩
    · cases h

theorem checkNthDependencyIs_inv {C : NodeKind} {h : Heap} {deps : NodeRefVec} {i : Nat}
    (hc : checkNthDependencyIs C h deps i = .ok ()) :
    ∃ (d : Nat) (n : Node), deps[i]? = some (some d) ∧ h[d]? = some n ∧ n.kind = C := by
  unfold checkNthDependencyIs nthDependency at hc
  split at hc
  · rename_i n hn
    split at hn
    · rename_i d hd
      split at hc
      · rename_i ht
        exact ⟨d, n, hd, hn, ht⟩
      · cases hc
    · cases hn
  · cases hc

theorem valueTypeOf_of_lookup {h : Heap} {d : Nat} {n : Node} {T : ValueType}
    (hd : h[d]? = some n) (ht : n.valueType = T) : valueTypeOf h d = some T := by
  simp [valueTypeOf, hd, ht]

theorem kindOf_of_lookup {h : Heap} {d : Nat} {n : Node} {C : NodeKind}
    (hd : h[d]? = some n) (ht : n.kind = C) : kindOf h d = some C := by
  simp [kindOf, hd, ht]

theorem kindOf_grows {h h1 : Heap} (hg : Grows h h1) {d : Nat} {C : NodeKind}
    (ht : kindOf h d = some C) : kindOf h1 d = some C := by
  unfold kindOf at ht ⊢
  simp only [Option.map_eq_some'] at ht ⊢
  obtain ⟨n, hn, hT⟩ := ht
  obtain ⟨m, hm, hs⟩ := hg d n hn
  exact ⟨m, hm, hs.1.trans hT⟩

/-- What the checks of `ForwardHmmDLikelihood_DF::create` accept. -/
theorem ForwardHmmDLikelihood_DF_checks_inv {h : Heap} {deps : NodeRefVec}
    (hc : ForwardHmmDLikelihood_DF.checks h deps = .ok ()) :
    ∃ d0 d1 d2 d3 d4 d5 d6 : Nat,
      deps = [some d0, some d1, some d2, some d3, some d4, some d5, some d6]
      ∧ valueTypeOf h d0 = some .VectorXd ∧ valueTypeOf h d1 = some .MatrixXd
      ∧ valueTypeOf h d2 = some .MatrixXd ∧ kindOf h d3 = some .ForwardHmmLikelihood_DF
      ∧ valueTypeOf h d4 = some .VectorXd ∧ valueTypeOf h d5 = some .MatrixXd
      ∧ valueTypeOf h d6 = some .MatrixXd := by
  simp only [ForwardHmmDLikelihood_DF.checks, Except_bind_unit_ok] at hc
  obtain ⟨-, c, c0, c1, c2, c3, c4, c5, c6⟩ := hc
  obtain ⟨d0, n0, e0, l0, t0⟩ := checkNthDependencyIsValue_inv c0
  obtain ⟨d1, n1, e1, l1, t1⟩ := checkNthDependencyIsValue_inv c1
  obtain ⟨d2, n2, e2, l2, t2⟩ := checkNthDependencyIsValue_inv c2
  obtain ⟨d3, n3, e3, l3, t3⟩ := checkNthDependencyIs_inv c3
  obtain ⟨d4, n4, e4, l4, t4⟩ := checkNthDependencyIsValue_inv c4
  obtain ⟨d5, n5, e5, l5, t5⟩ := checkNthDependencyIsValue_inv c5
  obtain ⟨d6, n6, e6, l6, t6⟩ := checkNthDependencyIsValue_inv c6
  refine ⟨d0, d1, d2, d3, d4, d5, d6, ?_, valueTypeOf_of_lookup l0 t0,
    valueTypeOf_of_lookup l1 t1, valueTypeOf_of_lookup l2 t2, kindOf_of_lookup l3 t3,
    valueTypeOf_of_lookup l4 t4, valueTypeOf_of_lookup l5 t5, valueTypeOf_of_lookup l6 t6⟩
  unfold checkDependencyVectorSize at c
  split_ifs at c with hlen
  match deps, hlen, e0, e1, e2, e3, e4, e5, e6 with
  | [a0, a1, a2, a3, a4, a5, a6], _, e0, e1, e2, e3, e4, e5, e6 =>
    simp only [List.getElem?_cons_zero, List.getElem?_cons_succ, Option.some.injEq]
      at e0 e1 e2 e3 e4 e5 e6
    rw [e0, e1, e2, e3, e4, e5, e6]

/-- What the checks of `ForwardHmmD2Likelihood_DF::create` accept. -/
theorem ForwardHmmD2Likelihood_DF_checks_inv {h : Heap} {deps : NodeRefVec}
    (hc : ForwardHmmD2Likelihood_DF.checks h deps = .ok ()) :
    ∃ d0 d1 d2 d3 d4 d5 d6 d7 d8 d9 d10 : Nat,
      deps = [some d0, some d1, some d2, some d3, some d4, some d5, some d6, some d7, some d8,
        some d9, some d10]
      ∧ kindOf h d3 = some .ForwardHmmLikelihood_DF
      ∧ kindOf h d7 = some .ForwardHmmDLikelihood_DF
      ∧ valueTypeOf h d0 = some .VectorXd ∧ valueTypeOf h d1 = some .MatrixXd
      ∧ valueTypeOf h d2 = some .MatrixXd
      ∧ valueTypeOf h d4 = some .VectorXd ∧ valueTypeOf h d5 = some .MatrixXd
      ∧ valueTypeOf h d6 = some .MatrixXd
      ∧ valueTypeOf h d8 = some .VectorXd ∧ valueTypeOf h d9 = some .MatrixXd
      ∧ valueTypeOf h d10 = some .MatrixXd := by
  simp only [ForwardHmmD2Likelihood_DF.checks, Except_bind_unit_ok] at hc
  obtain ⟨-, c, c0, c1, c2, c3, c4, c5, c6, c7, c8, c9, c10⟩ := hc
  obtain ⟨d0, n0, e0, l0, t0⟩ := checkNthDependencyIsValue_inv c0
  obtain ⟨d1, n1, e1, l1, t1⟩ := checkNthDependencyIsValue_inv c1
  obtain ⟨d2, n2, e2, l2, t2⟩ := checkNthDependencyIsValue_inv c2
  obtain ⟨d3, n3, e3, l3, t3⟩ := checkNthDependencyIs_inv c3
  obtain ⟨d4, n4, e4, l4, t4⟩ := checkNthDependencyIsValue_inv c4
  obtain ⟨d5, n5, e5, l5, t5⟩ := checkNthDependencyIsValue_inv c5
  obtain ⟨d6, n6, e6, l6, t6⟩ := checkNthDependencyIsValue_inv c6
  obtain ⟨d7, n7, e7, l7, t7⟩ := checkNthDependencyIs_inv c7
  obtain ⟨d8, n8, e8, l8, t8⟩ := checkNthDependencyIsValue_inv c8
  obtain ⟨d9, n9, e9, l9, t9⟩ := checkNthDependencyIsValue_inv c9
  obtain ⟨d10, n10, e10, l10, t10⟩ := checkNthDependencyIsValue_inv c10
  refine ⟨d0, d1, d2, d3, d4, d5, d6, d7, d8, d9, d10, ?_, kindOf_of_lookup l3 t3,
    kindOf_of_lookup l7 t7, valueTypeOf_of_lookup l0 t0,
    valueTypeOf_of_lookup l1 t1, valueTypeOf_of_lookup l2 t2,
    valueTypeOf_of_lookup l4 t4, valueTypeOf_of_lookup l5 t5, valueTypeOf_of_lookup l6 t6,
    valueTypeOf_of_lookup l8 t8, valueTypeOf_of_lookup l9 t9, valueTypeOf_of_lookup l10 t10⟩
  unfold checkDependencyVectorSize at c
  split_ifs at c with hlen
  match deps, hlen, e0, e1, e2, e3, e4, e5, e6, e7, e8, e9, e10 with
  | [a0, a1, a2, a3, a4, a5, a6, a7, a8, a9, a10], _, e0, e1, e2, e3, e4, e5, e6, e7, e8, e9,
      e10 =>
    simp only [List.getElem?_cons_zero, List.getElem?_cons_succ, Option.some.injEq]
      at e0 e1 e2 e3 e4 e5 e6 e7 e8 e9 e10
    rw [e0, e1, e2, e3, e4, e5, e6, e7, e8, e9, e10]

/-- A node returned by `ForwardHmmDLikelihood_DF::create`: the checks passed, the node is
of the class and has the dependencies given; nodes allocated before are untouched. -/
theorem ForwardHmmDLikelihood_DF_create_result {s : State} {deps : NodeRefVec}
    {dim : Dimension} {r : NodeId}
    (hr : (ForwardHmmDLikelihood_DF.create s deps dim).value? = some r) :
    ForwardHmmDLikelihood_DF.checks s.heap deps = .ok ()
    ∧ s.heap <+: (ForwardHmmDLikelihood_DF.create s deps dim).state.heap
    ∧ ∃ m, (ForwardHmmDLikelihood_DF.create s deps dim).state.heap[r]? = some m
        ∧ m.kind = .ForwardHmmDLikelihood_DF ∧ m.deps = deps := by
  unfold ForwardHmmDLikelihood_DF.create ForwardHmmDLikelihood_DF.build at hr ⊢
  cases hck : ForwardHmmDLikelihood_DF.checks s.heap deps with
  | error e => rw [hck] at hr; cases hr
  | ok u =>
    obtain ⟨fname, c, cache1, hb, -⟩ := buildCondLik_alloc "forwardDcondLik" s
      (ForwardHmmDLikelihood_DF.new deps dim)
    have hid : (alloc s (ForwardHmmDLikelihood_DF.new deps dim)).1 = s.heap.length := rfl
    have hb1 : buildCondLik "forwardDcondLik" (alloc s (ForwardHmmDLikelihood_DF.new deps dim)).2 s.heap.length
        = .ok () _ := hb
    rw [hck] at hr
    simp only [hid, hb1, Res.value?, Res.state, Option.some.injEq] at hr ⊢
    subst hr
    refine ⟨trivial, by rw [cachedAs_heap]; exact List.prefix_append _ _, ?_⟩
    rw [cachedAs_heap]
    obtain ⟨m, hm, hk, hd⟩ := cachedAs_hmm_result
      ⟨s.heap ++ [{ ForwardHmmDLikelihood_DF.new deps dim with condLik_ := some c },
        NumericConstant.new .string (.text "forwardDcondLik"),
        CondLikelihood.new [some s.heap.length, some fname]
          ((ForwardHmmDLikelihood_DF.new deps dim).targetDimension_.getD ⟨0, 0⟩)], cache1⟩
      s.heap.length { ForwardHmmDLikelihood_DF.new deps dim with condLik_ := some c }
      (getElem?_append_cons_length _ _ _) rfl
    exact ⟨m, hm, hk, hd⟩

/-- A node returned by `ForwardHmmD2Likelihood_DF::create`: the checks passed, the node is
of the class and has the dependencies given; nodes allocated before are untouched. -/
theorem ForwardHmmD2Likelihood_DF_create_result {s : State} {deps : NodeRefVec}
    {dim : Dimension} {r : NodeId}
    (hr : (ForwardHmmD2Likelihood_DF.create s deps dim).value? = some r) :
    ForwardHmmD2Likelihood_DF.checks s.heap deps = .ok ()
    ∧ s.heap <+: (ForwardHmmD2Likelihood_DF.create s deps dim).state.heap
    ∧ ∃ m, (ForwardHmmD2Likelihood_DF.create s deps dim).state.heap[r]? = some m
        ∧ m.kind = .ForwardHmmD2Likelihood_DF ∧ m.deps = deps := by
  unfold ForwardHmmD2Likelihood_DF.create ForwardHmmD2Likelihood_DF.build at hr ⊢
  cases hck : ForwardHmmD2Likelihood_DF.checks s.heap deps with
  | error e => rw [hck] at hr; cases hr
  | ok u =>
    obtain ⟨fname, c, cache1, hb, -⟩ := buildCondLik_alloc "forwardD2condLik" s
      (ForwardHmmD2Likelihood_DF.new deps dim)
    have hid : (alloc s (ForwardHmmD2Likelihood_DF.new deps dim)).1 = s.heap.length := rfl
    have hb1 : buildCondLik "forwardD2condLik" (alloc s (ForwardHmmD2Likelihood_DF.new deps dim)).2 s.heap.length
        = .ok () _ := hb
    rw [hck] at hr
    simp only [hid, hb1, Res.value?, Res.state, Option.some.injEq] at hr ⊢
    subst hr
    refine ⟨trivial, by rw [cachedAs_heap]; exact List.prefix_append _ _, ?_⟩
    rw [cachedAs_heap]
    obtain ⟨m, hm, hk, hd⟩ := cachedAs_hmm_result
      ⟨s.heap ++ [{ ForwardHmmD2Likelihood_DF.new deps dim with condLik_ := some c },
        NumericConstant.new .string (.text "forwardD2condLik"),
        CondLikelihood.new [some s.heap.length, some fname]
          ((ForwardHmmD2Likelihood_DF.new deps dim).targetDimension_.getD ⟨0, 0⟩)], cache1⟩
      s.heap.length { ForwardHmmD2Likelihood_DF.new deps dim with condLik_ := some c }
      (getElem?_append_cons_length _ _ _) rfl
    exact ⟨m, hm, hk, hd⟩

/-- Claim C13. Whenever `ForwardHmmDLikelihood_DF::create` returns a node, it was given
exactly 7 non-null dependencies, those at positions 0, 1, 2 and at positions 4, 5, 6 are
(vector, matrix, matrix) values, and the one at position 3 is a `ForwardHmmLikelihood_DF`
node of the context; the node returned is a `ForwardHmmDLikelihood_DF` node whose
dependency 3 is that same forward node. In every other case the call fails. -/
theorem ForwardHmmDLikelihood_DF_create_requires_primal (s : State) (deps : NodeRefVec)
    (dim : Dimension) (r : NodeId)
    (hr : (ForwardHmmDLikelihood_DF.create s deps dim).value? = some r) :
    ∃ d0 d1 d2 d3 d4 d5 d6 : Nat,
      deps = [some d0, some d1, some d2, some d3, some d4, some d5, some d6]
      ∧ valueTypeOf s.heap d0 = some .VectorXd ∧ valueTypeOf s.heap d1 = some .MatrixXd
      ∧ valueTypeOf s.heap d2 = some .MatrixXd
      ∧ kindOf s.heap d3 = some .ForwardHmmLikelihood_DF
      ∧ valueTypeOf s.heap d4 = some .VectorXd ∧ valueTypeOf s.heap d5 = some .MatrixXd
      ∧ valueTypeOf s.heap d6 = some .MatrixXd
      ∧ kindOf (ForwardHmmDLikelihood_DF.create s deps dim).state.heap r
          = some .ForwardHmmDLikelihood_DF
      ∧ dependency (ForwardHmmDLikelihood_DF.create s deps dim).state.heap r 3 = some d3
      ∧ kindOf (ForwardHmmDLikelihood_DF.create s deps dim).state.heap d3
          = some .ForwardHmmLikelihood_DF := by
  obtain ⟨hck, hpre, m, hm, hk, hd⟩ := ForwardHmmDLikelihood_DF_create_result hr
  obtain ⟨d0, d1, d2, d3, d4, d5, d6, hdeps, t0, t1, t2, k3, t4, t5, t6⟩ :=
    ForwardHmmDLikelihood_DF_checks_inv hck
  refine ⟨d0, d1, d2, d3, d4, d5, d6, hdeps, t0, t1, t2, k3, t4, t5, t6,
    kindOf_of_lookup hm hk, ?_, kindOf_grows (Grows_of_append hpre) k3⟩
  unfold dependency
  rw [hm]
  show (m.deps[3]?).join = some d3
  rw [hd, hdeps]
  rfl

theorem ForwardHmmDLikelihood_DF_create_requires_primal_witness :
    (ForwardHmmDLikelihood_DF.create exampleAfterForward
        [some 0, some 1, some 2, some 3, some 0, some 1, some 2] ⟨2, 3⟩).value? = some 6
    ∧ ∃ d0 d1 d2 d3 d4 d5 d6 : Nat,
      [some 0, some 1, some 2, some 3, some 0, some 1, some 2]
        = [some d0, some d1, some d2, some d3, some d4, some d5, some d6]
      ∧ valueTypeOf exampleAfterForward.heap d0 = some .VectorXd
      ∧ valueTypeOf exampleAfterForward.heap d1 = some .MatrixXd
      ∧ valueTypeOf exampleAfterForward.heap d2 = some .MatrixXd
      ∧ kindOf exampleAfterForward.heap d3 = some .ForwardHmmLikelihood_DF
      ∧ valueTypeOf exampleAfterForward.heap d4 = some .VectorXd
      ∧ valueTypeOf exampleAfterForward.heap d5 = some .MatrixXd
      ∧ valueTypeOf exampleAfterForward.heap d6 = some .MatrixXd
      ∧ kindOf (ForwardHmmDLikelihood_DF.create exampleAfterForward
          [some 0, some 1, some 2, some 3, some 0, some 1, some 2] ⟨2, 3⟩).state.heap 6
          = some .ForwardHmmDLikelihood_DF
      ∧ dependency (ForwardHmmDLikelihood_DF.create exampleAfterForward
          [some 0, some 1, some 2, some 3, some 0, some 1, some 2] ⟨2, 3⟩).state.heap 6 3
          = some d3
      ∧ kindOf (ForwardHmmDLikelihood_DF.create exampleAfterForward
          [some 0, some 1, some 2, some 3, some 0, some 1, some 2] ⟨2, 3⟩).state.heap d3
          = some .ForwardHmmLikelihood_DF :=
  ⟨by decide, ForwardHmmDLikelihood_DF_create_requires_primal exampleAfterForward
    [some 0, some 1, some 2, some 3, some 0, some 1, some 2] ⟨2, 3⟩ 6 (by decide)⟩

/-- Claim C14. Whenever `ForwardHmmD2Likelihood_DF::create` returns a node, it was given
exactly 11 non-null dependencies, the one at position 3 is a `ForwardHmmLikelihood_DF`
node and the one at position 7 a `ForwardHmmDLikelihood_DF` node, both allocated in the
context before the call: a second-derivative forward node only exists after a
first-derivative forward node was built. In every other case the call fails. -/
theorem ForwardHmmD2Likelihood_DF_create_requires_first_derivative (s : State)
    (deps : NodeRefVec) (dim : Dimension) (r : NodeId)
    (hr : (ForwardHmmD2Likelihood_DF.create s deps dim).value? = some r) :
    ∃ d0 d1 d2 d3 d4 d5 d6 d7 d8 d9 d10 : Nat,
      deps = [some d0, some d1, some d2, some d3, some d4, some d5, some d6, some d7, some d8,
        some d9, some d10]
      ∧ kindOf s.heap d3 = some .ForwardHmmLikelihood_DF
      ∧ kindOf s.heap d7 = some .ForwardHmmDLikelihood_DF
      ∧ d7 < s.heap.length
      ∧ kindOf (ForwardHmmD2Likelihood_DF.create s deps dim).state.heap r
          = some .ForwardHmmD2Likelihood_DF
      ∧ dependency (ForwardHmmD2Likelihood_DF.create s deps dim).state.heap r 3 = some d3
      ∧ dependency (ForwardHmmD2Likelihood_DF.create s deps dim).state.heap r 7 = some d7 := by
  obtain ⟨hck, hpre, m, hm, hk, hd⟩ := ForwardHmmD2Likelihood_DF_create_result hr
  obtain ⟨d0, d1, d2, d3, d4, d5, d6, d7, d8, d9, d10, hdeps, k3, k7, -⟩ :=
    ForwardHmmD2Likelihood_DF_checks_inv hck
  have hlt : d7 < s.heap.length := by
    unfold kindOf at k7
    cases h7 : s.heap[d7]? with
    | none => rw [h7] at k7; cases k7
    | some n => exact lt_length_of_getElem? h7
  refine ⟨d0, d1, d2, d3, d4, d5, d6, d7, d8, d9, d10, hdeps, k3, k7, hlt,
    kindOf_of_lookup hm hk, ?_, ?_⟩
  · unfold dependency
    rw [hm]
    show (m.deps[3]?).join = some d3
    rw [hd, hdeps]
    rfl
  · unfold dependency
    rw [hm]
    show (m.deps[7]?).join = some d7
    rw [hd, hdeps]
    rfl

theorem ForwardHmmD2Likelihood_DF_create_requires_first_derivative_witness :
    (ForwardHmmD2Likelihood_DF.create exampleAfterForwardD
        [some 0, some 1, some 2, some 3, some 0, some 1, some 2, some 6, some 0, some 1,
          some 2] ⟨2, 3⟩).value? = some 9
    ∧ ∃ d0 d1 d2 d3 d4 d5 d6 d7 d8 d9 d10 : Nat,
      [some 0, some 1, some 2, some 3, some 0, some 1, some 2, some 6, some 0, some 1, some 2]
        = [some d0, some d1, some d2, some d3, some d4, some d5, some d6, some d7, some d8,
            some d9, some d10]
      ∧ kindOf exampleAfterForwardD.heap d3 = some .ForwardHmmLikelihood_DF
      ∧ kindOf exampleAfterForwardD.heap d7 = some .ForwardHmmDLikelihood_DF
      ∧ d7 < exampleAfterForwardD.heap.length
      ∧ kindOf (ForwardHmmD2Likelihood_DF.create exampleAfterForwardD
          [some 0, some 1, some 2, some 3, some 0, some 1, some 2, some 6, some 0, some 1,
            some 2] ⟨2, 3⟩).state.heap 9 = some .ForwardHmmD2Likelihood_DF
      ∧ dependency (ForwardHmmD2Likelihood_DF.create exampleAfterForwardD
          [some 0, some 1, some 2, some 3, some 0, some 1, some 2, some 6, some 0, some 1,
            some 2] ⟨2, 3⟩).state.heap 9 3 = some d3
      ∧ dependency (ForwardHmmD2Likelihood_DF.create exampleAfterForwardD
          [some 0, some 1, some 2, some 3, some 0, some 1, some 2, some 6, some 0, some 1,
            some 2] ⟨2, 3⟩).state.heap 9 7 = some d7 :=
  ⟨by decide, ForwardHmmD2Likelihood_DF_create_requires_first_derivative exampleAfterForwardD
    [some 0, some 1, some 2, some 3, some 0, some 1, some 2, some 6, some 0, some 1, some 2]
    ⟨2, 3⟩ 9 (by decide)⟩

theorem flatMap_range_length (f : Nat → Nat → ℚ) (n m : Nat) :
    ((List.range m).flatMap (fun j => (List.range n).map (fun i => f j i))).length = m * n := by
  induction m with
  | zero => simp
  | succ m ih =>
    rw [List.range_succ, List.flatMap_append, List.length_append, ih]
    simp [Nat.succ_mul]

theorem flatMap_range_getElem? (f : Nat → Nat → ℚ) (n m i j : Nat) (hi : i < n) (hj : j < m) :
    ((List.range m).flatMap (fun j => (List.range n).map (fun i => f j i)))[i + j * n]?
      = some (f j i) := by
  induction m with
  | zero => omega
  | succ m ih =>
    rw [List.range_succ, List.flatMap_append]
    by_cases hjm : j < m
    · have hlt : i + j * n < m * n := by
        have : (j + 1) * n ≤ m * n := Nat.mul_le_mul_right n hjm
        rw [Nat.succ_mul] at this
        omega
      rw [List.getElem?_append_left (by rw [flatMap_range_length]; exact hlt)]
      exact ih hjm
    · have hjeq : j = m := by omega
      subst hjeq
      rw [List.getElem?_append_right (by rw [flatMap_range_length]; omega),
        flatMap_range_length]
      simp [hi]

/-- Claim C15. For every name the site container resolves to a sequence,
`makeInitialConditionalLikelihood` returns a constant node holding a matrix with `nbState`
rows and `nbSite` columns whose entry (state, site) is the value of the container for
(site, that sequence, the alphabet state of model state `state`). -/
theorem makeInitialConditionalLikelihood_entries (e : HomogeneousLikelihoodNodesHelper)
    (s : State) (sequenceName : String) (sequenceIndex : Nat)
    (hname : e.sites.getSequencePosition sequenceName = some sequenceIndex) :
    ∃ r s1 n, e.makeInitialConditionalLikelihood s sequenceName = .ok r s1
      ∧ s1.heap[r]? = some n ∧ n.kind = .NumericConstant ∧ n.valueType = .MatrixXd
      ∧ n.value.rows = e.nbState ∧ n.value.cols = e.nbSite
      ∧ ∀ state site : Nat, state < e.nbState → site < e.nbSite →
          n.value.coeff state site
            = some (e.sites.getStateValueAt site sequenceIndex
                (e.model.getAlphabetStateAsInt state)) := by
  unfold HomogeneousLikelihoodNodesHelper.makeInitialConditionalLikelihood
  rw [hname]
  obtain ⟨-, ⟨n, hn, ht, hv, hk⟩, -⟩ :=
    NumericConstant_create_spec s .MatrixXd (e.initCondLik sequenceIndex)
  refine ⟨_, _, n, rfl, hn, hk, ht, ?_, ?_, ?_⟩
  · rw [hv]; rfl
  · rw [hv]; rfl
  · intro state site hs ht
    rw [hv]
    unfold HomogeneousLikelihoodNodesHelper.initCondLik Val.coeff
    simp only [hs, ht, and_self, if_true]
    exact flatMap_range_getElem?
      (fun site state => e.sites.getStateValueAt site sequenceIndex
        (e.model.getAlphabetStateAsInt state)) e.nbState e.nbSite state site hs ht

theorem makeInitialConditionalLikelihood_entries_witness :
    exampleSites.getSequencePosition "B" = some 1
    ∧ ∃ r s1 n, exampleHelper.makeInitialConditionalLikelihood exampleTreeState "B" = .ok r s1
      ∧ s1.heap[r]? = some n ∧ n.kind = .NumericConstant ∧ n.valueType = .MatrixXd
      ∧ n.value.rows = exampleHelper.nbState ∧ n.value.cols = exampleHelper.nbSite
      ∧ ∀ state site : Nat, state < exampleHelper.nbState → site < exampleHelper.nbSite →
          n.value.coeff state site
            = some (exampleHelper.sites.getStateValueAt site 1
                (exampleHelper.model.getAlphabetStateAsInt state)) :=
  ⟨by decide, makeInitialConditionalLikelihood_entries exampleHelper exampleTreeState "B" 1
    (by decide)⟩

theorem Later_refl (s : State) : s.Later s := ⟨List.prefix_refl _, List.prefix_refl _⟩

theorem Later_trans {a b c : State} (h1 : a.Later b) (h2 : b.Later c) : a.Later c :=
  ⟨h1.1.trans h2.1, h1.2.trans h2.2⟩

theorem sameNode_congr {h h1 : Heap} {x y e : Nat} {n : Node} (hx : h[x]? = some n)
    (hy : h1[y]? = some n) (he : h1[e]? = h[e]?) : sameNode h1 y e = sameNode h x e := by
  unfold sameNode
  rw [hx, hy, he]

theorem sameNode_self {h : Heap} {x : Nat} {n : Node} (hx : h[x]? = some n) :
    sameNode h x x = true := by
  unfold sameNode
  rw [hx]
  simp [compareAdditionalArguments_self]

theorem getElem?_eq_of_append {h h1 : Heap} (hp : h <+: h1) {e : Nat} (he : e < h.length) :
    h1[e]? = h[e]? := by
  rw [getElem?_of_append hp (List.getElem?_eq_getElem he)]
  exact (List.getElem?_eq_getElem he).symm

/-- Allocation followed by the cache lookup. -/
theorem allocCached_frame (s : State) (node : Node) :
    s.Later (cachedAs (alloc s node).2 (alloc s node).1).2 := by
  refine ⟨?_, ?_⟩
  · rw [cachedAs_heap]
    exact List.prefix_append _ _
  · show (alloc s node).2.cache <+: _
    exact cachedAs_cache_grows _ _

/-- A request repeated later is a cache hit: after `cachedAs` returned `r` for a candidate
`node`, the same candidate allocated in any later state is found to be `r`, and the cache
does not change. -/
theorem allocCached_later (s : State) (node : Node) (hc : s.CacheInHeap) (s2 : State)
    (hl : (cachedAs (alloc s node).2 (alloc s node).1).2.Later s2) :
    cachedAs (alloc s2 node).2 (alloc s2 node).1
      = ((cachedAs (alloc s node).2 (alloc s node).1).1, (alloc s2 node).2) := by
  obtain ⟨hh, hcache⟩ := hl
  rw [cachedAs_heap] at hh
  have hx : (alloc s node).2.heap[(alloc s node).1]? = some node := lookup_append_new _ _
  have hy : (alloc s2 node).2.heap[(alloc s2 node).1]? = some node := lookup_append_new _ _
  have hpt : ∀ e : Nat, e < s.heap.length + 1 →
      sameNode (alloc s2 node).2.heap (alloc s2 node).1 e
        = sameNode (alloc s node).2.heap (alloc s node).1 e := by
    intro e he
    refine sameNode_congr hx hy ?_
    have h1 : (alloc s node).2.heap <+: (alloc s2 node).2.heap :=
      hh.trans (List.prefix_append _ _)
    have h2 : e < (alloc s node).2.heap.length := by
      simp only [alloc, List.length_append, List.length_singleton]
      exact he
    exact getElem?_eq_of_append h1 h2
  have hfind : s.cache.find? (sameNode (alloc s2 node).2.heap (alloc s2 node).1)
      = s.cache.find? (sameNode (alloc s node).2.heap (alloc s node).1) :=
    find?_congr_mem s.cache (fun e he => hpt e (by have := hc e he; omega))
  obtain ⟨extra, hextra⟩ := hcache
  unfold cachedAs at hextra ⊢
  have hc2 : (alloc s2 node).2.cache = s2.cache := rfl
  have hc1 : (alloc s node).2.cache = s.cache := rfl
  rw [hc2]
  rw [hc1] at hextra ⊢
  cases hf : s.cache.find? (sameNode (alloc s node).2.heap (alloc s node).1) with
  | some r =>
    rw [hf] at hextra
    simp only at hextra ⊢
    rw [hc1] at hextra
    rw [← hextra, List.find?_append, hfind, hf]
    rfl
  | none =>
    rw [hf] at hextra
    simp only at hextra ⊢
    have hnew : sameNode (alloc s2 node).2.heap (alloc s2 node).1 (alloc s node).1 = true := by
      rw [hpt _ (by simp [alloc])]
      exact sameNode_self hx
    rw [← hextra, List.find?_append, List.find?_append, hfind, hf]
    simp [hnew]

theorem Later_of_same_cache {a b c : State} (hl : a.Later b) (hh : b.heap <+: c.heap)
    (hc : c.cache = b.cache) : a.Later c :=
  ⟨hl.1.trans hh, by rw [hc]; exact hl.2⟩

theorem dependency_of_append {h h1 : Heap} (hp : h <+: h1) {i k : Nat} {b : NodeId}
    (hd : dependency h i k = some b) : dependency h1 i k = some b := by
  unfold dependency at hd ⊢
  cases hi : h[i]? with
  | none => rw [hi] at hd; cases hd
  | some n =>
    rw [hi] at hd
    rw [getElem?_of_append hp hi]
    exact hd

theorem createNode_repeatable (lib : Library) (hv : lib.ValidateStable) (kind : NodeKind)
    (T : ValueType) (deps : NodeRefVec) (dim : Option Dimension) :
    Repeatable (fun s => createNode lib kind T s deps dim) := by
  intro s
  simp only [createNode]
  cases hn : checkDependenciesNotNull deps with
  | error err => exact ⟨Later_refl s, fun hc => ⟨hc, fun r s1 h => by cases h⟩⟩
  | ok u =>
    cases hval : lib.validate kind s.heap deps dim with
    | error err => exact ⟨Later_refl s, fun hc => ⟨hc, fun r s1 h => by cases h⟩⟩
    | ok u1 =>
      refine ⟨allocCached_frame s _, fun hc => ⟨CacheInHeap_allocCached s _ hc, ?_⟩⟩
      intro r s1 h s2 hl
      simp only [Res.ok.injEq] at h
      obtain ⟨hr, hs⟩ := h
      subst hr
      subst hs
      have hp : s.heap <+: s2.heap := (allocCached_frame s _).1.trans hl.1
      rw [hv kind s.heap s2.heap deps dim hp hval]
      simp only
      rw [allocCached_later s _ hc s2 hl]
      exact ⟨_, rfl, rfl, List.prefix_append _ _⟩

theorem makeInitialConditionalLikelihood_repeatable (e : HomogeneousLikelihoodNodesHelper)
    (sequenceName : String) :
    Repeatable (fun s => e.makeInitialConditionalLikelihood s sequenceName) := by
  intro s
  simp only [HomogeneousLikelihoodNodesHelper.makeInitialConditionalLikelihood]
  cases hn : e.sites.getSequencePosition sequenceName with
  | none => exact ⟨Later_refl s, fun hc => ⟨hc, fun r s1 h => by cases h⟩⟩
  | some idx =>
    simp only [NumericConstant.create]
    refine ⟨allocCached_frame s _, fun hc => ⟨CacheInHeap_allocCached s _ hc, ?_⟩⟩
    intro r s1 h s2 hl
    simp only [Res.ok.injEq] at h
    obtain ⟨hr, hs⟩ := h
    subst hr
    subst hs
    rw [allocCached_later s _ hc s2 hl]
    exact ⟨_, rfl, rfl, List.prefix_append _ _⟩

theorem checkDependenciesNotNull_pair {a : NodeId} {b : Option NodeId}
    (h : checkDependenciesNotNull [some a, b] = .ok ()) : ∃ d, b = some d := by
  cases b with
  | none => simp [checkDependenciesNotNull] at h
  | some d => exact ⟨d, rfl⟩

theorem createNode_notNull {lib : Library} {kind : NodeKind} {T : ValueType} {s s1 : State}
    {deps : NodeRefVec} {dim : Option Dimension} {r : NodeId}
    (hc : createNode lib kind T s deps dim = .ok r s1) :
    checkDependenciesNotNull deps = .ok () := by
  unfold createNode at hc
  cases hn : checkDependenciesNotNull deps with
  | error err => rw [hn] at hc; cases hc
  | ok u => rfl

theorem makeForwardLikelihoodNodeFrom_repeatable (e : HomogeneousLikelihoodNodesHelper)
    (lib : Library) (hv : lib.ValidateStable) (child : State → Nat → Res NodeId)
    (hchild : ∀ i, Repeatable (fun s => child s i)) (index : Nat) :
    Repeatable (fun s => e.makeForwardLikelihoodNodeFrom lib child s index) := by
  intro s
  simp only [HomogeneousLikelihoodNodesHelper.makeForwardLikelihoodNodeFrom]
  cases hk : e.tree.getParameterIndex ("BrLen" ++ toString index) with
  | none => exact ⟨Later_refl s, fun hc => ⟨hc, fun r s1 h => by cases h⟩⟩
  | some k =>
    simp only
    obtain ⟨lA, rA⟩ := hchild (e.tree.getValue.getSon index) s
    cases hA : child s (e.tree.getValue.getSon index) with
    | throw err sA =>
      simp only [hA, Res.state] at lA rA
      exact ⟨lA, fun hc => ⟨(rA hc).1, fun r s1 h => by cases h⟩⟩
    | ok c sA =>
      simp only [hA, Res.state] at lA rA
      simp only
      obtain ⟨lB, rB⟩ := createNode_repeatable lib hv .TransitionMatrixFromModel .MatrixXd
        [some e.model.node, dependency s.heap e.tree.node k]
        (some (transitionMatrixDimension e.nbState)) sA
      cases hB : createNode lib .TransitionMatrixFromModel .MatrixXd sA
          [some e.model.node, dependency s.heap e.tree.node k]
          (some (transitionMatrixDimension e.nbState)) with
      | throw err sB =>
        simp only [hB, Res.state] at lB rB
        exact ⟨Later_trans lA lB, fun hc => ⟨(rB (rA hc).1).1, fun r s1 h => by cases h⟩⟩
      | ok tm sB =>
        simp only [hB, Res.state] at lB rB
        simp only
        obtain ⟨lC, rC⟩ := createNode_repeatable lib hv .ForwardLikelihoodFromConditional
          .MatrixXd [some tm, some c] (some e.likelihoodMatrixDim) sB
        refine ⟨Later_trans lA (Later_trans lB lC), fun hc => ?_⟩
        obtain ⟨cA, repA⟩ := rA hc
        obtain ⟨cB, repB⟩ := rB cA
        obtain ⟨cC, repC⟩ := rC cB
        refine ⟨cC, ?_⟩
        intro r s1 h s2 hl
        have lC1 : sB.Later s1 := by
          have := lC
          simp only [h, Res.state] at this
          exact this
        obtain ⟨s3, e3, c3, h3⟩ := repA c sA rfl s2 (Later_trans lB (Later_trans lC1 hl))
        obtain ⟨b, hb⟩ := checkDependenciesNotNull_pair (createNode_notNull hB)
        have hdep : dependency s2.heap e.tree.node k = dependency s.heap e.tree.node k := by
          rw [hb]
          exact dependency_of_append (lA.1.trans (lB.1.trans (lC1.1.trans hl.1))) hb
        have l3 : sB.Later s3 := Later_of_same_cache (Later_trans lC1 hl) h3 c3
        obtain ⟨s4, e4, c4, h4⟩ := repB tm sB rfl s3 l3
        have l4 : s1.Later s4 :=
          Later_of_same_cache (Later_of_same_cache hl h3 c3) h4 c4
        obtain ⟨s5, e5, c5, h5⟩ := repC r s1 h s4 l4
        refine ⟨s5, ?_, by rw [c5, c4, c3], h3.trans (h4.trans h5)⟩
        rw [e3]
        simp only
        rw [hdep, e4]
        exact e5

theorem forEachBranch_repeatable (f : State → Nat → Res NodeId)
    (hf : ∀ b, Repeatable (fun s => f s b)) :
    ∀ bs : List Nat, Repeatable (fun s => forEachBranch f s bs) := by
  intro bs
  induction bs with
  | nil =>
    intro s
    simp only [forEachBranch]
    refine ⟨Later_refl s, fun hc => ⟨hc, ?_⟩⟩
    intro r s1 h s2 hl
    simp only [Res.ok.injEq] at h
    obtain ⟨hr, -⟩ := h
    subst hr
    exact ⟨s2, rfl, rfl, List.prefix_refl _⟩
  | cons b bs ih =>
    intro s
    simp only [forEachBranch]
    obtain ⟨lA, rA⟩ := hf b s
    cases hA : f s b with
    | throw err sA =>
      simp only [hA, Res.state] at lA rA
      exact ⟨lA, fun hc => ⟨(rA hc).1, fun r s1 h => by cases h⟩⟩
    | ok d sA =>
      simp only [hA, Res.state] at lA rA
      simp only
      obtain ⟨lB, rB⟩ := ih sA
      cases hB : forEachBranch f sA bs with
      | throw err sB =>
        simp only [hB, Res.state] at lB rB
        exact ⟨Later_trans lA lB, fun hc => ⟨(rB (rA hc).1).1, fun r s1 h => by cases h⟩⟩
      | ok ds sB =>
        simp only [hB, Res.state] at lB rB
        refine ⟨Later_trans lA lB, fun hc => ?_⟩
        obtain ⟨cA, repA⟩ := rA hc
        obtain ⟨cB, repB⟩ := rB cA
        refine ⟨cB, ?_⟩
        intro r s1 h s2 hl
        simp only [Res.ok.injEq] at h
        obtain ⟨hr, hs⟩ := h
        subst hr
        subst hs
        obtain ⟨s3, e3, c3, h3⟩ := repA d sA rfl s2 (Later_trans lB hl)
        obtain ⟨s4, e4, c4, h4⟩ := repB ds sB rfl s3 (Later_of_same_cache hl h3 c3)
        refine ⟨s4, ?_, by rw [c4, c3], h3.trans h4⟩
        rw [e3]
        simp only
        rw [e4]

theorem makeConditionalLikelihoodNode_repeatable (e : HomogeneousLikelihoodNodesHelper)
    (lib : Library) (hv : lib.ValidateStable) :
    ∀ (fuel index : Nat), Repeatable (fun s => e.makeConditionalLikelihoodNode lib fuel s index) := by
  intro fuel
  induction fuel with
  | zero =>
    intro index s
    simp only [HomogeneousLikelihoodNodesHelper.makeConditionalLikelihoodNode]
    exact ⟨Later_refl s, fun hc => ⟨hc, fun r s1 h => by cases h⟩⟩
  | succ fuel ih =>
    intro index s
    simp only [HomogeneousLikelihoodNodesHelper.makeConditionalLikelihoodNode]
    by_cases hempty : (e.tree.getValue.getBranches index).isEmpty = true
    · simp only [hempty, if_true]
      exact makeInitialConditionalLikelihood_repeatable e _ s
    · simp only [hempty]
      have hF := forEachBranch_repeatable
        (fun s1 b => e.makeForwardLikelihoodNodeFrom lib
          (fun s2 i => e.makeConditionalLikelihoodNode lib fuel s2 i) s1 b)
        (fun b => makeForwardLikelihoodNodeFrom_repeatable e lib hv _ ih b)
        (e.tree.getValue.getBranches index)
      obtain ⟨lA, rA⟩ := hF s
      cases hA : forEachBranch
          (fun s1 b => e.makeForwardLikelihoodNodeFrom lib
            (fun s2 i => e.makeConditionalLikelihoodNode lib fuel s2 i) s1 b)
          s (e.tree.getValue.getBranches index) with
      | throw err sA =>
        simp only [hA, Res.state] at lA rA
        exact ⟨lA, fun hc => ⟨(rA hc).1, fun r s1 h => by cases h⟩⟩
      | ok deps sA =>
        simp only [hA, Res.state] at lA rA
        simp only
        obtain ⟨lB, rB⟩ := createNode_repeatable lib hv
          .ConditionalLikelihoodFromChildrenForward .MatrixXd deps
          (some e.likelihoodMatrixDim) sA
        refine ⟨Later_trans lA lB, fun hc => ?_⟩
        obtain ⟨cA, repA⟩ := rA hc
        obtain ⟨cB, repB⟩ := rB cA
        refine ⟨cB, ?_⟩
        intro r s1 h s2 hl
        have h1 : createNode lib .ConditionalLikelihoodFromChildrenForward .MatrixXd sA deps
            (some e.likelihoodMatrixDim) = .ok r s1 := h
        have lB1 : sA.Later s1 := by
          have := lB
          simp only [h1, Res.state] at this
          exact this
        obtain ⟨s3, e3, c3, h3⟩ := repA deps sA rfl s2 (Later_trans lB1 hl)
        obtain ⟨s4, e4, c4, h4⟩ := repB r s1 h s3 (Later_of_same_cache hl h3 c3)
        refine ⟨s4, ?_, by rw [c4, c3], h3.trans h4⟩
        rw [e3]
        exact e4

theorem makeRootFrequencies_repeatable (lib : Library) (hv : lib.ValidateStable)
    (model : ConfiguredModel) (rootFreqs : Option ConfiguredFrequenciesSet) (nbState : Nat) :
    Repeatable (fun s => makeRootFrequencies lib s model rootFreqs nbState) := by
  cases rootFreqs with
  | none =>
    simp only [makeRootFrequencies]
    exact createNode_repeatable lib hv _ _ _ _
  | some rf =>
    simp only [makeRootFrequencies]
    exact createNode_repeatable lib hv _ _ _ _

/-- Sequencing of two repeatable operations. -/
theorem Repeatable_seq {α β : Type} {F : State → Res α} {G : α → State → Res β}
    {H : State → Res β} (hF : Repeatable F) (hG : ∀ a, Repeatable (G a))
    (hH : ∀ s, H s = match F s with
      | .throw err s1 => .throw err s1
      | .ok a s1 => G a s1) :
    Repeatable H := by
  intro s
  obtain ⟨lA, rA⟩ := hF s
  rw [hH s]
  cases hA : F s with
  | throw err sA =>
    simp only [hA, Res.state] at lA rA
    exact ⟨lA, fun hc => ⟨(rA hc).1, fun r s1 h => by cases h⟩⟩
  | ok a sA =>
    simp only [hA, Res.state] at lA rA
    simp only
    obtain ⟨lB, rB⟩ := hG a sA
    refine ⟨Later_trans lA lB, fun hc => ?_⟩
    obtain ⟨cA, repA⟩ := rA hc
    obtain ⟨cB, repB⟩ := rB cA
    refine ⟨cB, ?_⟩
    intro r s1 h s2 hl
    have lB1 : sA.Later s1 := by
      have := lB
      rw [h] at this
      exact this
    obtain ⟨s3, e3, c3, h3⟩ := repA a sA rfl s2 (Later_trans lB1 hl)
    obtain ⟨s4, e4, c4, h4⟩ := repB r s1 h s3 (Later_of_same_cache hl h3 c3)
    refine ⟨s4, ?_, by rw [c4, c3], h3.trans h4⟩
    rw [hH s2, e3]
    exact e4

theorem Repeatable_throw {α : Type} (err : Err) :
    Repeatable (fun s => (Res.throw err s : Res α)) :=
  fun s => ⟨Later_refl s, fun hc => ⟨hc, fun r s1 h => by cases h⟩⟩

theorem makeHomogeneousLikelihoodNodes_repeatable (lib : Library) (hv : lib.ValidateStable)
    (fuel : Nat) (sites : AlignedValuesContainer) (tree : ConfiguredPhyloTree)
    (model : ConfiguredModel) (rootFreqs : Option ConfiguredFrequenciesSet) :
    Repeatable (fun s => makeHomogeneousLikelihoodNodes lib fuel s sites tree model rootFreqs) := by
  by_cases hroot : tree.getValue.isRooted = true
  · refine Repeatable_seq
      (makeConditionalLikelihoodNode_repeatable
        { sites := sites, tree := tree, model := model, rootFreqs := rootFreqs,
          likelihoodMatrixDim :=
            conditionalLikelihoodDimension model.getNumberOfStates sites.getNumberOfSites,
          nbState := model.getNumberOfStates, nbSite := sites.getNumberOfSites }
        lib hv fuel tree.getValue.getRootIndex)
      (fun rootCond => Repeatable_seq
        (makeRootFrequencies_repeatable lib hv model rootFreqs model.getNumberOfStates)
        (fun rFreqs => Repeatable_seq
          (createNode_repeatable lib hv .LikelihoodFromRootConditional .RowVectorXd
            [some rFreqs, some rootCond] (some (rowVectorDimension sites.getNumberOfSites)))
          (fun siteLik => Repeatable_seq
            (createNode_repeatable lib hv .TotalLogLikelihood .double [some siteLik]
              (some (rowVectorDimension sites.getNumberOfSites)))
            (fun total => createNode_repeatable lib hv .CWiseNegate .double [some total] none)
            (fun s => rfl))
          (fun s => rfl))
        (fun s => rfl))
      ?_
    intro s
    simp only [makeHomogeneousLikelihoodNodes, hroot, not_true_eq_false, if_false]
    cases HomogeneousLikelihoodNodesHelper.makeConditionalLikelihoodNode
        { sites := sites, tree := tree, model := model, rootFreqs := rootFreqs,
          likelihoodMatrixDim :=
            conditionalLikelihoodDimension model.getNumberOfStates sites.getNumberOfSites,
          nbState := model.getNumberOfStates, nbSite := sites.getNumberOfSites }
        lib fuel s tree.getValue.getRootIndex with
    | throw err sA => rfl
    | ok a sA =>
      simp only
      cases makeRootFrequencies lib sA model rootFreqs model.getNumberOfStates with
      | throw err sB => rfl
      | ok b sB =>
        simp only
        cases createNode lib .LikelihoodFromRootConditional .RowVectorXd sB [some b, some a]
            (some (rowVectorDimension sites.getNumberOfSites)) with
        | throw err sC => rfl
        | ok c sC =>
          simp only
          cases createNode lib .TotalLogLikelihood .double sC [some c]
              (some (rowVectorDimension sites.getNumberOfSites)) with
          | throw err sD => rfl
          | ok d sD => rfl
  · have h : (fun s => makeHomogeneousLikelihoodNodes lib fuel s sites tree model rootFreqs)
        = fun s => .throw (.Exception "PhyloTree must be rooted") s := by
      funext s
      unfold makeHomogeneousLikelihoodNodes
      rw [if_pos hroot]
    rw [h]
    exact Repeatable_throw _

theorem AcceptsAll_stable {lib : Library} (ha : lib.AcceptsAll) : lib.ValidateStable :=
  fun kind _ h1 deps dim _ _ => ha kind h1 deps dim

theorem dependency_isSome_of_append {h h1 : Heap} (hp : h <+: h1) {i k : Nat}
    (hd : (dependency h i k).isSome = true) : (dependency h1 i k).isSome = true := by
  cases hb : dependency h i k with
  | none => rw [hb] at hd; cases hd
  | some b => rw [dependency_of_append hp hb]; rfl

theorem buildable_of_append (e : HomogeneousLikelihoodNodesHelper) {h h1 : Heap}
    (hp : h <+: h1) : ∀ (fuel index : Nat), e.buildable h fuel index = true →
      e.buildable h1 fuel index = true := by
  intro fuel
  induction fuel with
  | zero => intro index hb; cases hb
  | succ fuel ih =>
    intro index hb
    unfold HomogeneousLikelihoodNodesHelper.buildable at hb ⊢
    by_cases hempty : (e.tree.getValue.getBranches index).isEmpty = true
    · rw [if_pos hempty] at hb ⊢
      exact hb
    · rw [if_neg hempty] at hb ⊢
      rw [List.all_eq_true] at hb ⊢
      intro b hbm
      have hb1 := hb b hbm
      rw [Bool.and_eq_true] at hb1 ⊢
      refine ⟨?_, ih _ hb1.2⟩
      cases hk : e.tree.getParameterIndex ("BrLen" ++ toString b) with
      | none => have := hb1.1; rw [hk] at this; cases this
      | some k =>
        have := hb1.1
        rw [hk] at this
        exact dependency_isSome_of_append hp this

theorem createNode_returns {lib : Library} (ha : lib.AcceptsAll) (kind : NodeKind)
    (T : ValueType) (s : State) {deps : NodeRefVec} (dim : Option Dimension)
    (hn : checkDependenciesNotNull deps = .ok ()) :
    ∃ r s1, createNode lib kind T s deps dim = .ok r s1 := by
  unfold createNode
  rw [hn, ha kind s.heap deps dim]
  exact ⟨_, _, rfl⟩

theorem forEachBranch_notNull (f : State → Nat → Res NodeId) :
    ∀ (bs : List Nat) (s s1 : State) (deps : NodeRefVec),
      forEachBranch f s bs = .ok deps s1 → checkDependenciesNotNull deps = .ok () := by
  intro bs
  induction bs with
  | nil =>
    intro s s1 deps h
    simp only [forEachBranch, Res.ok.injEq] at h
    rw [← h.1]
    rfl
  | cons b bs ih =>
    intro s s1 deps h
    simp only [forEachBranch] at h
    cases hA : f s b with
    | throw err sA => rw [hA] at h; cases h
    | ok d sA =>
      rw [hA] at h
      simp only at h
      cases hB : forEachBranch f sA bs with
      | throw err sB => rw [hB] at h; cases h
      | ok ds sB =>
        rw [hB] at h
        simp only [Res.ok.injEq] at h
        have := ih sA sB ds hB
        rw [← h.1]
        unfold checkDependenciesNotNull at this ⊢
        split_ifs at this with hall
        simp [hall]

theorem forEachBranch_returns (f : State → Nat → Res NodeId)
    (hf : ∀ (b : Nat) (s : State), s.Later (f s b).state) :
    ∀ (bs : List Nat) (s : State),
      (∀ b ∈ bs, ∀ s1 : State, s.Later s1 → ∃ d s2, f s1 b = .ok d s2) →
      ∃ deps s1, forEachBranch f s bs = .ok deps s1 := by
  intro bs
  induction bs with
  | nil => intro s _; exact ⟨[], s, rfl⟩
  | cons b bs ih =>
    intro s h
    obtain ⟨d, sA, hA⟩ := h b (List.mem_cons_self _ _) s (Later_refl s)
    have lA : s.Later sA := by
      have := hf b s
      rw [hA] at this
      exact this
    obtain ⟨ds, sB, hB⟩ := ih sA (fun b1 hb1 s1 hl =>
      h b1 (List.mem_cons_of_mem _ hb1) s1 (Later_trans lA hl))
    refine ⟨some d :: ds, sB, ?_⟩
    simp only [forEachBranch, hA, hB]

theorem makeForwardLikelihoodNodeFrom_returns (e : HomogeneousLikelihoodNodesHelper)
    {lib : Library} (ha : lib.AcceptsAll) (child : State → Nat → Res NodeId) (s : State)
    (index : Nat) {k : Nat}
    (hk : e.tree.getParameterIndex ("BrLen" ++ toString index) = some k)
    (hd : (dependency s.heap e.tree.node k).isSome = true)
    (hchild : ∃ c sA, child s (e.tree.getValue.getSon index) = .ok c sA) :
    ∃ r s1, e.makeForwardLikelihoodNodeFrom lib child s index = .ok r s1 := by
  obtain ⟨c, sA, hA⟩ := hchild
  unfold HomogeneousLikelihoodNodesHelper.makeForwardLikelihoodNodeFrom
  rw [hk]
  simp only [hA]
  cases hb : dependency s.heap e.tree.node k with
  | none => rw [hb] at hd; cases hd
  | some b =>
    obtain ⟨tm, sB, hB⟩ := createNode_returns ha .TransitionMatrixFromModel .MatrixXd sA
      (some (transitionMatrixDimension e.nbState))
      (show checkDependenciesNotNull [some e.model.node, some b] = .ok () from rfl)
    rw [hB]
    simp only
    exact createNode_returns ha _ _ _ _ rfl

theorem makeConditionalLikelihoodNode_returns (e : HomogeneousLikelihoodNodesHelper)
    {lib : Library} (ha : lib.AcceptsAll) :
    ∀ (fuel index : Nat) (s : State), e.buildable s.heap fuel index = true →
      ∃ r s1, e.makeConditionalLikelihoodNode lib fuel s index = .ok r s1 := by
  intro fuel
  induction fuel with
  | zero => intro index s hb; cases hb
  | succ fuel ih =>
    intro index s hb
    unfold HomogeneousLikelihoodNodesHelper.buildable at hb
    unfold HomogeneousLikelihoodNodesHelper.makeConditionalLikelihoodNode
    by_cases hempty : (e.tree.getValue.getBranches index).isEmpty = true
    · rw [if_pos hempty] at hb
      simp only [hempty, if_true]
      unfold HomogeneousLikelihoodNodesHelper.makeInitialConditionalLikelihood
      cases hn : e.sites.getSequencePosition (e.tree.getValue.getName index) with
      | none => rw [hn] at hb; cases hb
      | some idx => exact ⟨_, _, rfl⟩
    · rw [if_neg hempty] at hb
      simp only [hempty]
      rw [List.all_eq_true] at hb
      have hv := AcceptsAll_stable ha
      obtain ⟨deps, sA, hA⟩ := forEachBranch_returns
        (fun s1 b => e.makeForwardLikelihoodNodeFrom lib
          (fun s2 i => e.makeConditionalLikelihoodNode lib fuel s2 i) s1 b)
        (fun b s1 => (makeForwardLikelihoodNodeFrom_repeatable e lib hv _
          (makeConditionalLikelihoodNode_repeatable e lib hv fuel) b s1).1)
        (e.tree.getValue.getBranches index) s
        (by
          intro b hbm s1 hl
          have hb1 := hb b hbm
          rw [Bool.and_eq_true] at hb1
          cases hk : e.tree.getParameterIndex ("BrLen" ++ toString b) with
          | none => have := hb1.1; rw [hk] at this; cases this
          | some k =>
            have h1 := hb1.1
            rw [hk] at h1
            exact makeForwardLikelihoodNodeFrom_returns e ha _ s1 b hk
              (dependency_isSome_of_append hl.1 h1)
              (ih _ s1 (buildable_of_append e hl.1 _ _ hb1.2)))
      rw [hA]
      simp only
      exact createNode_returns ha _ _ _ _ (forEachBranch_notNull _ _ _ _ _ hA)

theorem classAndDeps_of_lookup {h : Heap} {i : Nat} {n : Node} {k : NodeKind}
    {deps : NodeRefVec} (hi : h[i]? = some n) (hk : n.kind = k) (hd : n.deps = deps) :
    classAndDeps h i = some (k, deps) := by
  simp [classAndDeps, hi, hk, hd]

/-- What `makeForwardLikelihoodNode` has done when it returns. -/
theorem makeForwardLikelihoodNode_inv {e : HomogeneousLikelihoodNodesHelper} {lib : Library}
    {fuel : Nat} {s : State} {index : Nat} {r : NodeId}
    (hr : (e.makeForwardLikelihoodNode lib fuel s index).value? = some r) :
    ∃ (k : Nat) (brlen transitionMatrix childConditionalLikelihood : NodeId) (sA : State),
      e.tree.getParameterIndex ("BrLen" ++ toString index) = some k
      ∧ dependency s.heap e.tree.node k = some brlen
      ∧ e.makeConditionalLikelihoodNode lib fuel s (e.tree.getValue.getSon index)
          = .ok childConditionalLikelihood sA
      ∧ classAndDeps (e.makeForwardLikelihoodNode lib fuel s index).state.heap r
          = some (.ForwardLikelihoodFromConditional,
              [some transitionMatrix, some childConditionalLikelihood])
      ∧ classAndDeps (e.makeForwardLikelihoodNode lib fuel s index).state.heap transitionMatrix
          = some (.TransitionMatrixFromModel, [some e.model.node, some brlen]) := by
  unfold HomogeneousLikelihoodNodesHelper.makeForwardLikelihoodNode
    HomogeneousLikelihoodNodesHelper.makeForwardLikelihoodNodeFrom at hr ⊢
  cases hk : e.tree.getParameterIndex ("BrLen" ++ toString index) with
  | none => rw [hk] at hr; cases hr
  | some k =>
    rw [hk] at hr
    simp only at hr ⊢
    cases hA : e.makeConditionalLikelihoodNode lib fuel s (e.tree.getValue.getSon index) with
    | throw err sA => rw [hA] at hr; cases hr
    | ok c sA =>
      rw [hA] at hr
      simp only at hr ⊢
      cases hB : createNode lib .TransitionMatrixFromModel .MatrixXd sA
          [some e.model.node, dependency s.heap e.tree.node k]
          (some (transitionMatrixDimension e.nbState)) with
      | throw err sB => rw [hB] at hr; cases hr
      | ok tm sB =>
        rw [hB] at hr
        simp only at hr ⊢
        have hC := value?_ok_inv hr
        obtain ⟨b, hb⟩ := checkDependenciesNotNull_pair (createNode_notNull hB)
        obtain ⟨-, nB, lB, kB, dB, -⟩ := createNode_spec (by rfl) hB
        obtain ⟨pC, nC, lC, kC, dC, -⟩ := createNode_spec (by rfl) hC
        refine ⟨k, b, tm, c, sA, rfl, hb, rfl, classAndDeps_of_lookup lC kC dC, ?_⟩
        rw [classAndDeps_of_append pC lB, kB, dB, hb]

/-- The state in which the loop of `makeConditionalLikelihoodNode` handles its next
branch. -/
theorem forEachBranch_cons_state (f : State → Nat → Res NodeId) {s sA : State} {b d : Nat}
    (hA : f s b = .ok d sA) (l : List Nat) :
    (forEachBranch f s (b :: l)).state = (forEachBranch f sA l).state := by
  simp only [forEachBranch, hA]
  cases forEachBranch f sA l <;> rfl

/-- The dependencies collected by the loop of `makeConditionalLikelihoodNode`: one per
branch, in the order of the branches, each the node returned for its branch in the state
left by the branches before it. -/
theorem forEachBranch_spec (f : State → Nat → Res NodeId) :
    ∀ (bs : List Nat) (s s1 : State) (deps : NodeRefVec),
      forEachBranch f s bs = .ok deps s1 →
      deps.length = bs.length
      ∧ ∀ (i : Nat) (hi : i < bs.length), ∃ d : NodeId,
          (f (forEachBranch f s (bs.take i)).state (bs.get ⟨i, hi⟩)).value? = some d
          ∧ deps[i]? = some (some d) := by
  intro bs
  induction bs with
  | nil =>
    intro s s1 deps h
    simp only [forEachBranch, Res.ok.injEq] at h
    rw [← h.1]
    exact ⟨rfl, fun i hi => absurd hi (Nat.not_lt_zero i)⟩
  | cons b bs ih =>
    intro s s1 deps h
    simp only [forEachBranch] at h
    cases hA : f s b with
    | throw err sA => rw [hA] at h; cases h
    | ok d sA =>
      rw [hA] at h
      simp only at h
      cases hB : forEachBranch f sA bs with
      | throw err sB => rw [hB] at h; cases h
      | ok ds sB =>
        rw [hB] at h
        simp only [Res.ok.injEq] at h
        obtain ⟨hlen, hall⟩ := ih sA sB ds hB
        rw [← h.1]
        refine ⟨by simp [hlen], ?_⟩
        intro i hi
        cases i with
        | zero =>
          refine ⟨d, ?_, by simp⟩
          simp only [List.take_zero, forEachBranch, Res.state, List.get_eq_getElem,
            List.getElem_cons_zero, hA, Res.value?]
        | succ j =>
          have hj : j < bs.length := by simpa using hi
          obtain ⟨dj, h1, h2⟩ := hall j hj
          refine ⟨dj, ?_, by simpa using h2⟩
          rw [List.take_succ_cons, forEachBranch_cons_state f hA]
          simpa using h1

/-- Claim C16. `makeForwardLikelihoodNode (index)` returns whenever the library accepts
the requests, the length parameter "BrLen<index>" is a non-null dependency of the tree
node and the subtree below the branch can be built. Whenever it returns, the node
returned is a `ForwardLikelihoodFromConditional` node whose two dependencies are, in this
order, a `TransitionMatrixFromModel` node with the dependencies (model, the parameter
"BrLen<index>" of the tree) and the node that `makeConditionalLikelihoodNode` returns for
the child node `getSon (index)` of the branch. -/
theorem makeForwardLikelihoodNode_structure (e : HomogeneousLikelihoodNodesHelper)
    (lib : Library) (fuel : Nat) (s : State) (index : Nat) :
    (lib.AcceptsAll →
      (∃ k, e.tree.getParameterIndex ("BrLen" ++ toString index) = some k
        ∧ (dependency s.heap e.tree.node k).isSome = true) →
      e.buildable s.heap fuel (e.tree.getValue.getSon index) = true →
      (e.makeForwardLikelihoodNode lib fuel s index).isOk = true)
    ∧ ∀ r : NodeId, (e.makeForwardLikelihoodNode lib fuel s index).value? = some r →
      ∃ (k : Nat) (brlen transitionMatrix childConditionalLikelihood : NodeId) (sA : State),
        e.tree.getParameterIndex ("BrLen" ++ toString index) = some k
        ∧ dependency s.heap e.tree.node k = some brlen
        ∧ e.makeConditionalLikelihoodNode lib fuel s (e.tree.getValue.getSon index)
            = .ok childConditionalLikelihood sA
        ∧ classAndDeps (e.makeForwardLikelihoodNode lib fuel s index).state.heap r
            = some (.ForwardLikelihoodFromConditional,
                [some transitionMatrix, some childConditionalLikelihood])
        ∧ classAndDeps (e.makeForwardLikelihoodNode lib fuel s index).state.heap
            transitionMatrix
            = some (.TransitionMatrixFromModel, [some e.model.node, some brlen]) := by
  refine ⟨?_, fun r hr => makeForwardLikelihoodNode_inv hr⟩
  rintro ha ⟨k, hk, hd⟩ hb
  obtain ⟨r, s1, h⟩ := makeForwardLikelihoodNodeFrom_returns e ha
    (e.makeConditionalLikelihoodNode lib fuel) s index hk hd
    (makeConditionalLikelihoodNode_returns e ha fuel _ s hb)
  unfold HomogeneousLikelihoodNodesHelper.makeForwardLikelihoodNode
  rw [h]
  rfl

theorem makeForwardLikelihoodNode_structure_witness :
    (exampleHelper.makeForwardLikelihoodNode exampleLibrary 4 exampleTreeState 1).isOk = true
    ∧ ∃ (k : Nat) (brlen transitionMatrix childConditionalLikelihood : NodeId) (sA : State),
        exampleHelper.tree.getParameterIndex ("BrLen" ++ toString 1) = some k
        ∧ dependency exampleTreeState.heap exampleHelper.tree.node k = some brlen
        ∧ exampleHelper.makeConditionalLikelihoodNode exampleLibrary 4 exampleTreeState
            (exampleHelper.tree.getValue.getSon 1) = .ok childConditionalLikelihood sA
        ∧ classAndDeps (exampleHelper.makeForwardLikelihoodNode exampleLibrary 4
            exampleTreeState 1).state.heap 6
            = some (.ForwardLikelihoodFromConditional,
                [some transitionMatrix, some childConditionalLikelihood])
        ∧ classAndDeps (exampleHelper.makeForwardLikelihoodNode exampleLibrary 4
            exampleTreeState 1).state.heap transitionMatrix
            = some (.TransitionMatrixFromModel, [some exampleHelper.model.node, some brlen]) :=
  ⟨(makeForwardLikelihoodNode_structure exampleHelper exampleLibrary 4 exampleTreeState 1).1
      (fun _ _ _ _ => rfl) ⟨0, by decide, by decide⟩ (by decide),
    (makeForwardLikelihoodNode_structure exampleHelper exampleLibrary 4 exampleTreeState 1).2 6
      (by decide)⟩

/-- Claim C17. `makeConditionalLikelihoodNode (index)` returns whenever the library
accepts the requests and the subtree below the node can be built. For a node without
child branch the call is the call of `makeInitialConditionalLikelihood` on the name of the
node. For a node with k >= 1 child branches, the node returned is a
`ConditionalLikelihoodFromChildrenForward` node with exactly k dependencies, the i-th
being the node that `makeForwardLikelihoodNode` returns for the i-th child branch, in the
state left by the branches before it. -/
theorem makeConditionalLikelihoodNode_structure (e : HomogeneousLikelihoodNodesHelper)
    (lib : Library) (fuel : Nat) (s : State) (index : Nat) :
    (lib.AcceptsAll → e.buildable s.heap (fuel + 1) index = true →
      (e.makeConditionalLikelihoodNode lib (fuel + 1) s index).isOk = true)
    ∧ (e.tree.getValue.getBranches index = [] →
        e.makeConditionalLikelihoodNode lib (fuel + 1) s index
          = e.makeInitialConditionalLikelihood s (e.tree.getValue.getName index))
    ∧ ∀ r : NodeId, (e.makeConditionalLikelihoodNode lib (fuel + 1) s index).value? = some r →
        e.tree.getValue.getBranches index ≠ [] →
        ∃ deps : NodeRefVec,
          classAndDeps (e.makeConditionalLikelihoodNode lib (fuel + 1) s index).state.heap r
            = some (.ConditionalLikelihoodFromChildrenForward, deps)
          ∧ deps.length = (e.tree.getValue.getBranches index).length
          ∧ ∀ (i : Nat) (hi : i < (e.tree.getValue.getBranches index).length),
              ∃ d : NodeId,
                (e.makeForwardLikelihoodNode lib fuel
                  (forEachBranch (e.makeForwardLikelihoodNode lib fuel) s
                    ((e.tree.getValue.getBranches index).take i)).state
                  ((e.tree.getValue.getBranches index).get ⟨i, hi⟩)).value? = some d
                ∧ deps[i]? = some (some d) := by
  refine ⟨?_, ?_, ?_⟩
  · intro ha hb
    obtain ⟨r, s1, h⟩ := makeConditionalLikelihoodNode_returns e ha (fuel + 1) index s hb
    rw [h]
    rfl
  · intro hnil
    unfold HomogeneousLikelihoodNodesHelper.makeConditionalLikelihoodNode
    simp only [hnil, List.isEmpty_nil, if_true]
  · intro r hr hne
    have hempty : ¬ (e.tree.getValue.getBranches index).isEmpty = true := by
      rw [List.isEmpty_iff]
      exact hne
    unfold HomogeneousLikelihoodNodesHelper.makeConditionalLikelihoodNode at hr ⊢
    simp only [hempty] at hr ⊢
    cases hA : forEachBranch
        (fun s1 b => e.makeForwardLikelihoodNodeFrom lib
          (fun s2 i => e.makeConditionalLikelihoodNode lib fuel s2 i) s1 b)
        s (e.tree.getValue.getBranches index) with
    | throw err sA => rw [hA] at hr; cases hr
    | ok deps sA =>
      rw [hA] at hr
      simp only at hr ⊢
      obtain ⟨-, n, ln, kn, dn, -⟩ := createNode_spec (by rfl) (value?_ok_inv hr)
      obtain ⟨hlen, hall⟩ := forEachBranch_spec _ _ _ _ _ hA
      exact ⟨deps, classAndDeps_of_lookup ln kn dn, hlen, hall⟩

theorem makeConditionalLikelihoodNode_structure_witness :
    (exampleHelper.makeConditionalLikelihoodNode exampleLibrary 5 exampleTreeState 0).isOk
      = true
    ∧ exampleHelper.makeConditionalLikelihoodNode exampleLibrary 5 exampleTreeState 2
        = exampleHelper.makeInitialConditionalLikelihood exampleTreeState
            (exampleHelper.tree.getValue.getName 2)
    ∧ ∃ deps : NodeRefVec,
        classAndDeps (exampleHelper.makeConditionalLikelihoodNode exampleLibrary 5
            exampleTreeState 0).state.heap 10
          = some (.ConditionalLikelihoodFromChildrenForward, deps)
        ∧ deps.length = (exampleHelper.tree.getValue.getBranches 0).length
        ∧ ∀ (i : Nat) (hi : i < (exampleHelper.tree.getValue.getBranches 0).length),
            ∃ d : NodeId,
              (exampleHelper.makeForwardLikelihoodNode exampleLibrary 4
                (forEachBranch (exampleHelper.makeForwardLikelihoodNode exampleLibrary 4)
                  exampleTreeState
                  ((exampleHelper.tree.getValue.getBranches 0).take i)).state
                ((exampleHelper.tree.getValue.getBranches 0).get ⟨i, hi⟩)).value? = some d
              ∧ deps[i]? = some (some d) :=
  ⟨(makeConditionalLikelihoodNode_structure exampleHelper exampleLibrary 4 exampleTreeState
      0).1 (fun _ _ _ _ => rfl) (by decide),
    (makeConditionalLikelihoodNode_structure exampleHelper exampleLibrary 4 exampleTreeState
      2).2.1 (by decide),
    (makeConditionalLikelihoodNode_structure exampleHelper exampleLibrary 4 exampleTreeState
      0).2.2 10 (by decide) (by decide)⟩

/-- The steps of `makeHomogeneousLikelihoodNodes` when it returns. -/
theorem makeHomogeneousLikelihoodNodes_inv {lib : Library} {fuel : Nat} {s : State}
    {sites : AlignedValuesContainer} {tree : ConfiguredPhyloTree} {model : ConfiguredModel}
    {rootFreqs : Option ConfiguredFrequenciesSet} {root : NodeId}
    (hok : (makeHomogeneousLikelihoodNodes lib fuel s sites tree model rootFreqs).value?
      = some root) :
    tree.getValue.isRooted = true
    ∧ ∃ (rootCond rFreqs siteLik total : NodeId) (sA sB sC sD : State),
      (HomogeneousLikelihoodNodesHelper.makeConditionalLikelihoodNode
          { sites := sites, tree := tree, model := model, rootFreqs := rootFreqs,
            likelihoodMatrixDim :=
              conditionalLikelihoodDimension model.getNumberOfStates sites.getNumberOfSites,
            nbState := model.getNumberOfStates, nbSite := sites.getNumberOfSites }
          lib fuel s tree.getValue.getRootIndex = .ok rootCond sA)
      ∧ makeRootFrequencies lib sA model rootFreqs model.getNumberOfStates = .ok rFreqs sB
      ∧ createNode lib .LikelihoodFromRootConditional .RowVectorXd sB
          [some rFreqs, some rootCond] (some (rowVectorDimension sites.getNumberOfSites))
          = .ok siteLik sC
      ∧ createNode lib .TotalLogLikelihood .double sC [some siteLik]
          (some (rowVectorDimension sites.getNumberOfSites)) = .ok total sD
      ∧ createNode lib .CWiseNegate .double sD [some total] none
          = .ok root (makeHomogeneousLikelihoodNodes lib fuel s sites tree model
              rootFreqs).state := by
  unfold makeHomogeneousLikelihoodNodes at hok ⊢
  by_cases hroot : tree.getValue.isRooted = true
  · rw [if_neg (not_not.mpr hroot)] at hok ⊢
    simp only [] at hok ⊢
    refine ⟨hroot, ?_⟩
    cases hA : HomogeneousLikelihoodNodesHelper.makeConditionalLikelihoodNode
        { sites := sites, tree := tree, model := model, rootFreqs := rootFreqs,
          likelihoodMatrixDim :=
            conditionalLikelihoodDimension model.getNumberOfStates sites.getNumberOfSites,
          nbState := model.getNumberOfStates, nbSite := sites.getNumberOfSites }
        lib fuel s tree.getValue.getRootIndex with
    | throw e sA => rw [hA] at hok; cases hok
    | ok rootCond sA =>
      rw [hA] at hok
      simp only [] at hok ⊢
      cases hB : makeRootFrequencies lib sA model rootFreqs model.getNumberOfStates with
      | throw e sB => rw [hB] at hok; cases hok
      | ok rFreqs sB =>
        rw [hB] at hok
        simp only [] at hok ⊢
        cases hC : createNode lib .LikelihoodFromRootConditional .RowVectorXd sB
            [some rFreqs, some rootCond] (some (rowVectorDimension sites.getNumberOfSites)) with
        | throw e sC => rw [hC] at hok; cases hok
        | ok siteLik sC =>
          rw [hC] at hok
          simp only [] at hok ⊢
          cases hD : createNode lib .TotalLogLikelihood .double sC [some siteLik]
              (some (rowVectorDimension sites.getNumberOfSites)) with
          | throw e sD => rw [hD] at hok; cases hok
          | ok total sD =>
            rw [hD] at hok
            simp only [] at hok ⊢
            exact ⟨rootCond, rFreqs, siteLik, total, sA, sB, sC, sD, rfl, hB, hC, hD,
              value?_ok_inv hok⟩
  · rw [if_pos hroot] at hok
    cases hok

/-- `makeHomogeneousLikelihoodNodes` returns for a rooted tree that can be built, when the
library accepts the requests. -/
theorem makeHomogeneousLikelihoodNodes_returns {lib : Library} (ha : lib.AcceptsAll)
    (fuel : Nat) (s : State) (sites : AlignedValuesContainer) (tree : ConfiguredPhyloTree)
    (model : ConfiguredModel) (rootFreqs : Option ConfiguredFrequenciesSet)
    (hroot : tree.getValue.isRooted = true)
    (hb : HomogeneousLikelihoodNodesHelper.buildable
        { sites := sites, tree := tree, model := model, rootFreqs := rootFreqs,
          likelihoodMatrixDim :=
            conditionalLikelihoodDimension model.getNumberOfStates sites.getNumberOfSites,
          nbState := model.getNumberOfStates, nbSite := sites.getNumberOfSites }
        s.heap fuel tree.getValue.getRootIndex = true) :
    (makeHomogeneousLikelihoodNodes lib fuel s sites tree model rootFreqs).isOk = true := by
  obtain ⟨rootCond, sA, hA⟩ := makeConditionalLikelihoodNode_returns _ ha fuel _ s hb
  unfold makeHomogeneousLikelihoodNodes
  rw [if_neg (not_not.mpr hroot)]
  simp only []
  rw [hA]
  simp only []
  have hB : ∃ rFreqs sB, makeRootFrequencies lib sA model rootFreqs model.getNumberOfStates
      = .ok rFreqs sB := by
    unfold makeRootFrequencies
    cases rootFreqs with
    | none => exact createNode_returns ha _ _ _ _ rfl
    | some rf => exact createNode_returns ha _ _ _ _ rfl
  obtain ⟨rFreqs, sB, hB⟩ := hB
  rw [hB]
  simp only []
  obtain ⟨siteLik, sC, hC⟩ := createNode_returns ha .LikelihoodFromRootConditional
    .RowVectorXd sB (some (rowVectorDimension sites.getNumberOfSites))
    (show checkDependenciesNotNull [some rFreqs, some rootCond] = .ok () from rfl)
  rw [hC]
  simp only []
  obtain ⟨total, sD, hD⟩ := createNode_returns ha .TotalLogLikelihood .double sC
    (some (rowVectorDimension sites.getNumberOfSites))
    (show checkDependenciesNotNull [some siteLik] = .ok () from rfl)
  rw [hD]
  simp only []
  obtain ⟨root, sE, hE⟩ := createNode_returns ha .CWiseNegate .double sD none
    (show checkDependenciesNotNull [some total] = .ok () from rfl)
  rw [hE]
  rfl

theorem forEachBranch_fails (f : State → Nat → Res NodeId) {b : Nat}
    (hb : ∀ s, (f s b).value? = none) :
    ∀ (bs : List Nat), b ∈ bs → ∀ s, (forEachBranch f s bs).value? = none := by
  intro bs
  induction bs with
  | nil => intro hm; cases hm
  | cons a bs ih =>
    intro hm s
    simp only [forEachBranch]
    cases hA : f s a with
    | throw err sA => rfl
    | ok d sA =>
      simp only
      rcases List.mem_cons.mp hm with h | h
      · subst h
        have := hb s
        rw [hA] at this
        cases this
      · have := ih h sA
        cases hB : forEachBranch f sA bs with
        | throw err sB => rfl
        | ok ds sB => rw [hB] at this; cases this

theorem makeForwardLikelihoodNodeFrom_fails (e : HomogeneousLikelihoodNodesHelper)
    (lib : Library) (child : State → Nat → Res NodeId) (index : Nat)
    (hchild : ∀ s, (child s (e.tree.getValue.getSon index)).value? = none) :
    ∀ s, (e.makeForwardLikelihoodNodeFrom lib child s index).value? = none := by
  intro s
  unfold HomogeneousLikelihoodNodesHelper.makeForwardLikelihoodNodeFrom
  cases hk : e.tree.getParameterIndex ("BrLen" ++ toString index) with
  | none => rfl
  | some k =>
    simp only
    cases hA : child s (e.tree.getValue.getSon index) with
    | throw err sA => rfl
    | ok c sA =>
      have := hchild s
      rw [hA] at this
      cases this

/-- No traversal bound lets `makeConditionalLikelihoodNode` return below a node that has
a leaf with an unresolved name. -/
theorem makeConditionalLikelihoodNode_fails (e : HomogeneousLikelihoodNodesHelper)
    (lib : Library) :
    ∀ (depth index : Nat), e.hasUnresolvedLeaf depth index = true →
      ∀ (fuel : Nat) (s : State),
        (e.makeConditionalLikelihoodNode lib fuel s index).value? = none := by
  intro depth
  induction depth with
  | zero => intro index h; cases h
  | succ depth ih =>
    intro index h fuel s
    cases fuel with
    | zero => rfl
    | succ fuel =>
      unfold HomogeneousLikelihoodNodesHelper.hasUnresolvedLeaf at h
      unfold HomogeneousLikelihoodNodesHelper.makeConditionalLikelihoodNode
      by_cases hempty : (e.tree.getValue.getBranches index).isEmpty = true
      · rw [if_pos hempty] at h
        simp only [hempty, if_true]
        unfold HomogeneousLikelihoodNodesHelper.makeInitialConditionalLikelihood
        cases hn : e.sites.getSequencePosition (e.tree.getValue.getName index) with
        | none => rfl
        | some idx => rw [hn] at h; cases h
      · rw [if_neg hempty] at h
        simp only [hempty]
        rw [List.any_eq_true] at h
        obtain ⟨b, hbm, hb⟩ := h
        have hF := forEachBranch_fails
          (fun s1 b => e.makeForwardLikelihoodNodeFrom lib
            (fun s2 i => e.makeConditionalLikelihoodNode lib fuel s2 i) s1 b)
          (makeForwardLikelihoodNodeFrom_fails e lib _ b (fun s1 => ih _ hb fuel s1))
          (e.tree.getValue.getBranches index) hbm s
        cases hA : forEachBranch
            (fun s1 b => e.makeForwardLikelihoodNodeFrom lib
              (fun s2 i => e.makeConditionalLikelihoodNode lib fuel s2 i) s1 b)
            s (e.tree.getValue.getBranches index) with
        | throw err sA => rfl
        | ok deps sA => rw [hA] at hF; cases hF

theorem createNode_error {lib : Library} (hl : lib.ThrowsProgramErrors) (kind : NodeKind)
    (T : ValueType) (s : State) (deps : NodeRefVec) (dim : Option Dimension) :
    (createNode lib kind T s deps dim).error? ≠ some .RecursionLimit := by
  unfold createNode
  cases hn : checkDependenciesNotNull deps with
  | error err =>
    simp only [Res.error?]
    unfold checkDependenciesNotNull at hn
    split_ifs at hn
    cases hn
    simp
  | ok u =>
    simp only
    cases hv : lib.validate kind s.heap deps dim with
    | error err =>
      simp only [Res.error?, ne_eq, Option.some.injEq]
      intro h
      subst h
      exact hl kind s.heap deps dim hv
    | ok u1 => simp [Res.error?]

theorem forEachBranch_error (f : State → Nat → Res NodeId) :
    ∀ (bs : List Nat), (∀ b ∈ bs, ∀ s, (f s b).error? ≠ some .RecursionLimit) →
      ∀ s, (forEachBranch f s bs).error? ≠ some .RecursionLimit := by
  intro bs
  induction bs with
  | nil => intro _ s; simp [forEachBranch, Res.error?]
  | cons a bs ih =>
    intro h s
    simp only [forEachBranch]
    have hA1 := h a (List.mem_cons_self _ _) s
    cases hA : f s a with
    | throw err sA => rw [hA] at hA1; exact hA1
    | ok d sA =>
      simp only
      have hB1 := ih (fun b hb s1 => h b (List.mem_cons_of_mem _ hb) s1) sA
      cases hB : forEachBranch f sA bs with
      | throw err sB => rw [hB] at hB1; exact hB1
      | ok ds sB => simp [Res.error?]

theorem makeForwardLikelihoodNodeFrom_error (e : HomogeneousLikelihoodNodesHelper)
    {lib : Library} (hl : lib.ThrowsProgramErrors) (child : State → Nat → Res NodeId)
    (index : Nat)
    (hchild : ∀ s, (child s (e.tree.getValue.getSon index)).error? ≠ some .RecursionLimit) :
    ∀ s, (e.makeForwardLikelihoodNodeFrom lib child s index).error? ≠ some .RecursionLimit := by
  intro s
  unfold HomogeneousLikelihoodNodesHelper.makeForwardLikelihoodNodeFrom
  cases hk : e.tree.getParameterIndex ("BrLen" ++ toString index) with
  | none => simp [Res.error?]
  | some k =>
    simp only
    have hA1 := hchild s
    cases hA : child s (e.tree.getValue.getSon index) with
    | throw err sA => rw [hA] at hA1; exact hA1
    | ok c sA =>
      simp only
      have hB1 := createNode_error hl .TransitionMatrixFromModel .MatrixXd sA
        [some e.model.node, dependency s.heap e.tree.node k]
        (some (transitionMatrixDimension e.nbState))
      cases hB : createNode lib .TransitionMatrixFromModel .MatrixXd sA
          [some e.model.node, dependency s.heap e.tree.node k]
          (some (transitionMatrixDimension e.nbState)) with
      | throw err sB => rw [hB] at hB1; exact hB1
      | ok tm sB => exact createNode_error hl _ _ _ _ _

/-- A traversal whose bound exceeds the depth of the tree is never cut: what
`makeConditionalLikelihoodNode` throws is an exception of the program. -/
theorem makeConditionalLikelihoodNode_error (e : HomogeneousLikelihoodNodesHelper)
    {lib : Library} (hl : lib.ThrowsProgramErrors) :
    ∀ (fuel index : Nat), e.depthWithin fuel index = true →
      ∀ s, (e.makeConditionalLikelihoodNode lib fuel s index).error? ≠ some .RecursionLimit := by
  intro fuel
  induction fuel with
  | zero => intro index h; cases h
  | succ fuel ih =>
    intro index h s
    unfold HomogeneousLikelihoodNodesHelper.depthWithin at h
    unfold HomogeneousLikelihoodNodesHelper.makeConditionalLikelihoodNode
    by_cases hempty : (e.tree.getValue.getBranches index).isEmpty = true
    · simp only [hempty, if_true]
      unfold HomogeneousLikelihoodNodesHelper.makeInitialConditionalLikelihood
      cases hn : e.sites.getSequencePosition (e.tree.getValue.getName index) with
      | none => simp [Res.error?]
      | some idx => simp [Res.error?]
    · simp only [hempty]
      rw [List.all_eq_true] at h
      have hF := forEachBranch_error
        (fun s1 b => e.makeForwardLikelihoodNodeFrom lib
          (fun s2 i => e.makeConditionalLikelihoodNode lib fuel s2 i) s1 b)
        (e.tree.getValue.getBranches index)
        (fun b hb => makeForwardLikelihoodNodeFrom_error e hl _ b
          (fun s1 => ih _ (h b hb) s1)) s
      cases hA : forEachBranch
          (fun s1 b => e.makeForwardLikelihoodNodeFrom lib
            (fun s2 i => e.makeConditionalLikelihoodNode lib fuel s2 i) s1 b)
          s (e.tree.getValue.getBranches index) with
      | throw err sA => rw [hA] at hF; exact hF
      | ok deps sA => exact createNode_error hl _ _ _ _ _

/-- Claim C20. For every tree with a leaf, reached from the root, whose name the site
container does not resolve to a sequence, `makeHomogeneousLikelihoodNodes` returns no
node, whatever the bound of the traversal; and when this bound exceeds the depth of the
tree (and the library throws exceptions of the program only), the call ends with an
exception of the program, not with a cut traversal. -/
theorem makeHomogeneousLikelihoodNodes_unresolved_leaf (lib : Library) (fuel : Nat)
    (s : State) (sites : AlignedValuesContainer) (tree : ConfiguredPhyloTree)
    (model : ConfiguredModel) (rootFreqs : Option ConfiguredFrequenciesSet) (depth : Nat)
    (hleaf : HomogeneousLikelihoodNodesHelper.hasUnresolvedLeaf
        { sites := sites, tree := tree, model := model, rootFreqs := rootFreqs,
          likelihoodMatrixDim :=
            conditionalLikelihoodDimension model.getNumberOfStates sites.getNumberOfSites,
          nbState := model.getNumberOfStates, nbSite := sites.getNumberOfSites }
        depth tree.getValue.getRootIndex = true) :
    (makeHomogeneousLikelihoodNodes lib fuel s sites tree model rootFreqs).value? = none
    ∧ (lib.ThrowsProgramErrors →
        HomogeneousLikelihoodNodesHelper.depthWithin
          { sites := sites, tree := tree, model := model, rootFreqs := rootFreqs,
            likelihoodMatrixDim :=
              conditionalLikelihoodDimension model.getNumberOfStates sites.getNumberOfSites,
            nbState := model.getNumberOfStates, nbSite := sites.getNumberOfSites }
          fuel tree.getValue.getRootIndex = true →
        ∃ err, (makeHomogeneousLikelihoodNodes lib fuel s sites tree model rootFreqs).error?
            = some err ∧ err ≠ .RecursionLimit) := by
  have hA1 := makeConditionalLikelihoodNode_fails _ lib depth _ hleaf fuel s
  unfold makeHomogeneousLikelihoodNodes
  by_cases hroot : tree.getValue.isRooted = true
  · rw [if_neg (not_not.mpr hroot)]
    simp only []
    cases hA : HomogeneousLikelihoodNodesHelper.makeConditionalLikelihoodNode
        { sites := sites, tree := tree, model := model, rootFreqs := rootFreqs,
          likelihoodMatrixDim :=
            conditionalLikelihoodDimension model.getNumberOfStates sites.getNumberOfSites,
          nbState := model.getNumberOfStates, nbSite := sites.getNumberOfSites }
        lib fuel s tree.getValue.getRootIndex with
    | ok r sA => rw [hA] at hA1; cases hA1
    | throw err sA =>
      refine ⟨rfl, fun hl hd => ⟨err, rfl, ?_⟩⟩
      have := makeConditionalLikelihoodNode_error _ hl fuel _ hd s
      rw [hA] at this
      intro h
      subst h
      exact this rfl
  · rw [if_pos hroot]
    exact ⟨rfl, fun _ _ => ⟨_, rfl, by simp⟩⟩

theorem makeHomogeneousLikelihoodNodes_unresolved_leaf_witness :
    HomogeneousLikelihoodNodesHelper.hasUnresolvedLeaf
        { sites := exampleSitesWithoutB, tree := exampleConfiguredTree exampleRootedTree,
          model := exampleModel, rootFreqs := none,
          likelihoodMatrixDim :=
            conditionalLikelihoodDimension exampleModel.getNumberOfStates
              exampleSitesWithoutB.getNumberOfSites,
          nbState := exampleModel.getNumberOfStates,
          nbSite := exampleSitesWithoutB.getNumberOfSites }
        2 (exampleConfiguredTree exampleRootedTree).getValue.getRootIndex = true
    ∧ (makeHomogeneousLikelihoodNodes exampleLibrary 5 exampleTreeState exampleSitesWithoutB
        (exampleConfiguredTree exampleRootedTree) exampleModel none).value? = none
    ∧ ∃ err, (makeHomogeneousLikelihoodNodes exampleLibrary 5 exampleTreeState
          exampleSitesWithoutB (exampleConfiguredTree exampleRootedTree) exampleModel
          none).error? = some err ∧ err ≠ .RecursionLimit :=
  ⟨by decide,
    (makeHomogeneousLikelihoodNodes_unresolved_leaf exampleLibrary 5 exampleTreeState
      exampleSitesWithoutB (exampleConfiguredTree exampleRootedTree) exampleModel none 2
      (by decide)).1,
    (makeHomogeneousLikelihoodNodes_unresolved_leaf exampleLibrary 5 exampleTreeState
      exampleSitesWithoutB (exampleConfiguredTree exampleRootedTree) exampleModel none 2
      (by decide)).2 (fun _ _ _ _ h => by cases h) (by decide)⟩

/-- Claim C22, the code at the failing input. In `exampleBackwardFourState` the four
dependencies listed by the documentation of `BackwardHmmLikelihood_DF` have matching
shapes for the target dimension (2, 3) and `Value<size_t>` is the type of the fourth;
`create` rejects the four-element vector for its size (3 expected, 4 given), and accepts
the same vector without its fourth element. -/
theorem BackwardHmmLikelihood_DF_create_rejects_four_dependencies :
    valueTypeOf exampleBackwardFourState.heap 3 = some .size_t
    ∧ (BackwardHmmLikelihood_DF.create exampleBackwardFourState
        [some 0, some 1, some 2, some 3] ⟨2, 3⟩).error? = some (.DependencyCountError 3 4)
    ∧ (BackwardHmmLikelihood_DF.create exampleBackwardFourState
        [some 0, some 1, some 2, some 3] ⟨2, 3⟩).value? = none
    ∧ (BackwardHmmLikelihood_DF.create exampleBackwardFourState
        [some 0, some 1, some 2] ⟨2, 3⟩).value? = some 4 := by
  decide

/-- Claim C24, counterexample to the claim as stated. In `exampleNameState` a
`CondLikelihood` is created with the dependencies (0, 1) and the dimension (2, 3); a second
`CondLikelihood::create` with the same dependencies and the dimension (5, 7) returns the
same node 2, which holds a matrix of 2 rows and 3 columns. -/
theorem CondLikelihood_create_returns_other_dimension :
    (CondLikelihood.create exampleNameState [some 0, some 1] ⟨2, 3⟩).value? = some 2
    ∧ (CondLikelihood.create
        (CondLikelihood.create exampleNameState [some 0, some 1] ⟨2, 3⟩).state
        [some 0, some 1] ⟨5, 7⟩).value? = some 2
    ∧ (accessValueConst (CondLikelihood.create
        (CondLikelihood.create exampleNameState [some 0, some 1] ⟨2, 3⟩).state
        [some 0, some 1] ⟨5, 7⟩).state.heap .MatrixXd (some 2)).rows = 2
    ∧ (accessValueConst (CondLikelihood.create
        (CondLikelihood.create exampleNameState [some 0, some 1] ⟨2, 3⟩).state
        [some 0, some 1] ⟨5, 7⟩).state.heap .MatrixXd (some 2)).cols = 3 := by
  decide

/-- Claim C24, amended. In a context whose cache refers to allocated nodes, for every
valid two-element dependency vector and every dimension, `CondLikelihood::create` returns
a node. When no `CondLikelihood` with the same dependencies is cached, the node holds a
matrix of exactly `dim.rows` rows and `dim.cols` columns; when one is cached, it is the
node returned, with the matrix it holds, whatever `dim` is. -/
theorem CondLikelihood_create_dimension (s : State) (deps : NodeRefVec) (dim : Dimension)
    (hc : s.CacheInHeap) (hck : CondLikelihood.checks s.heap deps = .ok ()) :
    ∃ r s1, CondLikelihood.create s deps dim = .ok r s1
      ∧ (CondLikelihood.cached s deps = none →
          (accessValueConst s1.heap .MatrixXd (some r)).rows = dim.rows
          ∧ (accessValueConst s1.heap .MatrixXd (some r)).cols = dim.cols)
      ∧ (∀ e, CondLikelihood.cached s deps = some e →
          r = e ∧ accessValueConst s1.heap .MatrixXd (some r)
            = accessValueConst s.heap .MatrixXd (some e)) := by
  have hcreate : CondLikelihood.create s deps dim
      = .ok (cachedAs (alloc s (CondLikelihood.new deps dim)).2
            (alloc s (CondLikelihood.new deps dim)).1).1
          (cachedAs (alloc s (CondLikelihood.new deps dim)).2
            (alloc s (CondLikelihood.new deps dim)).1).2 := by
    unfold CondLikelihood.create
    rw [hck]
  have hx : (alloc s (CondLikelihood.new deps dim)).2.heap[(alloc s
      (CondLikelihood.new deps dim)).1]? = some (CondLikelihood.new deps dim) :=
    lookup_append_new _ _
  have hfind : (alloc s (CondLikelihood.new deps dim)).2.cache.find?
      (sameNode (alloc s (CondLikelihood.new deps dim)).2.heap
        (alloc s (CondLikelihood.new deps dim)).1) = CondLikelihood.cached s deps := by
    unfold CondLikelihood.cached
    refine find?_congr_mem s.cache (fun e he => ?_)
    rw [sameNode_hmm hx rfl]
    have hlt : e < s.heap.length := hc e he
    have hl : (alloc s (CondLikelihood.new deps dim)).2.heap[e]? = s.heap[e]? :=
      getElem?_eq_of_append (List.prefix_append _ _) hlt
    rw [hl]
    rfl
  have hheap : (cachedAs (alloc s (CondLikelihood.new deps dim)).2
      (alloc s (CondLikelihood.new deps dim)).1).2.heap
      = s.heap ++ [CondLikelihood.new deps dim] := by
    rw [cachedAs_heap]
    rfl
  refine ⟨_, _, hcreate, ?_⟩
  rw [hheap]
  cases hcd : CondLikelihood.cached s deps with
  | none =>
    have hres : (cachedAs (alloc s (CondLikelihood.new deps dim)).2
        (alloc s (CondLikelihood.new deps dim)).1).1 = s.heap.length := by
      unfold cachedAs
      rw [hfind, hcd]
      rfl
    rw [hres]
    refine ⟨fun _ => ?_, fun e he => (by cases he)⟩
    rw [accessValueConst_of_lookup .MatrixXd (lookup_append_new s.heap _)]
    exact ⟨rfl, rfl⟩
  | some e0 =>
    have hres : (cachedAs (alloc s (CondLikelihood.new deps dim)).2
        (alloc s (CondLikelihood.new deps dim)).1).1 = e0 := by
      unfold cachedAs
      rw [hfind, hcd]
    rw [hres]
    refine ⟨fun h => (by cases h), fun e he => ?_⟩
    simp only [Option.some.injEq] at he
    subst he
    refine ⟨rfl, ?_⟩
    have hm := List.mem_of_find?_eq_some hcd
    have hlt : e0 < s.heap.length := hc e0 hm
    unfold accessValueConst
    simp only
    rw [getElem?_eq_of_append (List.prefix_append _ _) hlt]

theorem CondLikelihood_create_dimension_witness :
    (CondLikelihood.create exampleNameState [some 0, some 1] ⟨2, 3⟩).state.CacheInHeap
    ∧ CondLikelihood.checks
        (CondLikelihood.create exampleNameState [some 0, some 1] ⟨2, 3⟩).state.heap
        [some 0, some 1] = .ok ()
    ∧ ∃ r s1, CondLikelihood.create
          (CondLikelihood.create exampleNameState [some 0, some 1] ⟨2, 3⟩).state
          [some 0, some 1] ⟨5, 7⟩ = .ok r s1
      ∧ (CondLikelihood.cached
            (CondLikelihood.create exampleNameState [some 0, some 1] ⟨2, 3⟩).state
            [some 0, some 1] = none →
          (accessValueConst s1.heap .MatrixXd (some r)).rows = (⟨5, 7⟩ : Dimension).rows
          ∧ (accessValueConst s1.heap .MatrixXd (some r)).cols = (⟨5, 7⟩ : Dimension).cols)
      ∧ (∀ e, CondLikelihood.cached
            (CondLikelihood.create exampleNameState [some 0, some 1] ⟨2, 3⟩).state
            [some 0, some 1] = some e →
          r = e ∧ accessValueConst s1.heap .MatrixXd (some r)
            = accessValueConst
                (CondLikelihood.create exampleNameState [some 0, some 1] ⟨2, 3⟩).state.heap
                .MatrixXd (some e)) :=
  ⟨by decide, rfl,
    CondLikelihood_create_dimension
      (CondLikelihood.create exampleNameState [some 0, some 1] ⟨2, 3⟩).state
      [some 0, some 1] ⟨5, 7⟩ (by decide) rfl⟩

/-- What `operator=` leaves in the wrapped model does not depend on the parameters of the
object assigned: two sources with the same genetic code and frequencies but different
"kappa" cannot both leave the target in step. -/
theorem GY94_assign_not_inSync {M G F : Type} (ops : CodonModelOps M G F)
    (self x y : GY94 M)
    (hg : ops.getGeneticCode x.pmodel_ = ops.getGeneticCode y.pmodel_)
    (hf : ops.getFreq x.pmodel_ = ops.getFreq y.pmodel_)
    (hk : x.getParameterValue "kappa" ≠ y.getParameterValue "kappa") :
    ¬ ((GY94.assign ops self x).inSync ops ∧ (GY94.assign ops self y).inSync ops) := by
  rintro ⟨⟨-, -, h1, -⟩, ⟨-, -, h2, -⟩⟩
  apply hk
  have e : (GY94.assign ops self x).pmodel_ = (GY94.assign ops self y).pmodel_ := by
    simp only [GY94.assign, hg, hf]
  rw [e] at h1
  exact h1.symm.trans h2

/-- Claim C25, the code at the failing input. A `GY94` object is constructed (kappa = 1,
V = 10000) and its "kappa" is set to 2: the wrapped model follows. Assigning this object
to another one leaves the target with "kappa" = 2 while the "123_K80.kappa" of its
wrapped model is 1, the value the constructor of the wrapped model gives. -/
theorem GY94_assign_leaves_kappa :
    (∃ g, GY94.new exampleCodonOps 0 [1] = some g ∧ g.inSync exampleCodonOps)
    ∧ (∃ x target, exampleGY94 = some x ∧ GY94.new exampleCodonOps 0 [1] = some target
        ∧ x.inSync exampleCodonOps
        ∧ x.getParameterValue "kappa" = some 2
        ∧ (GY94.assign exampleCodonOps target x).getParameterValue "kappa" = some 2
        ∧ exampleCodonOps.getParameterValue (GY94.assign exampleCodonOps target x).pmodel_
            "123_K80.kappa" = some 1) := by
  refine ⟨⟨_, rfl, ?_⟩, ⟨_, _, rfl, rfl, ?_, ?_, ?_, ?_⟩⟩ <;> decide

theorem makeInitialConditionalLikelihoodTraced_fst (e : HomogeneousLikelihoodNodesHelper)
    (s : State) (sequenceName : String) :
    (e.makeInitialConditionalLikelihoodTraced s sequenceName).1
      = e.makeInitialConditionalLikelihood s sequenceName := by
  unfold HomogeneousLikelihoodNodesHelper.makeInitialConditionalLikelihoodTraced
    HomogeneousLikelihoodNodesHelper.makeInitialConditionalLikelihood
  cases e.sites.getSequencePosition sequenceName <;> rfl

theorem makeForwardLikelihoodNodeFromTraced_fst (e : HomogeneousLikelihoodNodesHelper)
    (lib : Library) (childT : State → Nat → Res NodeId × List Call)
    (child : State → Nat → Res NodeId) (hchild : ∀ s i, (childT s i).1 = child s i)
    (s : State) (index : Nat) :
    (e.makeForwardLikelihoodNodeFromTraced lib childT s index).1
      = e.makeForwardLikelihoodNodeFrom lib child s index := by
  unfold HomogeneousLikelihoodNodesHelper.makeForwardLikelihoodNodeFromTraced
    HomogeneousLikelihoodNodesHelper.makeForwardLikelihoodNodeFrom
  cases e.tree.getParameterIndex ("BrLen" ++ toString index) with
  | none => rfl
  | some k =>
    simp only
    rw [← hchild s (e.tree.getValue.getSon index)]
    rcases hA : childT s (e.tree.getValue.getSon index) with ⟨res, calls⟩
    cases res with
    | throw err sA => rfl
    | ok c sA =>
      simp only
      cases createNode lib .TransitionMatrixFromModel .MatrixXd sA
          [some e.model.node, dependency s.heap e.tree.node k]
          (some (transitionMatrixDimension e.nbState)) with
      | throw err sB => rfl
      | ok tm sB =>
        simp only
        cases createNode lib .ForwardLikelihoodFromConditional .MatrixXd sB
            [some tm, some c] (some e.likelihoodMatrixDim) <;> rfl

theorem forEachBranchTraced_fst (fT : State → Nat → Res NodeId × List Call)
    (f : State → Nat → Res NodeId) (hf : ∀ s b, (fT s b).1 = f s b) :
    ∀ (bs : List Nat) (s : State), (forEachBranchTraced fT s bs).1 = forEachBranch f s bs := by
  intro bs
  induction bs with
  | nil => intro s; rfl
  | cons b bs ih =>
    intro s
    simp only [forEachBranchTraced, forEachBranch]
    rw [← hf s b]
    rcases hA : fT s b with ⟨res, calls⟩
    cases res with
    | throw err sA => rfl
    | ok d sA =>
      simp only
      rw [← ih sA]
      rcases hB : forEachBranchTraced fT sA bs with ⟨res2, calls2⟩
      cases res2 <;> rfl

/-- The record of the calls is a ghost: the traced method returns what
`makeConditionalLikelihoodNode` returns and leaves the same state. -/
theorem makeConditionalLikelihoodNodeTraced_fst (e : HomogeneousLikelihoodNodesHelper)
    (lib : Library) :
    ∀ (fuel : Nat) (s : State) (index : Nat),
      (e.makeConditionalLikelihoodNodeTraced lib fuel s index).1
        = e.makeConditionalLikelihoodNode lib fuel s index := by
  intro fuel
  induction fuel with
  | zero => intro s index; rfl
  | succ fuel ih =>
    intro s index
    unfold HomogeneousLikelihoodNodesHelper.makeConditionalLikelihoodNodeTraced
      HomogeneousLikelihoodNodesHelper.makeConditionalLikelihoodNode
    by_cases hempty : (e.tree.getValue.getBranches index).isEmpty = true
    · simp only [hempty, if_true]
      rw [← makeInitialConditionalLikelihoodTraced_fst]
      rcases hA : e.makeInitialConditionalLikelihoodTraced s (e.tree.getValue.getName index)
        with ⟨res, calls⟩
      cases res <;> rfl
    · simp only [hempty]
      rw [← forEachBranchTraced_fst
        (fun s1 b => e.makeForwardLikelihoodNodeFromTraced lib
          (fun s2 i => e.makeConditionalLikelihoodNodeTraced lib fuel s2 i) s1 b)
        (fun s1 b => e.makeForwardLikelihoodNodeFrom lib
          (fun s2 i => e.makeConditionalLikelihoodNode lib fuel s2 i) s1 b)
        (fun s1 b => makeForwardLikelihoodNodeFromTraced_fst e lib _ _
          (fun s2 i => ih s2 i) s1 b)]
      rcases hA : forEachBranchTraced
          (fun s1 b => e.makeForwardLikelihoodNodeFromTraced lib
            (fun s2 i => e.makeConditionalLikelihoodNodeTraced lib fuel s2 i) s1 b)
          s (e.tree.getValue.getBranches index) with ⟨res, calls⟩
      cases res with
      | throw err sA => rfl
      | ok deps sA =>
        simp only
        cases createNode lib .ConditionalLikelihoodFromChildrenForward .MatrixXd sA deps
            (some e.likelihoodMatrixDim) <;> rfl

theorem forEachBranchTraced_calls (f : State → Nat → Res NodeId × List Call)
    (L : Nat → List Call) :
    ∀ (bs : List Nat),
      (∀ b ∈ bs, ∀ (s s1 : State) (d : NodeId) (calls : List Call),
        f s b = (.ok d s1, calls) → calls = L b) →
      ∀ (s s1 : State) (deps : NodeRefVec) (calls : List Call),
        forEachBranchTraced f s bs = (.ok deps s1, calls) → calls = bs.flatMap L := by
  intro bs
  induction bs with
  | nil =>
    intro _ s s1 deps calls h
    simp only [forEachBranchTraced, Prod.mk.injEq] at h
    rw [← h.2]
    rfl
  | cons b bs ih =>
    intro hf s s1 deps calls h
    simp only [forEachBranchTraced] at h
    rcases hA : f s b with ⟨res, callsA⟩
    rw [hA] at h
    cases res with
    | throw err sA => simp only [Prod.mk.injEq] at h; cases h.1
    | ok d sA =>
      simp only at h
      rcases hB : forEachBranchTraced f sA bs with ⟨res2, callsB⟩
      rw [hB] at h
      cases res2 with
      | throw err sB => simp only [Prod.mk.injEq] at h; cases h.1
      | ok ds sB =>
        simp only [Prod.mk.injEq] at h
        rw [← h.2, List.flatMap_cons,
          hf b (List.mem_cons_self _ _) s sA d callsA hA,
          ih (fun b1 hb1 => hf b1 (List.mem_cons_of_mem _ hb1)) sA sB ds callsB hB]

theorem makeForwardLikelihoodNodeFromTraced_calls (e : HomogeneousLikelihoodNodesHelper)
    (lib : Library) (child : State → Nat → Res NodeId × List Call) (L : List Call)
    (index : Nat)
    (hchild : ∀ (s s1 : State) (c : NodeId) (calls : List Call),
      child s (e.tree.getValue.getSon index) = (.ok c s1, calls) → calls = L)
    (s s1 : State) (r : NodeId) (calls : List Call)
    (h : e.makeForwardLikelihoodNodeFromTraced lib child s index = (.ok r s1, calls)) :
    calls = L ++ [.makeForwardLikelihoodNode index] := by
  unfold HomogeneousLikelihoodNodesHelper.makeForwardLikelihoodNodeFromTraced at h
  cases hk : e.tree.getParameterIndex ("BrLen" ++ toString index) with
  | none => rw [hk] at h; simp only [Prod.mk.injEq] at h; cases h.1
  | some k =>
    rw [hk] at h
    simp only at h
    rcases hA : child s (e.tree.getValue.getSon index) with ⟨res, callsA⟩
    rw [hA] at h
    cases res with
    | throw err sA => simp only [Prod.mk.injEq] at h; cases h.1
    | ok c sA =>
      simp only at h
      cases hB : createNode lib .TransitionMatrixFromModel .MatrixXd sA
          [some e.model.node, dependency s.heap e.tree.node k]
          (some (transitionMatrixDimension e.nbState)) with
      | throw err sB => rw [hB] at h; simp only [Prod.mk.injEq] at h; cases h.1
      | ok tm sB =>
        rw [hB] at h
        simp only at h
        cases hC : createNode lib .ForwardLikelihoodFromConditional .MatrixXd sB
            [some tm, some c] (some e.likelihoodMatrixDim) with
        | throw err sC => rw [hC] at h; simp only [Prod.mk.injEq] at h; cases h.1
        | ok r1 sC =>
          rw [hC] at h
          simp only [Prod.mk.injEq] at h
          rw [← h.2, hchild s sA c callsA hA]

/-- A traversal that returns was not cut, and its record is the post-order listing of the
subtree. -/
theorem makeConditionalLikelihoodNodeTraced_calls (e : HomogeneousLikelihoodNodesHelper)
    (lib : Library) :
    ∀ (fuel index : Nat) (s s1 : State) (r : NodeId) (calls : List Call),
      e.makeConditionalLikelihoodNodeTraced lib fuel s index = (.ok r s1, calls) →
      calls = e.postOrder fuel index := by
  intro fuel
  induction fuel with
  | zero =>
    intro index s s1 r calls h
    simp only [HomogeneousLikelihoodNodesHelper.makeConditionalLikelihoodNodeTraced,
      Prod.mk.injEq] at h
    cases h.1
  | succ fuel ih =>
    intro index s s1 r calls h
    unfold HomogeneousLikelihoodNodesHelper.makeConditionalLikelihoodNodeTraced at h
    unfold HomogeneousLikelihoodNodesHelper.postOrder
    by_cases hempty : (e.tree.getValue.getBranches index).isEmpty = true
    · simp only [hempty, if_true] at h ⊢
      unfold HomogeneousLikelihoodNodesHelper.makeInitialConditionalLikelihoodTraced at h
      cases hn : e.sites.getSequencePosition (e.tree.getValue.getName index) with
      | none => rw [hn] at h; simp only [Prod.mk.injEq] at h; cases h.1
      | some idx =>
        rw [hn] at h
        simp only [Prod.mk.injEq] at h
        rw [← h.2]
        rfl
    · simp only [hempty, Bool.false_eq_true, if_false] at h ⊢
      rcases hA : forEachBranchTraced
          (fun s1 b => e.makeForwardLikelihoodNodeFromTraced lib
            (fun s2 i => e.makeConditionalLikelihoodNodeTraced lib fuel s2 i) s1 b)
          s (e.tree.getValue.getBranches index) with ⟨res, callsA⟩
      rw [hA] at h
      cases res with
      | throw err sA => simp only [Prod.mk.injEq] at h; cases h.1
      | ok deps sA =>
        simp only at h
        cases hB : createNode lib .ConditionalLikelihoodFromChildrenForward .MatrixXd sA deps
            (some e.likelihoodMatrixDim) with
        | throw err sB => rw [hB] at h; simp only [Prod.mk.injEq] at h; cases h.1
        | ok r1 sB =>
          rw [hB] at h
          simp only [Prod.mk.injEq] at h
          rw [← h.2]
          congr 1
          exact forEachBranchTraced_calls _
            (fun b => e.postOrder fuel (e.tree.getValue.getSon b)
              ++ [.makeForwardLikelihoodNode b])
            (e.tree.getValue.getBranches index)
            (fun b _ s2 s3 d calls2 h2 =>
              makeForwardLikelihoodNodeFromTraced_calls e lib _ _ b
                (fun s4 s5 c calls3 h3 => ih _ s4 s5 c calls3 h3) s2 s3 d calls2 h2)
            s sA deps callsA hA

theorem forEachBranchTraced_congr (f g : State → Nat → Res NodeId × List Call) :
    ∀ (bs : List Nat), (∀ b ∈ bs, ∀ s, f s b = g s b) →
      ∀ s, forEachBranchTraced f s bs = forEachBranchTraced g s bs := by
  intro bs
  induction bs with
  | nil => intro _ s; rfl
  | cons b bs ih =>
    intro h s
    simp only [forEachBranchTraced]
    rw [h b (List.mem_cons_self _ _) s]
    rcases hA : g s b with ⟨res, calls⟩
    cases res with
    | throw err sA => rfl
    | ok d sA =>
      simp only
      rw [ih (fun b1 hb1 => h b1 (List.mem_cons_of_mem _ hb1)) sA]

theorem makeForwardLikelihoodNodeFromTraced_congr (e : HomogeneousLikelihoodNodesHelper)
    (lib : Library) (c1 c2 : State → Nat → Res NodeId × List Call) (index : Nat)
    (h : ∀ s, c1 s (e.tree.getValue.getSon index) = c2 s (e.tree.getValue.getSon index))
    (s : State) :
    e.makeForwardLikelihoodNodeFromTraced lib c1 s index
      = e.makeForwardLikelihoodNodeFromTraced lib c2 s index := by
  unfold HomogeneousLikelihoodNodesHelper.makeForwardLikelihoodNodeFromTraced
  rw [h s]

/-- The traversal terminates: once the bound exceeds the depth of the subtree, a larger
bound changes neither the result nor the record. -/
theorem makeConditionalLikelihoodNodeTraced_fuel (e : HomogeneousLikelihoodNodesHelper)
    (lib : Library) :
    ∀ (depth fuel index : Nat), e.depthWithin depth index = true → depth ≤ fuel →
      ∀ s, e.makeConditionalLikelihoodNodeTraced lib fuel s index
        = e.makeConditionalLikelihoodNodeTraced lib depth s index := by
  intro depth
  induction depth with
  | zero => intro fuel index h; cases h
  | succ depth ih =>
    intro fuel index h hle s
    cases fuel with
    | zero => omega
    | succ fuel =>
      unfold HomogeneousLikelihoodNodesHelper.depthWithin at h
      rw [List.all_eq_true] at h
      unfold HomogeneousLikelihoodNodesHelper.makeConditionalLikelihoodNodeTraced
      by_cases hempty : (e.tree.getValue.getBranches index).isEmpty = true
      · simp only [hempty, if_true]
      · simp only [hempty]
        rw [forEachBranchTraced_congr
          (fun s1 b => e.makeForwardLikelihoodNodeFromTraced lib
            (fun s2 i => e.makeConditionalLikelihoodNodeTraced lib fuel s2 i) s1 b)
          (fun s1 b => e.makeForwardLikelihoodNodeFromTraced lib
            (fun s2 i => e.makeConditionalLikelihoodNodeTraced lib depth s2 i) s1 b)
          (e.tree.getValue.getBranches index)
          (fun b hb s1 => makeForwardLikelihoodNodeFromTraced_congr e lib _ _ b
            (fun s2 => ih fuel _ (h b hb) (by omega) s2) s1)]

theorem filterMap_flatMap_calls {α β γ : Type} (g : β → Option γ) (f : α → List β)
    (l : List α) :
    (l.flatMap f).filterMap g = l.flatMap (fun a => (f a).filterMap g) := by
  induction l with
  | nil => rfl
  | cons a l ih => simp only [List.flatMap_cons, List.filterMap_append, ih]

theorem flatMap_congr_mem {α β : Type} (l : List α) (f g : α → List β)
    (h : ∀ a ∈ l, f a = g a) : l.flatMap f = l.flatMap g := by
  induction l with
  | nil => rfl
  | cons a l ih =>
    simp only [List.flatMap_cons]
    rw [h a (List.mem_cons_self _ _), ih (fun b hb => h b (List.mem_cons_of_mem _ hb))]

theorem sublist_flatMap_of_mem {α β : Type} (f : α → List β) {a : α} :
    ∀ (l : List α), a ∈ l → (f a).Sublist (l.flatMap f) := by
  intro l
  induction l with
  | nil => intro h; cases h
  | cons x l ih =>
    intro h
    simp only [List.flatMap_cons]
    rcases List.mem_cons.mp h with h1 | h1
    · subst h1
      exact List.sublist_append_left _ _
    · exact (ih h1).trans (List.sublist_append_right _ _)

theorem postOrder_branches (e : HomogeneousLikelihoodNodesHelper) :
    ∀ (depth index : Nat),
      (e.postOrder depth index).filterMap Call.branch? = e.branchesBelow depth index := by
  intro depth
  induction depth with
  | zero => intro index; rfl
  | succ depth ih =>
    intro index
    unfold HomogeneousLikelihoodNodesHelper.postOrder
      HomogeneousLikelihoodNodesHelper.branchesBelow
    by_cases hempty : (e.tree.getValue.getBranches index).isEmpty = true
    · rw [if_pos hempty]
      rw [List.isEmpty_iff] at hempty
      rw [hempty]
      rfl
    · rw [if_neg hempty, List.filterMap_append, filterMap_flatMap_calls]
      simp only [List.filterMap_append, ih, List.filterMap_cons, Call.branch?,
        List.filterMap_nil, List.append_nil]

theorem postOrder_names (e : HomogeneousLikelihoodNodesHelper) :
    ∀ (depth index : Nat),
      (e.postOrder depth index).filterMap Call.sequenceName?
        = (e.leavesBelow depth index).map e.tree.getValue.getName := by
  intro depth
  induction depth with
  | zero => intro index; rfl
  | succ depth ih =>
    intro index
    unfold HomogeneousLikelihoodNodesHelper.postOrder
      HomogeneousLikelihoodNodesHelper.leavesBelow
    by_cases hempty : (e.tree.getValue.getBranches index).isEmpty = true
    · rw [if_pos hempty, if_pos hempty]
      rfl
    · rw [if_neg hempty, if_neg hempty, List.filterMap_append, filterMap_flatMap_calls]
      simp only [List.filterMap_append, ih, List.filterMap_cons, Call.sequenceName?,
        List.filterMap_nil, List.append_nil, List.map_flatMap]

theorem count_makeForwardLikelihoodNode (b : Nat) (l : List Call) :
    l.count (.makeForwardLikelihoodNode b) = (l.filterMap Call.branch?).count b := by
  induction l with
  | nil => rfl
  | cons c l ih =>
    cases c with
    | makeForwardLikelihoodNode i =>
      simp only [List.filterMap_cons, Call.branch?, List.count_cons, ih, beq_iff_eq,
        Call.makeForwardLikelihoodNode.injEq]
    | makeInitialConditionalLikelihood n =>
      simp [List.filterMap_cons, Call.branch?, List.count_cons, ih]
    | makeConditionalLikelihoodNode i =>
      simp [List.filterMap_cons, Call.branch?, List.count_cons, ih]

theorem postOrder_last (e : HomogeneousLikelihoodNodesHelper) (depth index : Nat) :
    ∃ init, e.postOrder (depth + 1) index = init ++ [.makeConditionalLikelihoodNode index] := by
  unfold HomogeneousLikelihoodNodesHelper.postOrder
  by_cases hempty : (e.tree.getValue.getBranches index).isEmpty = true
  · rw [if_pos hempty]
    exact ⟨[.makeInitialConditionalLikelihood (e.tree.getValue.getName index)], rfl⟩
  · rw [if_neg hempty]
    exact ⟨_, rfl⟩

/-- In the post-order listing of a subtree of bounded depth, the node of the child of a
branch comes before the branch, and the branch before the node it hangs from. -/
theorem postOrder_order (e : HomogeneousLikelihoodNodesHelper) :
    ∀ (depth index : Nat), e.depthWithin depth index = true →
      ∀ i ∈ e.nodesBelow depth index, ∀ b ∈ e.tree.getValue.getBranches i,
        List.Sublist [Call.makeConditionalLikelihoodNode (e.tree.getValue.getSon b),
          Call.makeForwardLikelihoodNode b, Call.makeConditionalLikelihoodNode i]
          (e.postOrder depth index) := by
  intro depth
  induction depth with
  | zero => intro index h; cases h
  | succ depth ih =>
    intro index h i hi b hb
    unfold HomogeneousLikelihoodNodesHelper.depthWithin at h
    rw [List.all_eq_true] at h
    unfold HomogeneousLikelihoodNodesHelper.nodesBelow at hi
    unfold HomogeneousLikelihoodNodesHelper.postOrder
    rcases List.mem_cons.mp hi with hi1 | hi1
    · subst hi1
      have hempty : ¬ (e.tree.getValue.getBranches i).isEmpty = true := by
        rw [List.isEmpty_iff]
        intro hnil
        rw [hnil] at hb
        cases hb
      rw [if_neg hempty]
      have hd := h b hb
      cases depth with
      | zero => cases hd
      | succ depth =>
        obtain ⟨init, hinit⟩ := postOrder_last e depth (e.tree.getValue.getSon b)
        have h1 : List.Sublist [Call.makeConditionalLikelihoodNode (e.tree.getValue.getSon b),
            Call.makeForwardLikelihoodNode b]
            (e.postOrder (depth + 1) (e.tree.getValue.getSon b)
              ++ [Call.makeForwardLikelihoodNode b]) := by
          rw [hinit, List.append_assoc]
          exact List.sublist_append_right _ _
        have h2 := h1.trans (sublist_flatMap_of_mem
          (fun b => e.postOrder (depth + 1) (e.tree.getValue.getSon b)
            ++ [Call.makeForwardLikelihoodNode b]) _ hb)
        exact List.Sublist.append h2 (List.Sublist.refl [Call.makeConditionalLikelihoodNode i])
    · rw [List.mem_flatMap] at hi1
      obtain ⟨b1, hb1, hi2⟩ := hi1
      have hempty : ¬ (e.tree.getValue.getBranches index).isEmpty = true := by
        rw [List.isEmpty_iff]
        intro hnil
        rw [hnil] at hb1
        cases hb1
      rw [if_neg hempty]
      have h1 := ih _ (h b1 hb1) i hi2 b hb
      have h2 := (h1.trans (List.sublist_append_left _ [Call.makeForwardLikelihoodNode b1])).trans
        (sublist_flatMap_of_mem
          (fun b => e.postOrder depth (e.tree.getValue.getSon b)
            ++ [Call.makeForwardLikelihoodNode b]) _ hb1)
      exact h2.trans (List.sublist_append_left _ _)

/-- A traversal that returns was not cut: its bound exceeds the depth of the subtree. -/
theorem makeConditionalLikelihoodNode_depthWithin (e : HomogeneousLikelihoodNodesHelper)
    (lib : Library) :
    ∀ (fuel index : Nat) (s : State),
      (e.makeConditionalLikelihoodNode lib fuel s index).isOk = true →
      e.depthWithin fuel index = true := by
  intro fuel
  induction fuel with
  | zero => intro index s h; cases h
  | succ fuel ih =>
    intro index s h
    unfold HomogeneousLikelihoodNodesHelper.depthWithin
    rw [List.all_eq_true]
    intro b hb
    by_contra hcon
    have hempty : ¬ (e.tree.getValue.getBranches index).isEmpty = true := by
      rw [List.isEmpty_iff]
      intro hnil
      rw [hnil] at hb
      cases hb
    unfold HomogeneousLikelihoodNodesHelper.makeConditionalLikelihoodNode at h
    simp only [hempty, Bool.false_eq_true, if_false] at h
    have hfail := forEachBranch_fails
      (fun s1 b => e.makeForwardLikelihoodNodeFrom lib
        (fun s2 i => e.makeConditionalLikelihoodNode lib fuel s2 i) s1 b)
      (makeForwardLikelihoodNodeFrom_fails e lib _ b (fun s1 => by
        cases hA : e.makeConditionalLikelihoodNode lib fuel s1 (e.tree.getValue.getSon b) with
        | throw err sA => rfl
        | ok c sA =>
          exfalso
          apply hcon
          apply ih _ s1
          rw [hA]
          rfl))
      (e.tree.getValue.getBranches index) hb s
    cases hA : forEachBranch
        (fun s1 b => e.makeForwardLikelihoodNodeFrom lib
          (fun s2 i => e.makeConditionalLikelihoodNode lib fuel s2 i) s1 b)
        s (e.tree.getValue.getBranches index) with
    | throw err sA => rw [hA] at h; cases h
    | ok deps sA => rw [hA] at hfail; cases hfail

/-- Claim C23. The record of calls kept by `makeConditionalLikelihoodNodeTraced` is a
ghost: the traced method returns what `makeConditionalLikelihoodNode` returns. The
traversal of a finite subtree terminates: once the bound exceeds the depth of the subtree
below `index`, a larger bound changes neither the result nor the record, and the result is
not a cut traversal. When the traversal returns, it was not cut; the calls of
`makeForwardLikelihoodNode` it recorded are the branches below `index`, each exactly once
when no branch is reached twice; the calls of `makeInitialConditionalLikelihood` are the
names of the leaves below `index`, one call per leaf in their order; and for every branch
`b` below a node `i` of the subtree, the node of the child of `b` is built before the
forward node of `b`, itself built before the node of `i`. -/
theorem makeConditionalLikelihoodNode_single_pass (e : HomogeneousLikelihoodNodesHelper)
    (lib : Library) (depth fuel : Nat) (s : State) (index : Nat) :
    (e.makeConditionalLikelihoodNodeTraced lib fuel s index).1
      = e.makeConditionalLikelihoodNode lib fuel s index
    ∧ (e.depthWithin depth index = true → depth ≤ fuel →
        e.makeConditionalLikelihoodNode lib fuel s index
          = e.makeConditionalLikelihoodNode lib depth s index
        ∧ (e.makeConditionalLikelihoodNodeTraced lib fuel s index).2
          = (e.makeConditionalLikelihoodNodeTraced lib depth s index).2
        ∧ (lib.ThrowsProgramErrors →
            (e.makeConditionalLikelihoodNode lib fuel s index).error? ≠ some .RecursionLimit))
    ∧ ((e.makeConditionalLikelihoodNode lib fuel s index).isOk = true →
        e.depthWithin fuel index = true
        ∧ (e.makeConditionalLikelihoodNodeTraced lib fuel s index).2.filterMap Call.branch?
          = e.branchesBelow fuel index
        ∧ ((e.branchesBelow fuel index).Nodup → ∀ b ∈ e.branchesBelow fuel index,
            (e.makeConditionalLikelihoodNodeTraced lib fuel s index).2.count
              (.makeForwardLikelihoodNode b) = 1)
        ∧ (e.makeConditionalLikelihoodNodeTraced lib fuel s index).2.filterMap
            Call.sequenceName?
          = (e.leavesBelow fuel index).map e.tree.getValue.getName
        ∧ ∀ i ∈ e.nodesBelow fuel index, ∀ b ∈ e.tree.getValue.getBranches i,
            List.Sublist [Call.makeConditionalLikelihoodNode (e.tree.getValue.getSon b),
              Call.makeForwardLikelihoodNode b, Call.makeConditionalLikelihoodNode i]
              (e.makeConditionalLikelihoodNodeTraced lib fuel s index).2) := by
  refine ⟨makeConditionalLikelihoodNodeTraced_fst e lib fuel s index, ?_, ?_⟩
  · intro hd hle
    have hT := makeConditionalLikelihoodNodeTraced_fuel e lib depth fuel index hd hle s
    refine ⟨?_, by rw [hT], fun hl => ?_⟩
    · rw [← makeConditionalLikelihoodNodeTraced_fst, ← makeConditionalLikelihoodNodeTraced_fst,
        hT]
    · rw [← makeConditionalLikelihoodNodeTraced_fst, hT,
        makeConditionalLikelihoodNodeTraced_fst]
      exact makeConditionalLikelihoodNode_error e hl depth index hd s
  · intro hok
    have hd := makeConditionalLikelihoodNode_depthWithin e lib fuel index s hok
    rw [← makeConditionalLikelihoodNodeTraced_fst] at hok
    rcases hA : e.makeConditionalLikelihoodNodeTraced lib fuel s index with ⟨res, calls⟩
    rw [hA] at hok
    cases res with
    | throw err sA => cases hok
    | ok r sA =>
      have hc := makeConditionalLikelihoodNodeTraced_calls e lib fuel index s sA r calls hA
      simp only
      rw [hc]
      refine ⟨hd, postOrder_branches e fuel index, ?_, postOrder_names e fuel index,
        postOrder_order e fuel index hd⟩
      intro hnd b hb
      rw [count_makeForwardLikelihoodNode, postOrder_branches]
      exact List.count_eq_one_of_mem hnd hb

theorem makeConditionalLikelihoodNode_single_pass_witness :
    (exampleHelper.makeConditionalLikelihoodNodeTraced exampleLibrary 5 exampleTreeState 0).1
      = exampleHelper.makeConditionalLikelihoodNode exampleLibrary 5 exampleTreeState 0
    ∧ (exampleHelper.makeConditionalLikelihoodNode exampleLibrary 5 exampleTreeState 0
          = exampleHelper.makeConditionalLikelihoodNode exampleLibrary 2 exampleTreeState 0
        ∧ (exampleHelper.makeConditionalLikelihoodNodeTraced exampleLibrary 5 exampleTreeState
            0).2
          = (exampleHelper.makeConditionalLikelihoodNodeTraced exampleLibrary 2
            exampleTreeState 0).2
        ∧ (exampleHelper.makeConditionalLikelihoodNode exampleLibrary 5 exampleTreeState
            0).error? ≠ some .RecursionLimit)
    ∧ (exampleHelper.depthWithin 5 0 = true
        ∧ (exampleHelper.makeConditionalLikelihoodNodeTraced exampleLibrary 5 exampleTreeState
            0).2.filterMap Call.branch? = exampleHelper.branchesBelow 5 0
        ∧ (∀ b ∈ exampleHelper.branchesBelow 5 0,
            (exampleHelper.makeConditionalLikelihoodNodeTraced exampleLibrary 5
              exampleTreeState 0).2.count (.makeForwardLikelihoodNode b) = 1)
        ∧ (exampleHelper.makeConditionalLikelihoodNodeTraced exampleLibrary 5 exampleTreeState
            0).2.filterMap Call.sequenceName?
          = (exampleHelper.leavesBelow 5 0).map exampleHelper.tree.getValue.getName
        ∧ ∀ i ∈ exampleHelper.nodesBelow 5 0,
            ∀ b ∈ exampleHelper.tree.getValue.getBranches i,
            List.Sublist [Call.makeConditionalLikelihoodNode
                (exampleHelper.tree.getValue.getSon b),
              Call.makeForwardLikelihoodNode b, Call.makeConditionalLikelihoodNode i]
              (exampleHelper.makeConditionalLikelihoodNodeTraced exampleLibrary 5
                exampleTreeState 0).2) :=
  ⟨(makeConditionalLikelihoodNode_single_pass exampleHelper exampleLibrary 2 5
      exampleTreeState 0).1,
    ⟨((makeConditionalLikelihoodNode_single_pass exampleHelper exampleLibrary 2 5
        exampleTreeState 0).2.1 (by decide) (by decide)).1,
      ((makeConditionalLikelihoodNode_single_pass exampleHelper exampleLibrary 2 5
        exampleTreeState 0).2.1 (by decide) (by decide)).2.1,
      ((makeConditionalLikelihoodNode_single_pass exampleHelper exampleLibrary 2 5
        exampleTreeState 0).2.1 (by decide) (by decide)).2.2
        (fun _ _ _ _ h => by cases h)⟩,
    ⟨((makeConditionalLikelihoodNode_single_pass exampleHelper exampleLibrary 2 5
        exampleTreeState 0).2.2 (by decide)).1,
      ((makeConditionalLikelihoodNode_single_pass exampleHelper exampleLibrary 2 5
        exampleTreeState 0).2.2 (by decide)).2.1,
      ((makeConditionalLikelihoodNode_single_pass exampleHelper exampleLibrary 2 5
        exampleTreeState 0).2.2 (by decide)).2.2.1 (by decide),
      ((makeConditionalLikelihoodNode_single_pass exampleHelper exampleLibrary 2 5
        exampleTreeState 0).2.2 (by decide)).2.2.2.1,
      ((makeConditionalLikelihoodNode_single_pass exampleHelper exampleLibrary 2 5
        exampleTreeState 0).2.2 (by decide)).2.2.2.2⟩⟩

theorem hiddenPaths_length (n : Nat) : ∀ m, (hiddenPaths n m).length = n ^ m := by
  intro m
  induction m with
  | zero => rfl
  | succ m ih =>
    have h : (List.map (fun i => ((hiddenPaths n m).map (fun p => i :: p)).length)
        (List.range n)) = List.replicate n (n ^ m) := by
      simp only [List.length_map, ih, List.map_const', List.length_range]
    rw [hiddenPaths, List.length_flatMap]
    show (List.map (fun i => ((hiddenPaths n m).map (fun p => i :: p)).length)
      (List.range n)).sum = _
    rw [h, List.sum_replicate, smul_eq_mul, pow_succ, mul_comm]

theorem list_sum_range_eq_finset_rat (f : Nat → ℚ) (n : Nat) :
    ((List.range n).map f).sum = ∑ i in Finset.range n, f i := by
  induction n with
  | zero => simp
  | succ k ih =>
    rw [List.range_succ, List.map_append, List.sum_append, ih, Finset.sum_range_succ]
    simp

theorem list_sum_flatMap_map {α β : Type} (l : List α) (f : α → List β) (g : β → ℚ) :
    ((l.flatMap f).map g).sum = (l.map (fun a => ((f a).map g).sum)).sum := by
  induction l with
  | nil => rfl
  | cons a l ih => simp only [List.flatMap_cons, List.map_append, List.sum_append, ih,
      List.map_cons, List.sum_cons]

theorem list_sum_finset_comm {α : Type} (l : List α) (n : Nat) (f : α → Nat → ℚ) :
    (l.map (fun a => ∑ k in Finset.range n, f a k)).sum
      = ∑ k in Finset.range n, (l.map (fun a => f a k)).sum := by
  induction l with
  | nil => simp
  | cons a l ih =>
    simp only [List.map_cons, List.sum_cons, ih, Finset.sum_add_distrib]

/-- Sum over the continuations of length `r` of a chain that has reached site `site - 1`
with weight `v k` for state `k`. -/
theorem continuation_sum (n : Nat) (trans : Nat → Nat → ℚ) (emis : Nat → Nat → ℚ) :
    ∀ (r site : Nat) (v : Nat → ℚ),
      ((hiddenPaths n (r + 1)).map (fun ys =>
        ∑ k in Finset.range n, v k * pathLikelihoodFrom trans emis k site ys)).sum
      = ((hiddenPaths n r).map (fun ys =>
        ∑ i in Finset.range n, ((∑ k in Finset.range n, v k * trans k i) * emis i site)
          * pathLikelihoodFrom trans emis i (site + 1) ys)).sum := by
  intro r site v
  rw [hiddenPaths, list_sum_flatMap_map, list_sum_range_eq_finset_rat,
    list_sum_finset_comm]
  refine Finset.sum_congr rfl (fun i _ => ?_)
  rw [List.map_map]
  congr 1
  refine List.map_congr_left (fun ys _ => ?_)
  simp only [Function.comp, pathLikelihoodFrom]
  rw [Finset.sum_mul, Finset.sum_mul]
  refine Finset.sum_congr rfl (fun k _ => ?_)
  ring

theorem continuation_sum_forwardJoint (n : Nat) (start : Nat → ℚ) (trans : Nat → Nat → ℚ)
    (emis : Nat → Nat → ℚ) :
    ∀ (r j : Nat),
      ((hiddenPaths n r).map (fun ys =>
        ∑ k in Finset.range n, forwardJoint n start trans emis j k
          * pathLikelihoodFrom trans emis k (j + 1) ys)).sum
      = ∑ i in Finset.range n, forwardJoint n start trans emis (j + r) i := by
  intro r
  induction r with
  | zero =>
    intro j
    simp [hiddenPaths, pathLikelihoodFrom]
  | succ r ih =>
    intro j
    rw [continuation_sum n trans emis r (j + 1) (forwardJoint n start trans emis j)]
    have h := ih (j + 1)
    have e : j + (r + 1) = j + 1 + r := by omega
    rw [e, ← h]
    rfl

/-- The forward variables of the last site add up to the brute-force likelihood. -/
theorem sum_forwardJoint_eq_bruteForce (n : Nat) (start : Nat → ℚ) (trans : Nat → Nat → ℚ)
    (emis : Nat → Nat → ℚ) (j : Nat) :
    ∑ i in Finset.range n, forwardJoint n start trans emis j i
      = bruteForceLikelihood n (j + 1) start trans emis := by
  have h := continuation_sum_forwardJoint n start trans emis j 0
  simp only [Nat.zero_add] at h
  rw [← h, bruteForceLikelihood, hiddenPaths, list_sum_flatMap_map,
    list_sum_range_eq_finset_rat, list_sum_finset_comm]
  refine Finset.sum_congr rfl (fun i _ => ?_)
  rw [List.map_map]
  congr 1

theorem getD_map_range (f : Nat → ℚ) {n i : Nat} (h : i < n) :
    ((List.range n).map f).getD i 0 = f i := by
  simp [List.getD_eq_getElem?_getD, List.getElem?_map, List.getElem?_range h]

theorem forwardJoint_pos (n m : Nat) (start : Nat → ℚ) (trans : Nat → Nat → ℚ)
    (emis : Nat → Nat → ℚ) (hn : 0 < n) (hs : ∀ i < n, 0 < start i)
    (ht : ∀ k < n, ∀ i < n, 0 < trans k i) (he : ∀ i < n, ∀ j < m, 0 < emis i j) :
    ∀ j < m, ∀ i < n, 0 < forwardJoint n start trans emis j i := by
  intro j
  induction j with
  | zero =>
    intro hj i hi
    exact mul_pos (hs i hi) (he i hi 0 hj)
  | succ j ih =>
    intro hj i hi
    have hj1 : j < m := by omega
    unfold forwardJoint
    refine mul_pos ?_ (he i hi (j + 1) hj)
    refine Finset.sum_pos (fun k hk => ?_) ⟨0, Finset.mem_range.mpr hn⟩
    exact mul_pos (ih hj1 k (Finset.mem_range.mp hk)) (ht k (Finset.mem_range.mp hk) i hi)

/-- The forward recursion with normalization against the forward variables: after site
`j`, the column `condLik[:, j]` times the product of the normalization constants so far
is the forward variable, and this product is the sum of the forward variables of the
site. -/
theorem forward_invariant (n m : Nat) (start : Nat → ℚ) (trans : Nat → Nat → ℚ)
    (emis : Nat → Nat → ℚ) (hn : 0 < n) (hs : ∀ i < n, 0 < start i)
    (ht : ∀ k < n, ∀ i < n, 0 < trans k i) (he : ∀ i < n, ∀ j < m, 0 < emis i j) :
    ∀ j < m,
      (∀ i < n, (ForwardHmmLikelihood_DF.forward n start trans emis j).1.getD i 0
          * (∏ l in Finset.range (j + 1),
              (ForwardHmmLikelihood_DF.forward n start trans emis l).2)
          = forwardJoint n start trans emis j i)
      ∧ ∏ l in Finset.range (j + 1), (ForwardHmmLikelihood_DF.forward n start trans emis l).2
          = ∑ i in Finset.range n, forwardJoint n start trans emis j i := by
  have hpos := forwardJoint_pos n m start trans emis hn hs ht he
  have hsum_pos : ∀ j < m, 0 < ∑ i in Finset.range n, forwardJoint n start trans emis j i :=
    fun j hj => Finset.sum_pos (fun i hi => hpos j hj i (Finset.mem_range.mp hi))
      ⟨0, Finset.mem_range.mpr hn⟩
  intro j
  induction j with
  | zero =>
    intro hj
    have hscale : (ForwardHmmLikelihood_DF.forward n start trans emis 0).2
        = ∑ i in Finset.range n, forwardJoint n start trans emis 0 i := by
      simp only [ForwardHmmLikelihood_DF.forward, list_sum_range_eq_finset_rat, forwardJoint]
    have hne : (ForwardHmmLikelihood_DF.forward n start trans emis 0).2 ≠ 0 := by
      rw [hscale]
      exact ne_of_gt (hsum_pos 0 hj)
    refine ⟨fun i hi => ?_, ?_⟩
    · rw [Finset.prod_range_one]
      have hcl : (ForwardHmmLikelihood_DF.forward n start trans emis 0).1.getD i 0
          = forwardJoint n start trans emis 0 i
            / (ForwardHmmLikelihood_DF.forward n start trans emis 0).2 := by
        simp only [ForwardHmmLikelihood_DF.forward, forwardJoint]
        rw [getD_map_range _ hi]
      rw [hcl, div_mul_cancel₀ _ hne]
    · rw [Finset.prod_range_one, hscale]
  | succ j ih =>
    intro hj
    have hj1 : j < m := by omega
    obtain ⟨ihcl, ihC⟩ := ih hj1
    have hC : ∏ l in Finset.range (j + 1),
        (ForwardHmmLikelihood_DF.forward n start trans emis l).2 ≠ 0 := by
      rw [ihC]
      exact ne_of_gt (hsum_pos j hj1)
    have hu : ∀ i < n,
        (((List.range n).map (fun i => ((List.range n).map (fun k => trans k i
            * (ForwardHmmLikelihood_DF.forward n start trans emis j).1.getD k 0)).sum)).getD
              i 0 * emis i (j + 1))
          * (∏ l in Finset.range (j + 1),
              (ForwardHmmLikelihood_DF.forward n start trans emis l).2)
          = forwardJoint n start trans emis (j + 1) i := by
      intro i hi
      rw [getD_map_range _ hi, list_sum_range_eq_finset_rat]
      rw [mul_right_comm, Finset.sum_mul]
      show _ = (∑ k in Finset.range n, forwardJoint n start trans emis j k * trans k i)
        * emis i (j + 1)
      congr 1
      refine Finset.sum_congr rfl (fun k hk => ?_)
      rw [mul_assoc, ihcl k (Finset.mem_range.mp hk), mul_comm]
    have hscale : (ForwardHmmLikelihood_DF.forward n start trans emis (j + 1)).2
        * (∏ l in Finset.range (j + 1),
            (ForwardHmmLikelihood_DF.forward n start trans emis l).2)
        = ∑ i in Finset.range n, forwardJoint n start trans emis (j + 1) i := by
      simp only [ForwardHmmLikelihood_DF.forward]
      rw [list_sum_range_eq_finset_rat, Finset.sum_mul]
      exact Finset.sum_congr rfl (fun i hi => hu i (Finset.mem_range.mp hi))
    have hne : (ForwardHmmLikelihood_DF.forward n start trans emis (j + 1)).2 ≠ 0 := by
      intro h0
      rw [h0, zero_mul] at hscale
      exact absurd hscale.symm (ne_of_gt (hsum_pos (j + 1) hj))
    refine ⟨fun i hi => ?_, ?_⟩
    · rw [Finset.prod_range_succ]
      have hcl : (ForwardHmmLikelihood_DF.forward n start trans emis (j + 1)).1.getD i 0
          = (((List.range n).map (fun i => ((List.range n).map (fun k => trans k i
              * (ForwardHmmLikelihood_DF.forward n start trans emis j).1.getD k 0)).sum)).getD
                i 0 * emis i (j + 1))
            / (ForwardHmmLikelihood_DF.forward n start trans emis (j + 1)).2 := by
        simp only [ForwardHmmLikelihood_DF.forward]
        rw [getD_map_range _ hi]
      rw [hcl, ← hu i hi]
      field_simp
      ring
    · rw [Finset.prod_range_succ, mul_comm, hscale]

theorem entry_dense_one (m : Nat) (l : List ℚ) {j : Nat} (hj : j < m) :
    (Val.dense 1 m l).entry 0 j = (l[j]?).getD 0 := by
  simp [Val.entry, Val.coeff, hj]

theorem ForwardHmmLikelihood_DF_compute_entry (dim : Dimension) (hmmEq hmmTrans hmmEmis : Val)
    {j : Nat} (hj : j < dim.cols) :
    (ForwardHmmLikelihood_DF.compute dim hmmEq hmmTrans hmmEmis).entry 0 j
      = (ForwardHmmLikelihood_DF.forward dim.rows (fun i => hmmEq.entry i 0)
          (fun k i => hmmTrans.entry k i) (fun i j => hmmEmis.entry i j) j).2 := by
  unfold ForwardHmmLikelihood_DF.compute
  rw [entry_dense_one _ _ hj]
  simp [List.getElem?_map, List.getElem?_range hj]

/-- The product of the normalization constants of the sites before `j` is the
brute-force likelihood of these sites. -/
theorem prod_scale_eq_bruteForce (n m : Nat) (start : Nat → ℚ) (trans : Nat → Nat → ℚ)
    (emis : Nat → Nat → ℚ) (hn : 0 < n) (hs : ∀ i < n, 0 < start i)
    (ht : ∀ k < n, ∀ i < n, 0 < trans k i) (he : ∀ i < n, ∀ j < m, 0 < emis i j) :
    ∀ j ≤ m, ∏ l in Finset.range j, (ForwardHmmLikelihood_DF.forward n start trans emis l).2
        = bruteForceLikelihood n j start trans emis
      ∧ 0 < bruteForceLikelihood n j start trans emis := by
  intro j hj
  cases j with
  | zero =>
    simp [bruteForceLikelihood, hiddenPaths, pathLikelihood]
  | succ j =>
    have hj1 : j < m := by omega
    obtain ⟨-, h⟩ := forward_invariant n m start trans emis hn hs ht he j hj1
    rw [h, sum_forwardJoint_eq_bruteForce]
    refine ⟨rfl, ?_⟩
    rw [← sum_forwardJoint_eq_bruteForce]
    exact Finset.sum_pos
      (fun i hi => forwardJoint_pos n m start trans emis hn hs ht he j hj1 i
        (Finset.mem_range.mp hi)) ⟨0, Finset.mem_range.mpr hn⟩

/-- Claim C21. For a chain with n = `dim.rows` hidden states and m = `dim.cols` sites
whose starting vector, transition matrix and emission matrix have positive entries, the
value computed by `ForwardHmmLikelihood_DF` holds at site j the conditional likelihood of
the site: the brute-force likelihood of the sites 0..j divided by the one of the sites
before j; and the sum over the sites of the logarithms of the value is the logarithm of
the brute-force sum over all n ^ m paths of hidden states of start * transitions *
emissions, in exact real arithmetic. -/
theorem ForwardHmmLikelihood_DF_compute_correct (dim : Dimension)
    (hmmEq hmmTrans hmmEmis : Val) (hn : 0 < dim.rows)
    (hs : ∀ i < dim.rows, 0 < hmmEq.entry i 0)
    (ht : ∀ k < dim.rows, ∀ i < dim.rows, 0 < hmmTrans.entry k i)
    (he : ∀ i < dim.rows, ∀ j < dim.cols, 0 < hmmEmis.entry i j) :
    (hiddenPaths dim.rows dim.cols).length = dim.rows ^ dim.cols
    ∧ (∀ j < dim.cols,
        0 < bruteForceLikelihood dim.rows j (fun i => hmmEq.entry i 0)
          (fun k i => hmmTrans.entry k i) (fun i j => hmmEmis.entry i j)
        ∧ (ForwardHmmLikelihood_DF.compute dim hmmEq hmmTrans hmmEmis).entry 0 j
            * bruteForceLikelihood dim.rows j (fun i => hmmEq.entry i 0)
              (fun k i => hmmTrans.entry k i) (fun i j => hmmEmis.entry i j)
          = bruteForceLikelihood dim.rows (j + 1) (fun i => hmmEq.entry i 0)
              (fun k i => hmmTrans.entry k i) (fun i j => hmmEmis.entry i j))
    ∧ ∑ j in Finset.range dim.cols,
        Real.log (((ForwardHmmLikelihood_DF.compute dim hmmEq hmmTrans hmmEmis).entry 0 j : ℚ) : ℝ)
      = Real.log ((bruteForceLikelihood dim.rows dim.cols (fun i => hmmEq.entry i 0)
          (fun k i => hmmTrans.entry k i) (fun i j => hmmEmis.entry i j) : ℚ) : ℝ) := by
  have hP := prod_scale_eq_bruteForce dim.rows dim.cols (fun i => hmmEq.entry i 0)
    (fun k i => hmmTrans.entry k i) (fun i j => hmmEmis.entry i j) hn hs ht he
  have hstep : ∀ j < dim.cols,
      (ForwardHmmLikelihood_DF.compute dim hmmEq hmmTrans hmmEmis).entry 0 j
        * bruteForceLikelihood dim.rows j (fun i => hmmEq.entry i 0)
          (fun k i => hmmTrans.entry k i) (fun i j => hmmEmis.entry i j)
      = bruteForceLikelihood dim.rows (j + 1) (fun i => hmmEq.entry i 0)
          (fun k i => hmmTrans.entry k i) (fun i j => hmmEmis.entry i j) := by
    intro j hj
    rw [ForwardHmmLikelihood_DF_compute_entry dim hmmEq hmmTrans hmmEmis hj,
      ← (hP j (le_of_lt hj)).1, ← (hP (j + 1) hj).1, Finset.prod_range_succ, mul_comm]
  refine ⟨hiddenPaths_length _ _, fun j hj => ⟨(hP j (le_of_lt hj)).2, hstep j hj⟩, ?_⟩
  have hne : ∀ j ∈ Finset.range dim.cols,
      (((ForwardHmmLikelihood_DF.compute dim hmmEq hmmTrans hmmEmis).entry 0 j : ℚ) : ℝ)
        ≠ 0 := by
    intro j hj
    have hj1 := Finset.mem_range.mp hj
    have h1 := hstep j hj1
    have h2 := (hP (j + 1) hj1).2
    intro h0
    rw [Rat.cast_eq_zero] at h0
    rw [h0, zero_mul] at h1
    rw [← h1] at h2
    exact lt_irrefl _ h2
  rw [← Real.log_prod _ _ hne, ← Rat.cast_prod]
  congr 2
  rw [← (hP dim.cols (le_refl _)).1]
  exact Finset.prod_congr rfl (fun j hj =>
    ForwardHmmLikelihood_DF_compute_entry dim hmmEq hmmTrans hmmEmis (Finset.mem_range.mp hj))

theorem ForwardHmmLikelihood_DF_compute_correct_witness :
    0 < (⟨2, 3⟩ : Dimension).rows
    ∧ (∀ i < (⟨2, 3⟩ : Dimension).rows, 0 < examplePositiveStart.entry i 0)
    ∧ (∀ k < (⟨2, 3⟩ : Dimension).rows, ∀ i < (⟨2, 3⟩ : Dimension).rows,
        0 < examplePositiveTransitions.entry k i)
    ∧ (∀ i < (⟨2, 3⟩ : Dimension).rows, ∀ j < (⟨2, 3⟩ : Dimension).cols,
        0 < examplePositiveEmissions.entry i j)
    ∧ (hiddenPaths 2 3).length = 2 ^ 3
    ∧ (∀ j < 3,
        0 < bruteForceLikelihood 2 j (fun i => examplePositiveStart.entry i 0)
          (fun k i => examplePositiveTransitions.entry k i)
          (fun i j => examplePositiveEmissions.entry i j)
        ∧ (ForwardHmmLikelihood_DF.compute ⟨2, 3⟩ examplePositiveStart
            examplePositiveTransitions examplePositiveEmissions).entry 0 j
            * bruteForceLikelihood 2 j (fun i => examplePositiveStart.entry i 0)
              (fun k i => examplePositiveTransitions.entry k i)
              (fun i j => examplePositiveEmissions.entry i j)
          = bruteForceLikelihood 2 (j + 1) (fun i => examplePositiveStart.entry i 0)
              (fun k i => examplePositiveTransitions.entry k i)
              (fun i j => examplePositiveEmissions.entry i j))
    ∧ ∑ j in Finset.range 3,
        Real.log (((ForwardHmmLikelihood_DF.compute ⟨2, 3⟩ examplePositiveStart
          examplePositiveTransitions examplePositiveEmissions).entry 0 j : ℚ) : ℝ)
      = Real.log ((bruteForceLikelihood 2 3 (fun i => examplePositiveStart.entry i 0)
          (fun k i => examplePositiveTransitions.entry k i)
          (fun i j => examplePositiveEmissions.entry i j) : ℚ) : ℝ) :=
  ⟨by decide, by decide, by decide, by decide,
    ForwardHmmLikelihood_DF_compute_correct ⟨2, 3⟩ examplePositiveStart
      examplePositiveTransitions examplePositiveEmissions (by decide) (by decide) (by decide)
      (by decide)⟩

/-- A node returned by `CondLikelihood::create` is an allocated node of the class with
the dependencies given. -/
theorem CondLikelihood_create_result {s : State} {deps : NodeRefVec} {dim : Dimension}
    {r : NodeId} (hr : (CondLikelihood.create s deps dim).value? = some r) :
    classAndDeps (CondLikelihood.create s deps dim).state.heap r
      = some (.CondLikelihood, deps) := by
  unfold CondLikelihood.create at hr ⊢
  cases hck : CondLikelihood.checks s.heap deps with
  | error e => rw [hck] at hr; cases hr
  | ok u =>
    rw [hck] at hr
    simp only [Res.value?, Res.state, Option.some.injEq] at hr ⊢
    subst hr
    obtain ⟨m, hm, hk, hd⟩ := cachedAs_hmm_result (alloc s (CondLikelihood.new deps dim)).2
      (alloc s (CondLikelihood.new deps dim)).1 (CondLikelihood.new deps dim)
      (lookup_append_new _ _) rfl
    rw [cachedAs_heap]
    exact classAndDeps_of_lookup hm hk hd

/-- A node returned by `BackwardHmmLikelihood_DF::create` is an allocated node of the
class with the dependencies given. -/
theorem BackwardHmmLikelihood_DF_create_result {s : State} {deps : NodeRefVec}
    {dim : Dimension} {r : NodeId}
    (hr : (BackwardHmmLikelihood_DF.create s deps dim).value? = some r) :
    classAndDeps (BackwardHmmLikelihood_DF.create s deps dim).state.heap r
      = some (.BackwardHmmLikelihood_DF, deps) := by
  unfold BackwardHmmLikelihood_DF.create at hr ⊢
  cases hck : BackwardHmmLikelihood_DF.checks s.heap deps with
  | error e => rw [hck] at hr; cases hr
  | ok u =>
    cases hnew : BackwardHmmLikelihood_DF.new s.heap deps dim with
    | error e => rw [hck] at hr; simp only [hnew] at hr; cases hr
    | ok n =>
      simp only [hck, hnew, Res.state, Res.value?, Option.some.injEq] at hr ⊢
      subst hr
      have hkind := BackwardHmmLikelihood_DF_new_kind hnew
      have hdeps : n.deps = deps := by
        unfold BackwardHmmLikelihood_DF.new at hnew
        simp only at hnew
        split_ifs at hnew
        simp only [Except.ok.injEq] at hnew
        rw [← hnew]
      obtain ⟨m, hm, hk, hd⟩ := cachedAs_hmm_result (alloc s n).2 (alloc s n).1 n
        (lookup_append_new _ _) (by rw [hkind]; rfl)
      rw [cachedAs_heap]
      exact classAndDeps_of_lookup hm (hk.trans hkind) (hd.trans hdeps)

/-- A node returned by `ForwardHmmLikelihood_DF::create` is an allocated node of the
class with the dependencies given. -/
theorem ForwardHmmLikelihood_DF_create_result {lib : Library} {s : State}
    {deps : NodeRefVec} {dim : Dimension} {r : NodeId}
    (hr : (ForwardHmmLikelihood_DF.create lib s deps dim).value? = some r) :
    classAndDeps (ForwardHmmLikelihood_DF.create lib s deps dim).state.heap r
      = some (.ForwardHmmLikelihood_DF, deps) := by
  have hck : ForwardHmmLikelihood_DF.checks s.heap deps = .ok () := by
    unfold ForwardHmmLikelihood_DF.create at hr
    cases hck : ForwardHmmLikelihood_DF.checks s.heap deps with
    | error e => rw [hck] at hr; cases hr
    | ok u => rfl
  obtain ⟨d0, d1, d2, rfl, t0, t1, t2⟩ := ForwardHmmLikelihood_DF_checks_inv hck
  obtain ⟨extra, h6, m, m0, m1, m2, -, -, -, hm, hmk, hmd, -, -, -, -, -, -, -, hok⟩ :=
    ForwardHmmLikelihood_DF_create_unfold lib s d0 d1 d2 dim t0 t1 t2
  have hno : ¬ ForwardHmmLikelihood_DF.sizeMismatch
      (ForwardHmmLikelihood_DF.targetValues lib s [some d0, some d1, some d2] dim) dim := by
    intro hmis
    obtain ⟨text, bad, correct, he⟩ :=
      (ForwardHmmLikelihood_DF_create_outcome lib s d0 d1 d2 dim t0 t1 t2).1.2 hmis
    have := value?_ok_inv hr
    rw [this] at he
    cases he
  rw [hok hno] at hr ⊢
  simp only [Res.value?, Res.state, Option.some.injEq] at hr ⊢
  subst hr
  obtain ⟨k, hk, hkk, hkd⟩ := cachedAs_hmm_result ⟨h6, s.cache ++ extra⟩ s.heap.length m hm
    (by rw [hmk]; rfl)
  rw [cachedAs_heap]
  exact classAndDeps_of_lookup hk (hkk.trans hmk) (hkd.trans hmd)

/-- Claim C5. In a context whose cache holds allocated nodes only, a `create` request that
returned `r` has left `r` as an allocated node of the class asked for, with the
dependencies given, and the same request repeated in the state it left returns `r` again,
the same node of the same class with the same dependencies; this holds for
`CondLikelihood`, `ForwardHmmLikelihood_DF`, `ForwardHmmDLikelihood_DF`,
`ForwardHmmD2Likelihood_DF` and `BackwardHmmLikelihood_DF`. -/
theorem hmm_create_twice_same_node (lib : Library) (s : State) (dim : Dimension) (r : NodeId)
    (hc : s.CacheInHeap) :
    (∀ deps, (CondLikelihood.create s deps dim).value? = some r →
      classAndDeps (CondLikelihood.create s deps dim).state.heap r
        = some (.CondLikelihood, deps)
      ∧ (CondLikelihood.create (CondLikelihood.create s deps dim).state deps dim).value?
        = some r
      ∧ classAndDeps (CondLikelihood.create (CondLikelihood.create s deps dim).state deps
          dim).state.heap r = some (.CondLikelihood, deps))
    ∧ (∀ deps, (ForwardHmmLikelihood_DF.create lib s deps dim).value? = some r →
      classAndDeps (ForwardHmmLikelihood_DF.create lib s deps dim).state.heap r
        = some (.ForwardHmmLikelihood_DF, deps)
      ∧ (ForwardHmmLikelihood_DF.create lib (ForwardHmmLikelihood_DF.create lib s deps dim).state
        deps dim).value? = some r
      ∧ classAndDeps (ForwardHmmLikelihood_DF.create lib
          (ForwardHmmLikelihood_DF.create lib s deps dim).state deps dim).state.heap r
        = some (.ForwardHmmLikelihood_DF, deps))
    ∧ (∀ deps, (ForwardHmmDLikelihood_DF.create s deps dim).value? = some r →
      classAndDeps (ForwardHmmDLikelihood_DF.create s deps dim).state.heap r
        = some (.ForwardHmmDLikelihood_DF, deps)
      ∧ (ForwardHmmDLikelihood_DF.create (ForwardHmmDLikelihood_DF.create s deps dim).state
        deps dim).value? = some r
      ∧ classAndDeps (ForwardHmmDLikelihood_DF.create
          (ForwardHmmDLikelihood_DF.create s deps dim).state deps dim).state.heap r
        = some (.ForwardHmmDLikelihood_DF, deps))
    ∧ (∀ deps, (ForwardHmmD2Likelihood_DF.create s deps dim).value? = some r →
      classAndDeps (ForwardHmmD2Likelihood_DF.create s deps dim).state.heap r
        = some (.ForwardHmmD2Likelihood_DF, deps)
      ∧ (ForwardHmmD2Likelihood_DF.create (ForwardHmmD2Likelihood_DF.create s deps dim).state
        deps dim).value? = some r
      ∧ classAndDeps (ForwardHmmD2Likelihood_DF.create
          (ForwardHmmD2Likelihood_DF.create s deps dim).state deps dim).state.heap r
        = some (.ForwardHmmD2Likelihood_DF, deps))
    ∧ (∀ deps, (BackwardHmmLikelihood_DF.create s deps dim).value? = some r →
      classAndDeps (BackwardHmmLikelihood_DF.create s deps dim).state.heap r
        = some (.BackwardHmmLikelihood_DF, deps)
      ∧ (BackwardHmmLikelihood_DF.create (BackwardHmmLikelihood_DF.create s deps dim).state
        deps dim).value? = some r
      ∧ classAndDeps (BackwardHmmLikelihood_DF.create
          (BackwardHmmLikelihood_DF.create s deps dim).state deps dim).state.heap r
        = some (.BackwardHmmLikelihood_DF, deps)) := by
  refine ⟨fun deps hr => ?_, fun deps hr => ?_, fun deps hr => ?_, fun deps hr => ?_,
    fun deps hr => ?_⟩
  · have h2 := CondLikelihood_create_twice s deps dim r hc hr
    exact ⟨CondLikelihood_create_result hr, h2, CondLikelihood_create_result h2⟩
  · have h2 := ForwardHmmLikelihood_DF_create_twice lib s deps dim r hc hr
    exact ⟨ForwardHmmLikelihood_DF_create_result hr, h2,
      ForwardHmmLikelihood_DF_create_result h2⟩
  · have h2 := ForwardHmmDLikelihood_DF_create_twice s deps dim r hc hr
    obtain ⟨-, -, m, hm, hk, hd⟩ := ForwardHmmDLikelihood_DF_create_result hr
    obtain ⟨-, -, m2, hm2, hk2, hd2⟩ := ForwardHmmDLikelihood_DF_create_result h2
    exact ⟨classAndDeps_of_lookup hm hk hd, h2, classAndDeps_of_lookup hm2 hk2 hd2⟩
  · have h2 := ForwardHmmD2Likelihood_DF_create_twice s deps dim r hc hr
    obtain ⟨-, -, m, hm, hk, hd⟩ := ForwardHmmD2Likelihood_DF_create_result hr
    obtain ⟨-, -, m2, hm2, hk2, hd2⟩ := ForwardHmmD2Likelihood_DF_create_result h2
    exact ⟨classAndDeps_of_lookup hm hk hd, h2, classAndDeps_of_lookup hm2 hk2 hd2⟩
  · have h2 := BackwardHmmLikelihood_DF_create_twice s deps dim r hc hr
    exact ⟨BackwardHmmLikelihood_DF_create_result hr, h2,
      BackwardHmmLikelihood_DF_create_result h2⟩

theorem hmm_create_twice_same_node_witness :
    (classAndDeps (CondLikelihood.create exampleAfterForward [some 0, some 4]
        ⟨2, 3⟩).state.heap 6 = some (.CondLikelihood, [some 0, some 4])
      ∧ (CondLikelihood.create (CondLikelihood.create exampleAfterForward [some 0, some 4]
        ⟨2, 3⟩).state [some 0, some 4] ⟨2, 3⟩).value? = some 6
      ∧ classAndDeps (CondLikelihood.create (CondLikelihood.create exampleAfterForward
        [some 0, some 4] ⟨2, 3⟩).state [some 0, some 4] ⟨2, 3⟩).state.heap 6
        = some (.CondLikelihood, [some 0, some 4]))
    ∧ (classAndDeps (ForwardHmmLikelihood_DF.create exampleLibrary exampleHmmState
        [some 0, some 1, some 2] ⟨2, 3⟩).state.heap 3
        = some (.ForwardHmmLikelihood_DF, [some 0, some 1, some 2])
      ∧ (ForwardHmmLikelihood_DF.create exampleLibrary
        (ForwardHmmLikelihood_DF.create exampleLibrary exampleHmmState
          [some 0, some 1, some 2] ⟨2, 3⟩).state [some 0, some 1, some 2] ⟨2, 3⟩).value? = some 3
      ∧ classAndDeps (ForwardHmmLikelihood_DF.create exampleLibrary
        (ForwardHmmLikelihood_DF.create exampleLibrary exampleHmmState
          [some 0, some 1, some 2] ⟨2, 3⟩).state [some 0, some 1, some 2] ⟨2, 3⟩).state.heap 3
        = some (.ForwardHmmLikelihood_DF, [some 0, some 1, some 2]))
    ∧ (classAndDeps (ForwardHmmDLikelihood_DF.create exampleAfterForward
        [some 0, some 1, some 2, some 3, some 0, some 1, some 2] ⟨2, 3⟩).state.heap 6
        = some (.ForwardHmmDLikelihood_DF,
            [some 0, some 1, some 2, some 3, some 0, some 1, some 2])
      ∧ (ForwardHmmDLikelihood_DF.create (ForwardHmmDLikelihood_DF.create exampleAfterForward
        [some 0, some 1, some 2, some 3, some 0, some 1, some 2] ⟨2, 3⟩).state
        [some 0, some 1, some 2, some 3, some 0, some 1, some 2] ⟨2, 3⟩).value? = some 6
      ∧ classAndDeps (ForwardHmmDLikelihood_DF.create
        (ForwardHmmDLikelihood_DF.create exampleAfterForward
          [some 0, some 1, some 2, some 3, some 0, some 1, some 2] ⟨2, 3⟩).state
        [some 0, some 1, some 2, some 3, some 0, some 1, some 2] ⟨2, 3⟩).state.heap 6
        = some (.ForwardHmmDLikelihood_DF,
            [some 0, some 1, some 2, some 3, some 0, some 1, some 2]))
    ∧ (classAndDeps (ForwardHmmD2Likelihood_DF.create exampleAfterForwardD
        [some 0, some 1, some 2, some 3, some 0, some 1, some 2, some 6, some 0, some 1, some 2]
        ⟨2, 3⟩).state.heap 9
        = some (.ForwardHmmD2Likelihood_DF,
            [some 0, some 1, some 2, some 3, some 0, some 1, some 2, some 6, some 0, some 1,
              some 2])
      ∧ (ForwardHmmD2Likelihood_DF.create (ForwardHmmD2Likelihood_DF.create exampleAfterForwardD
        [some 0, some 1, some 2, some 3, some 0, some 1, some 2, some 6, some 0, some 1, some 2]
        ⟨2, 3⟩).state
        [some 0, some 1, some 2, some 3, some 0, some 1, some 2, some 6, some 0, some 1, some 2]
        ⟨2, 3⟩).value? = some 9
      ∧ classAndDeps (ForwardHmmD2Likelihood_DF.create
        (ForwardHmmD2Likelihood_DF.create exampleAfterForwardD
          [some 0, some 1, some 2, some 3, some 0, some 1, some 2, some 6, some 0, some 1,
            some 2] ⟨2, 3⟩).state
        [some 0, some 1, some 2, some 3, some 0, some 1, some 2, some 6, some 0, some 1, some 2]
        ⟨2, 3⟩).state.heap 9
        = some (.ForwardHmmD2Likelihood_DF,
            [some 0, some 1, some 2, some 3, some 0, some 1, some 2, some 6, some 0, some 1,
              some 2]))
    ∧ (classAndDeps (BackwardHmmLikelihood_DF.create exampleAfterForward
        [some 3, some 1, some 2] ⟨2, 3⟩).state.heap 6
        = some (.BackwardHmmLikelihood_DF, [some 3, some 1, some 2])
      ∧ (BackwardHmmLikelihood_DF.create (BackwardHmmLikelihood_DF.create exampleAfterForward
        [some 3, some 1, some 2] ⟨2, 3⟩).state [some 3, some 1, some 2] ⟨2, 3⟩).value? = some 6
      ∧ classAndDeps (BackwardHmmLikelihood_DF.create
        (BackwardHmmLikelihood_DF.create exampleAfterForward [some 3, some 1, some 2]
          ⟨2, 3⟩).state [some 3, some 1, some 2] ⟨2, 3⟩).state.heap 6
        = some (.BackwardHmmLikelihood_DF, [some 3, some 1, some 2])) :=
  ⟨(hmm_create_twice_same_node exampleLibrary exampleAfterForward ⟨2, 3⟩ 6 (by decide)).1
      [some 0, some 4] (by decide),
   (hmm_create_twice_same_node exampleLibrary exampleHmmState ⟨2, 3⟩ 3 (by decide)).2.1
      [some 0, some 1, some 2] (by decide),
   (hmm_create_twice_same_node exampleLibrary exampleAfterForward ⟨2, 3⟩ 6 (by decide)).2.2.1
      [some 0, some 1, some 2, some 3, some 0, some 1, some 2] (by decide),
   (hmm_create_twice_same_node exampleLibrary exampleAfterForwardD ⟨2, 3⟩ 9 (by decide)).2.2.2.1
      [some 0, some 1, some 2, some 3, some 0, some 1, some 2, some 6, some 0, some 1, some 2]
      (by decide),
   (hmm_create_twice_same_node exampleLibrary exampleAfterForward ⟨2, 3⟩ 6 (by decide)).2.2.2.2
      [some 3, some 1, some 2] (by decide)⟩

/-- Claim C19. In a context whose cache refers to allocated nodes, and with a library whose
validation of a request does not depend on nodes allocated later:
`makeHomogeneousLikelihoodNodes` returns a node for a rooted tree that can be built, when
the library accepts the requests; and once it has returned a node `r`, the same call in the
context it left returns `r` again and leaves the cache as it is (every node it requests is
a cache hit), `r` being, after the first call and after the second, the root of the graph
built: the `CWiseNegate` node of the `TotalLogLikelihood` node of the
`LikelihoodFromRootConditional` node of the root frequencies node and the
conditional-likelihood node of the root of the tree. -/
theorem makeHomogeneousLikelihoodNodes_twice (lib : Library) (fuel : Nat) (s : State)
    (sites : AlignedValuesContainer) (tree : ConfiguredPhyloTree) (model : ConfiguredModel)
    (rootFreqs : Option ConfiguredFrequenciesSet)
    (hc : s.CacheInHeap) (hv : lib.ValidateStable) :
    (lib.AcceptsAll → tree.getValue.isRooted = true →
      HomogeneousLikelihoodNodesHelper.buildable
        { sites := sites, tree := tree, model := model, rootFreqs := rootFreqs,
          likelihoodMatrixDim :=
            conditionalLikelihoodDimension model.getNumberOfStates sites.getNumberOfSites,
          nbState := model.getNumberOfStates, nbSite := sites.getNumberOfSites }
        s.heap fuel tree.getValue.getRootIndex = true →
      (makeHomogeneousLikelihoodNodes lib fuel s sites tree model rootFreqs).isOk = true)
    ∧ ∀ r : NodeId,
      (makeHomogeneousLikelihoodNodes lib fuel s sites tree model rootFreqs).value? = some r →
      (makeHomogeneousLikelihoodNodes lib fuel
          (makeHomogeneousLikelihoodNodes lib fuel s sites tree model rootFreqs).state
          sites tree model rootFreqs).value? = some r
      ∧ (makeHomogeneousLikelihoodNodes lib fuel
          (makeHomogeneousLikelihoodNodes lib fuel s sites tree model rootFreqs).state
          sites tree model rootFreqs).state.cache
        = (makeHomogeneousLikelihoodNodes lib fuel s sites tree model rootFreqs).state.cache
      ∧ ∃ (rootConditionalLikelihoods rFreqs siteLikelihoods totalLogLikelihood : NodeId)
          (sA sB : State),
        (HomogeneousLikelihoodNodesHelper.makeConditionalLikelihoodNode
            { sites := sites, tree := tree, model := model, rootFreqs := rootFreqs,
              likelihoodMatrixDim :=
                conditionalLikelihoodDimension model.getNumberOfStates sites.getNumberOfSites,
              nbState := model.getNumberOfStates, nbSite := sites.getNumberOfSites }
            lib fuel s tree.getValue.getRootIndex = .ok rootConditionalLikelihoods sA)
        ∧ makeRootFrequencies lib sA model rootFreqs model.getNumberOfStates = .ok rFreqs sB
        ∧ classAndDeps (makeHomogeneousLikelihoodNodes lib fuel s sites tree model
            rootFreqs).state.heap r = some (.CWiseNegate, [some totalLogLikelihood])
        ∧ classAndDeps (makeHomogeneousLikelihoodNodes lib fuel s sites tree model
            rootFreqs).state.heap totalLogLikelihood
            = some (.TotalLogLikelihood, [some siteLikelihoods])
        ∧ classAndDeps (makeHomogeneousLikelihoodNodes lib fuel s sites tree model
            rootFreqs).state.heap siteLikelihoods
            = some (.LikelihoodFromRootConditional,
                [some rFreqs, some rootConditionalLikelihoods])
        ∧ classAndDeps (makeHomogeneousLikelihoodNodes lib fuel
            (makeHomogeneousLikelihoodNodes lib fuel s sites tree model rootFreqs).state
            sites tree model rootFreqs).state.heap r
            = some (.CWiseNegate, [some totalLogLikelihood])
        ∧ classAndDeps (makeHomogeneousLikelihoodNodes lib fuel
            (makeHomogeneousLikelihoodNodes lib fuel s sites tree model rootFreqs).state
            sites tree model rootFreqs).state.heap totalLogLikelihood
            = some (.TotalLogLikelihood, [some siteLikelihoods])
        ∧ classAndDeps (makeHomogeneousLikelihoodNodes lib fuel
            (makeHomogeneousLikelihoodNodes lib fuel s sites tree model rootFreqs).state
            sites tree model rootFreqs).state.heap siteLikelihoods
            = some (.LikelihoodFromRootConditional,
                [some rFreqs, some rootConditionalLikelihoods]) := by
  refine ⟨fun ha hroot hb =>
    makeHomogeneousLikelihoodNodes_returns ha fuel s sites tree model rootFreqs hroot hb, ?_⟩
  intro r hr
  obtain ⟨-, rA⟩ := makeHomogeneousLikelihoodNodes_repeatable lib hv fuel sites tree model
    rootFreqs s
  obtain ⟨-, rep⟩ := rA hc
  obtain ⟨s3, e3, c3, p3⟩ := rep r _ (value?_ok_inv hr) _ (Later_refl _)
  simp only at e3
  obtain ⟨-, rootCond, rFreqs, siteLik, total, sA, sB, sC, sD, hA, hB, hC, hD, hE⟩ :=
    makeHomogeneousLikelihoodNodes_inv hr
  obtain ⟨pC, nC, lC, kC, dC, -⟩ := createNode_spec (by rfl) hC
  obtain ⟨pD, nD, lD, kD, dD, -⟩ := createNode_spec (by rfl) hD
  obtain ⟨pE, nE, lE, kE, dE, -⟩ := createNode_spec (by rfl) hE
  have lC2 := getElem?_of_append pE (getElem?_of_append pD lC)
  have lD2 := getElem?_of_append pE lD
  rw [e3]
  refine ⟨rfl, c3, rootCond, rFreqs, siteLik, total, sA, sB, hA, hB,
    classAndDeps_of_lookup lE kE dE, classAndDeps_of_lookup lD2 kD dD,
    classAndDeps_of_lookup lC2 kC dC,
    classAndDeps_of_lookup (getElem?_of_append p3 lE) kE dE,
    classAndDeps_of_lookup (getElem?_of_append p3 lD2) kD dD,
    classAndDeps_of_lookup (getElem?_of_append p3 lC2) kC dC⟩

theorem makeHomogeneousLikelihoodNodes_twice_witness :
    exampleTreeState.CacheInHeap ∧ exampleLibrary.ValidateStable
    ∧ (makeHomogeneousLikelihoodNodes exampleLibrary 5 exampleTreeState exampleSites
        (exampleConfiguredTree exampleRootedTree) exampleModel none).isOk = true
    ∧ (makeHomogeneousLikelihoodNodes exampleLibrary 5 exampleTreeState exampleSites
        (exampleConfiguredTree exampleRootedTree) exampleModel none).value? = some 14
    ∧ (makeHomogeneousLikelihoodNodes exampleLibrary 5
        (makeHomogeneousLikelihoodNodes exampleLibrary 5 exampleTreeState exampleSites
          (exampleConfiguredTree exampleRootedTree) exampleModel none).state
        exampleSites (exampleConfiguredTree exampleRootedTree) exampleModel none).value?
      = some 14
    ∧ (makeHomogeneousLikelihoodNodes exampleLibrary 5
        (makeHomogeneousLikelihoodNodes exampleLibrary 5 exampleTreeState exampleSites
          (exampleConfiguredTree exampleRootedTree) exampleModel none).state
        exampleSites (exampleConfiguredTree exampleRootedTree) exampleModel none).state.cache
      = (makeHomogeneousLikelihoodNodes exampleLibrary 5 exampleTreeState exampleSites
          (exampleConfiguredTree exampleRootedTree) exampleModel none).state.cache
    ∧ ∃ (rootConditionalLikelihoods rFreqs siteLikelihoods totalLogLikelihood : NodeId),
      classAndDeps (makeHomogeneousLikelihoodNodes exampleLibrary 5 exampleTreeState
          exampleSites (exampleConfiguredTree exampleRootedTree) exampleModel none).state.heap 14
          = some (.CWiseNegate, [some totalLogLikelihood])
      ∧ classAndDeps (makeHomogeneousLikelihoodNodes exampleLibrary 5 exampleTreeState
          exampleSites (exampleConfiguredTree exampleRootedTree) exampleModel none).state.heap
          totalLogLikelihood = some (.TotalLogLikelihood, [some siteLikelihoods])
      ∧ classAndDeps (makeHomogeneousLikelihoodNodes exampleLibrary 5 exampleTreeState
          exampleSites (exampleConfiguredTree exampleRootedTree) exampleModel none).state.heap
          siteLikelihoods
          = some (.LikelihoodFromRootConditional, [some rFreqs, some rootConditionalLikelihoods])
      ∧ classAndDeps (makeHomogeneousLikelihoodNodes exampleLibrary 5
          (makeHomogeneousLikelihoodNodes exampleLibrary 5 exampleTreeState exampleSites
            (exampleConfiguredTree exampleRootedTree) exampleModel none).state
          exampleSites (exampleConfiguredTree exampleRootedTree) exampleModel none).state.heap 14
          = some (.CWiseNegate, [some totalLogLikelihood])
      ∧ classAndDeps (makeHomogeneousLikelihoodNodes exampleLibrary 5
          (makeHomogeneousLikelihoodNodes exampleLibrary 5 exampleTreeState exampleSites
            (exampleConfiguredTree exampleRootedTree) exampleModel none).state
          exampleSites (exampleConfiguredTree exampleRootedTree) exampleModel none).state.heap
          totalLogLikelihood = some (.TotalLogLikelihood, [some siteLikelihoods])
      ∧ classAndDeps (makeHomogeneousLikelihoodNodes exampleLibrary 5
          (makeHomogeneousLikelihoodNodes exampleLibrary 5 exampleTreeState exampleSites
            (exampleConfiguredTree exampleRootedTree) exampleModel none).state
          exampleSites (exampleConfiguredTree exampleRootedTree) exampleModel none).state.heap
          siteLikelihoods
          = some (.LikelihoodFromRootConditional,
              [some rFreqs, some rootConditionalLikelihoods]) := by
  refine ⟨by decide, fun _ _ _ _ _ _ _ => rfl,
    (makeHomogeneousLikelihoodNodes_twice exampleLibrary 5 exampleTreeState exampleSites
      (exampleConfiguredTree exampleRootedTree) exampleModel none (by decide)
      (fun _ _ _ _ _ _ _ => rfl)).1 (fun _ _ _ _ => rfl) (by decide) (by decide),
    by decide, ?_⟩
  obtain ⟨h1, h2, a, b, c, d, -, -, -, -, g1, g2, g3, g4, g5, g6⟩ :=
    (makeHomogeneousLikelihoodNodes_twice exampleLibrary 5 exampleTreeState exampleSites
      (exampleConfiguredTree exampleRootedTree) exampleModel none (by decide)
      (fun _ _ _ _ _ _ _ => rfl)).2 14 (by decide)
  exact ⟨h1, h2, a, b, c, d, g1, g2, g3, g4, g5, g6⟩

end bpp
